import Mathlib

/-!
# Habitability scoring engine (geo.js, scoring.js, data.js)

A shallow embedding of the spatial utilities of `src/src/geo.js` and of the scoring
logic of `src/src/scoring.js`.

JavaScript numbers are modelled by an arbitrary linearly ordered field `α` with a floor
function (exact arithmetic, without the rounding and the overflow of doubles: `ℚ` for
executable runs, `ℝ` where the great-circle distance is involved).  The functions that
call `haversineKm` receive the distance function as their first argument `dist`, so that
they stay executable; `haversineKm` itself is defined over `ℝ`.  Values that JavaScript
would represent by `NaN`, `undefined` or `Infinity` are made explicit with `Option` and
`WithTop`, and a thrown `TypeError` is an outcome of its own (`Outcome`).  The polygon
classification takes a distance function that may return `NaN` (`none`), which
`haversineKm` does in double arithmetic when the term under its square roots rounds
above 1; over the reals it never does.
-/

namespace Habitability

/-! ## Data model -/

/-- Point of interest: an element of the amenity dataset (`features.json`). -/
structure Point (α : Type) where
  name : String
  type : String
  latitude : α
  longitude : α

/-- Polygon feature: `coordinates` is the ring of `[lng, lat]` pairs, `fields` reads a
numeric attribute of the object by its property name (`none` when the property is
absent, that is `undefined`). -/
structure Polygon (α : Type) where
  aspect : String
  zone_type : String
  coordinates : List (α × α)
  fields : String → Option α

/-- An element `{ point, distKm }` of the candidate lists of `nearbyFromIndex`. -/
structure Candidate (α : Type) where
  point : Point α
  distKm : α

/-- The weight configuration `WEIGHTS` of scoring.js. -/
structure Weights (α : Type) where
  amenity : α
  polygons : α
  penalty : α

/-- An argument of `setWeights`: an object carrying any subset of the three fields. -/
structure PartialWeights (α : Type) where
  amenity : Option α
  polygons : Option α
  penalty : Option α

/-- An entry `{min, max, invert}` of `POLY_NORMAL_RANGES`. -/
structure Range (α : Type) where
  min : α
  max : α
  invert : Bool

/-- An entry `{ raw, norm }` of the `details` object of `polygonScore`. -/
structure AspectDetail (α : Type) where
  raw : α
  norm : α

/-- The result `{ score, details }` of `polygonScore`. -/
structure PolygonScore (α : Type) where
  score : α
  details : List (String × AspectDetail α)

/-- The objects `components` and `weighted` of a score result. -/
structure Components (α : Type) where
  amenity : α
  polygons : α
  penalty : α

/-- The object returned by `computeHabitability`. -/
structure ScoreResult (α : Type) where
  lat : α
  lng : α
  finalScore : α
  components : Components α
  weighted : Components α
  polyDetails : List (String × AspectDetail α)
  weights : Weights α

/-- A JavaScript `Map` (or plain object) from string keys to arrays, as the list of its
entries in insertion order. -/
abbrev Buckets (β : Type) := List (String × List β)

/-- The value `{ index, cellSizeDeg }` returned by `buildGridIndex`. -/
structure GridIndex (α : Type) where
  index : Buckets (Point α)
  cellSizeDeg : α

/-- The module state of data.js that the scorer reads through `getAmenities`,
`getPolygons` and `getGridIndex` (`gridIndex` is `none` for `null`). -/
structure Dataset (α : Type) where
  amenities : List (Point α)
  polygons : List (Polygon α)
  gridIndex : Option (GridIndex α)

/-! ## Maps with string keys -/

/-- The method `has(key)`. -/
def Buckets.has {β : Type} (m : Buckets β) (key : String) : Bool :=
  m.any (fun e => e.1 == key)

/-- The method `get(key)`, or the property read `m[key]`; `none` is `undefined`. -/
def Buckets.get {β : Type} (m : Buckets β) (key : String) : Option (List β) :=
  (m.find? (fun e => e.1 == key)).map (fun e => e.2)

/-- The method `set(key, value)`, or the assignment `m[key] = value`: replaces the value
of an existing key in place, appends a new entry otherwise. -/
def Buckets.set {β : Type} : Buckets β → String → List β → Buckets β
  | [], key, value => [(key, value)]
  | e :: rest, key, value =>
    if e.1 == key then (key, value) :: rest else e :: Buckets.set rest key value

/-- The statement `m.get(key).push(p)`: appends `p` to the array stored under `key`. -/
def Buckets.push {β : Type} : Buckets β → String → β → Buckets β
  | [], _, _ => []
  | e :: rest, key, p =>
    if e.1 == key then (e.1, e.2 ++ [p]) :: rest else e :: Buckets.push rest key p

/-! ## geo.js -/

section Geo

variable {α : Type} [LinearOrderedField α] [FloorRing α]

/-- The key `gx + ':' + gy` of a grid cell. -/
def cellKey (gx gy : ℤ) : String := toString gx ++ ":" ++ toString gy

/-- The default value `0.01` of the parameter `cellSizeDeg`. -/
def defaultCellSizeDeg : α := 1 / 100

/-- The function `buildGridIndex(points, cellSizeDeg)` of geo.js, for a cell size other
than zero (at zero the quotients are `Infinity`, `-Infinity` or `NaN` in JavaScript,
which the floor of the model does not represent). -/
def buildGridIndex (points : List (Point α)) (cellSizeDeg : α) : GridIndex α :=
  let index := points.foldl (fun (index : Buckets (Point α)) p =>
    let gx := ⌊p.longitude / cellSizeDeg⌋
    let gy := ⌊p.latitude / cellSizeDeg⌋
    let key := cellKey gx gy
    let index := if !index.has key then index.set key [] else index
    index.push key p) []
  { index := index, cellSizeDeg := cellSizeDeg }

/-- The default value `2.5` of the parameter `radiusKm` of `nearbyFromIndex`. -/
def defaultRadiusKm : α := 25 / 10

/-- The values `-2, -1, 0, 1, 2` taken by the loop variables `dx` and `dy`. -/
def cellOffsets : List ℤ := [-2, -1, 0, 1, 2]

/-- The function `nearbyFromIndex(grid, lat, lng, radiusKm)` of geo.js, for a grid whose
cell size is not zero; `dist` stands for `haversineKm`. -/
def nearbyFromIndex (dist : α → α → α → α → α) (grid : GridIndex α) (lat lng : α)
    (radiusKm : α) : List (Candidate α) :=
  let gx := ⌊lng / grid.cellSizeDeg⌋
  let gy := ⌊lat / grid.cellSizeDeg⌋
  cellOffsets.flatMap fun dx =>
    cellOffsets.flatMap fun dy =>
      let key := cellKey (gx + dx) (gy + dy)
      match grid.index.get key with
      | none => []
      | some bucket =>
        bucket.filterMap fun p =>
          let d := dist lat lng p.latitude p.longitude
          if d ≤ radiusKm then some { point := p, distKm := d } else none

/-- The test `intersect` of one iteration of the loop of `pointInPolygon`; `&&` evaluates
its right operand only when the left one is true. -/
def edgeIntersect (x y xi yi xj yj : α) : Bool :=
  (decide (yi > y) != decide (yj > y)) &&
    decide (x < (xj - xi) * (y - yi) / (yj - yi) + xi)

/-- The function `pointInPolygon(point, polygon)` of geo.js: the loop state is
`(inside, j)`. -/
def pointInPolygon (point : α × α) (polygon : List (α × α)) : Bool :=
  let x := point.1
  let y := point.2
  ((List.range polygon.length).foldl (fun (st : Bool × ℕ) i =>
    let inside := st.1
    let j := st.2
    let xi := (polygon.getD i (0, 0)).1
    let yi := (polygon.getD i (0, 0)).2
    let xj := (polygon.getD j (0, 0)).1
    let yj := (polygon.getD j (0, 0)).2
    let intersect := edgeIntersect x y xi yi xj yj
    (if intersect then !inside else inside, i)) (false, polygon.length - 1)).1

/-- The divisors `yj - yi` that `pointInPolygon` evaluates, in loop order: the division
is the right operand of `&&`, so it is evaluated on the edges whose left operand
`(yi > y) !== (yj > y)` is true. -/
def evaluatedDivisors (point : α × α) (polygon : List (α × α)) : List α :=
  let y := point.2
  ((List.range polygon.length).foldl (fun (st : List α × ℕ) i =>
    let j := st.2
    let yi := (polygon.getD i (0, 0)).2
    let yj := (polygon.getD j (0, 0)).2
    (if decide (yi > y) != decide (yj > y) then st.1 ++ [yj - yi] else st.1, i))
    ([], polygon.length - 1)).1

/-- The function `centroidLonLat(coords)` of geo.js; `none` on an empty array, where
JavaScript computes `0 / 0`, that is `NaN`. -/
def centroidLonLat (coords : List (α × α)) : Option (α × α) :=
  let s := coords.foldl (fun (s : α × α) c => (s.1 + c.1, s.2 + c.2)) (0, 0)
  if coords.length = 0 then none
  else some (s.1 / (coords.length : α), s.2 / (coords.length : α))

end Geo

/-- The function `Math.atan2(y, x)` on real numbers. -/
noncomputable def atan2 (y x : ℝ) : ℝ :=
  if 0 < x then Real.arctan (y / x)
  else if x < 0 then
    (if 0 ≤ y then Real.arctan (y / x) + Real.pi else Real.arctan (y / x) - Real.pi)
  else if 0 < y then Real.pi / 2
  else if y < 0 then -(Real.pi / 2)
  else 0

/-- The function `haversineKm(lat1, lon1, lat2, lon2)` of geo.js over the reals. -/
noncomputable def haversineKm (lat1 lon1 lat2 lon2 : ℝ) : ℝ :=
  let R : ℝ := 6371
  let dLat := (lat2 - lat1) * Real.pi / 180
  let dLon := (lon2 - lon1) * Real.pi / 180
  let a := Real.sin (dLat / 2) ^ 2 +
    Real.cos (lat1 * Real.pi / 180) * Real.cos (lat2 * Real.pi / 180) *
      Real.sin (dLon / 2) ^ 2
  R * 2 * atan2 (Real.sqrt a) (Real.sqrt (1 - a))

section Scoring

variable {α : Type} [LinearOrderedField α] [FloorRing α]

/-! ## scoring.js: constants -/

def POSITIVE_TYPES : List String :=
  ["park", "grocery", "school", "hospital", "clinic", "pharmacy", "community_center",
   "library", "museum", "place_of_worship", "shopping", "recreation", "gym",
   "bike_station", "ferry_terminal", "university", "bank", "cafe", "garden"]

def NEGATIVE_TYPES : List String :=
  ["industrial_complex", "power_plant", "rail_yard", "sanitation_facility", "jail",
   "prison", "waste_facility", "hazardous_waste", "chemical_plant", "incinerator",
   "morgue", "adult_entertainment", "pawn_shop", "check_cashing", "payday_loans",
   "homeless_shelter", "rehab_center", "methadone_clinic", "needle_exchange",
   "psychiatric_facility", "landfill", "dump_site", "noise_pollution",
   "pollution_monitor", "sewage_overflow", "contaminated_site", "abandoned_building",
   "crime_hotspot", "funeral_home", "crematorium"]

/-- The initial value of `WEIGHTS`: `{ amenity:0.4, polygons:0.4, penalty:0.2 }`. -/
def initialWeights : Weights α :=
  { amenity := 4 / 10, polygons := 4 / 10, penalty := 2 / 10 }

def AMENITY_TYPE_WEIGHTS : List (String × α) :=
  [("park", 1), ("grocery", 1), ("school", 11 / 10), ("hospital", 11 / 10),
   ("clinic", 7 / 10), ("pharmacy", 6 / 10), ("community_center", 7 / 10),
   ("library", 6 / 10), ("museum", 5 / 10), ("place_of_worship", 3 / 10),
   ("shopping", 4 / 10), ("recreation", 6 / 10), ("gym", 5 / 10),
   ("bike_station", 8 / 10), ("ferry_terminal", 8 / 10), ("university", 5 / 10),
   ("bank", 2 / 10), ("cafe", 2 / 10), ("garden", 9 / 10)]

def NEGATIVE_TYPE_WEIGHTS : List (String × α) :=
  [("crime_hotspot", 12 / 10), ("jail", 1), ("prison", 11 / 10),
   ("homeless_shelter", 8 / 10), ("rehab_center", 7 / 10), ("methadone_clinic", 7 / 10),
   ("needle_exchange", 6 / 10), ("psychiatric_facility", 5 / 10),
   ("industrial_complex", 9 / 10), ("power_plant", 9 / 10), ("rail_yard", 8 / 10),
   ("sanitation_facility", 8 / 10), ("waste_facility", 1), ("hazardous_waste", 12 / 10),
   ("chemical_plant", 12 / 10), ("incinerator", 11 / 10), ("morgue", 4 / 10),
   ("adult_entertainment", 4 / 10), ("pawn_shop", 5 / 10), ("check_cashing", 5 / 10),
   ("payday_loans", 5 / 10), ("landfill", 11 / 10), ("dump_site", 1),
   ("noise_pollution", 6 / 10), ("pollution_monitor", 3 / 10), ("sewage_overflow", 1),
   ("contaminated_site", 11 / 10), ("abandoned_building", 8 / 10),
   ("funeral_home", 4 / 10), ("crematorium", 6 / 10)]

def POSITIVE_MAX_DIST_KM : α := 2

def NEGATIVE_RADIUS_KM : α := 15 / 10

def POLY_NORMAL_RANGES : List (String × Range α) :=
  [("air_quality_index", { min := 11, max := 22, invert := false }),
   ("crime_rate", { min := 28 / 10, max := 67 / 10, invert := true }),
   ("median_rent", { min := 3400, max := 5800, invert := true }),
   ("school_quality", { min := 64 / 10, max := 91 / 10, invert := false }),
   ("transit_distance", { min := 5 / 100, max := 45 / 100, invert := true })]

/-! ## scoring.js: decay and normalize -/

/-- The function `decay(distKm, maxDist)` of scoring.js. -/
def decay (distKm maxDist : α) : α :=
  if distKm ≥ maxDist then 0
  else
    let r := 1 - distKm / maxDist
    r * r

/-- The function `normalize(value, {min, max, invert})` of scoring.js; `max - min || 1`
is `1` when `max - min` is zero. -/
def normalize (value : α) (range : Range α) : α :=
  let clamped := Min.min (Max.max value range.min) range.max
  let n := (clamped - range.min) /
    (if range.max - range.min = 0 then 1 else range.max - range.min)
  if range.invert then 1 - n else n


/-! ## scoring.js: weight configuration -/

/-- The function `setWeights(w)`: the new value of `WEIGHTS` is `{ ...WEIGHTS, ...w }`. -/
def setWeights (WEIGHTS : Weights α) (w : PartialWeights α) : Weights α :=
  { amenity := w.amenity.getD WEIGHTS.amenity
    polygons := w.polygons.getD WEIGHTS.polygons
    penalty := w.penalty.getD WEIGHTS.penalty }

/-- The function `getWeights()`: the returned copy `{ ...WEIGHTS }`, paired with the
value of `WEIGHTS` after the call. -/
def getWeights (WEIGHTS : Weights α) : Weights α × Weights α :=
  ({ amenity := WEIGHTS.amenity, polygons := WEIGHTS.polygons, penalty := WEIGHTS.penalty },
   WEIGHTS)

/-! ## scoring.js: amenity and penalty scores -/

/-- The lookup `TABLE[type] || dflt`: the default is taken when the table has no entry
for the type, or a zero one. -/
def typeWeight (table : List (String × α)) (type : String) (dflt : α) : α :=
  match table.lookup type with
  | some w => if w = 0 then dflt else w
  | none => dflt

/-- The candidate list of `amenityScore`: the index query when a grid index is there, the
map over all amenities otherwise. -/
def amenityCandidates (dist : α → α → α → α → α) (data : Dataset α) (lat lng : α) :
    List (Candidate α) :=
  match data.gridIndex with
  | some grid => nearbyFromIndex dist grid lat lng POSITIVE_MAX_DIST_KM
  | none => data.amenities.map fun a =>
      { point := a, distKm := dist lat lng a.latitude a.longitude }

/-- The loop of `amenityScore` and its return statement, on a candidate list; the loop
state is `(total, weightSum)`. -/
def amenityScoreOf (candidates : List (Candidate α)) : α :=
  let acc := candidates.foldl (fun (acc : α × α) c =>
    let a := c.point
    let d := c.distKm
    if !POSITIVE_TYPES.contains a.type then acc
    else
      let w := typeWeight AMENITY_TYPE_WEIGHTS a.type (3 / 10)
      let contrib := decay d POSITIVE_MAX_DIST_KM * w
      (acc.1 + contrib, acc.2 + w)) (0, 0)
  let total := acc.1
  let weightSum := acc.2
  if weightSum = 0 then 0 else total / weightSum * 100

/-- The function `amenityScore(lat, lng)` of scoring.js. -/
def amenityScore (dist : α → α → α → α → α) (data : Dataset α) (lat lng : α) : α :=
  amenityScoreOf (amenityCandidates dist data lat lng)

/-- The candidate list of `penaltyScore`. -/
def penaltyCandidates (dist : α → α → α → α → α) (data : Dataset α) (lat lng : α) :
    List (Candidate α) :=
  match data.gridIndex with
  | some grid => nearbyFromIndex dist grid lat lng NEGATIVE_RADIUS_KM
  | none => data.amenities.map fun a =>
      { point := a, distKm := dist lat lng a.latitude a.longitude }

/-- The loop of `penaltyScore` and its return statement, on a candidate list. -/
def penaltyScoreOf (candidates : List (Candidate α)) : α :=
  let acc := candidates.foldl (fun (acc : α × α) c =>
    let a := c.point
    let d := c.distKm
    if !NEGATIVE_TYPES.contains a.type then acc
    else
      let w := typeWeight NEGATIVE_TYPE_WEIGHTS a.type (5 / 10)
      let contrib := decay d NEGATIVE_RADIUS_KM * w
      (acc.1 + contrib, acc.2 + w)) (0, 0)
  let total := acc.1
  let weightSum := acc.2
  if weightSum = 0 then 0 else total / weightSum * 100

/-- The function `penaltyScore(lat, lng)` of scoring.js. -/
def penaltyScore (dist : α → α → α → α → α) (data : Dataset α) (lat lng : α) : α :=
  penaltyScoreOf (penaltyCandidates dist data lat lng)

/-! ## scoring.js: polygon attributes and polygon score -/

/-- What a call of a scoring function produces: a returned value, a returned object whose
score is `NaN`, or a thrown `TypeError`. -/
inductive Outcome (β : Type) where
  | value (v : β)
  | notANumber
  | typeError

/-- The property names that the object literal `{}` inherits from `Object.prototype`.
For such a name `byAspect[name]` reads the inherited member, which is truthy and has no
method `push`. -/
def objectPrototypeNames : List String :=
  ["constructor", "__defineGetter__", "__defineSetter__", "hasOwnProperty",
   "__lookupGetter__", "__lookupSetter__", "isPrototypeOf", "propertyIsEnumerable",
   "toString", "valueOf", "__proto__", "toLocaleString"]

/-- The object `byAspect` of `polygonAttributes`: each polygon is pushed to the array of
its aspect, `(byAspect[p.aspect] = byAspect[p.aspect] || []).push(p)`.  The result is
`none` when the statement throws a `TypeError`: for an aspect named like a member of
`Object.prototype` the left operand of `||` is that member, and `push` is not a function
of it. -/
def groupByAspect (polygons : List (Polygon α)) : Option (Buckets (Polygon α)) :=
  polygons.foldl (fun (st : Option (Buckets (Polygon α))) p =>
    match st with
    | none => none
    | some byAspect =>
      if objectPrototypeNames.contains p.aspect then none
      else
        let byAspect := byAspect.set p.aspect ((byAspect.get p.aspect).getD [])
        some (byAspect.push p.aspect p)) (some [])

/-- The fallback loop of `polygonAttributes`: the loop state is `(best, bestD)`, with
`⊤` for `Infinity`.  The distance `d` is `NaN` on an empty ring, whose centroid is `NaN`,
and where the distance function `dist` returns `NaN` (`none`); then `d < bestD` is
false. -/
def nearestByCentroid (dist : α → α → α → α → Option α) (lat lng : α)
    (polys : List (Polygon α)) : Option (Polygon α) :=
  (polys.foldl (fun (st : Option (Polygon α) × WithTop α) poly =>
    match centroidLonLat poly.coordinates with
    | none => st
    | some c =>
      match dist lat lng c.2 c.1 with
      | none => st
      | some d => if (d : WithTop α) < st.2 then (some poly, (d : WithTop α)) else st)
    (none, ⊤)).1

/-- The value `chosen` that `polygonAttributes` computes for the polygons of one aspect
(`none` is `null`). -/
def choosePolygon (dist : α → α → α → α → Option α) (lat lng : α)
    (polys : List (Polygon α)) : Option (Polygon α) :=
  match polys.find? (fun poly => pointInPolygon (lng, lat) poly.coordinates) with
  | some poly => some poly
  | none => nearestByCentroid dist lat lng polys

/-- The function `polygonAttributes(lat, lng)` of scoring.js: the object `result`, as
the list of its entries, one for each aspect in the order of first occurrence; `none`
when the grouping loop throws.  The distance function `dist` stands for `haversineKm`,
with `none` for a result `NaN`.  The entries are read by key only (`List.lookup`), so the
order in which `Object.keys` lists them does not matter. -/
def polygonAttributes (dist : α → α → α → α → Option α) (polygons : List (Polygon α))
    (lat lng : α) : Option (List (String × Option (Polygon α))) :=
  match groupByAspect polygons with
  | none => none
  | some byAspect => some (byAspect.map fun e => (e.1, choosePolygon dist lat lng e.2))

/-- The expression `poly[aspect] ?? poly.transit_distance`; `none` is `undefined`. -/
def rawValue (poly : Polygon α) (aspect : String) : Option α :=
  match poly.fields aspect with
  | some v => some v
  | none => poly.fields "transit_distance"

/-- One iteration of the loop of `polygonScore` over the keys of `POLY_NORMAL_RANGES`; the
loop state is `(total, count, details)`, and `none` once a chosen polygon had no numeric
value to read (`raw` is `undefined`, `norm` and `total` are `NaN`). -/
def polygonScoreStep (attrs : List (String × Option (Polygon α)))
    (st : Option (α × ℕ × List (String × AspectDetail α))) (entry : String × Range α) :
    Option (α × ℕ × List (String × AspectDetail α)) :=
  match st with
  | none => none
  | some (total, count, details) =>
    let aspect := entry.1
    match attrs.lookup aspect with
    | some (some poly) =>
      let range := entry.2
      match rawValue poly aspect with
      | none => none
      | some raw =>
        let norm := normalize raw range
        some (total + norm, count + 1, details ++ [(aspect, { raw := raw, norm := norm })])
    | _ => some (total, count, details)

/-- The function `polygonScore(lat, lng)` of scoring.js.  The outcome is `typeError` when
`polygonAttributes` throws, and `notANumber` when a chosen polygon has no numeric value
to read: the returned `score` is then `NaN`. -/
def polygonScore (dist : α → α → α → α → Option α) (polygons : List (Polygon α))
    (lat lng : α) : Outcome (PolygonScore α) :=
  match polygonAttributes dist polygons lat lng with
  | none => Outcome.typeError
  | some attrs =>
    match POLY_NORMAL_RANGES.foldl (polygonScoreStep attrs) (some (0, 0, [])) with
    | none => Outcome.notANumber
    | some (total, count, details) =>
      Outcome.value
        { score := if count = 0 then 0 else total / (count : α) * 100, details := details }

/-! ## scoring.js: computeHabitability -/

/-- The function `computeHabitability(lat, lng)` of scoring.js, reading the datasets
`data` and the configuration `WEIGHTS`, over exact arithmetic: the distance `dist` is a
number for all arguments, and no product or sum overflows.  The outcome is `typeError`
when `polygonScore` throws, and `notANumber` when the polygon score is `NaN`: then
`polygonComponent` and `finalScore` are `NaN` too, as `Math.min` and `Math.max` return
`NaN` on a `NaN` argument. -/
def computeHabitability (dist : α → α → α → α → α) (data : Dataset α)
    (WEIGHTS : Weights α) (lat lng : α) : Outcome (ScoreResult α) :=
  let amenity := amenityScore dist data lat lng
  let penaltyRaw := penaltyScore dist data lat lng
  match polygonScore (fun a b c d => some (dist a b c d)) data.polygons lat lng with
  | Outcome.typeError => Outcome.typeError
  | Outcome.notANumber => Outcome.notANumber
  | Outcome.value ps =>
    let polyScore := ps.score
    let details := ps.details
    let amenityComponent := amenity * WEIGHTS.amenity
    let polygonComponent := polyScore * WEIGHTS.polygons
    let penaltyComponent := penaltyRaw * WEIGHTS.penalty
    let final := Max.max 0 (Min.min 100 (amenityComponent + polygonComponent - penaltyComponent))
    Outcome.value
      { lat := lat
        lng := lng
        finalScore := final
        components := { amenity := amenity, polygons := polyScore, penalty := penaltyRaw }
        weighted :=
          { amenity := amenityComponent, polygons := polygonComponent,
            penalty := penaltyComponent }
        polyDetails := details
        weights := (getWeights WEIGHTS).1 }

end Scoring

/-! ## Auxiliary definitions -/

section Auxiliary

variable {α : Type} [LinearOrderedField α]

/-- The loop and return statement common to `amenityScore` and `penaltyScore`, with the
category set, the weight table, the default weight and the cutoff as parameters. -/
def proximityScoreOf (types : List String) (table : List (String × α)) (dflt maxDist : α)
    (candidates : List (Candidate α)) : α :=
  let acc := candidates.foldl (fun (acc : α × α) c =>
    let a := c.point
    let d := c.distKm
    if !types.contains a.type then acc
    else
      let w := typeWeight table a.type dflt
      let contrib := decay d maxDist * w
      (acc.1 + contrib, acc.2 + w)) (0, 0)
  let total := acc.1
  let weightSum := acc.2
  if weightSum = 0 then 0 else total / weightSum * 100

end Auxiliary

section SpecDefinitions

variable {α : Type} [LinearOrderedField α]

/-- The candidates that qualify: those whose category is in the given category set. -/
def qualifying (types : List String) (candidates : List (Candidate α)) :
    List (Candidate α) :=
  candidates.filter (fun c => types.contains c.point.type)

/-- The per-category weight of a candidate: the table entry of its category, the default
for a category that the table does not list. -/
def categoryWeight (table : List (String × α)) (dflt : α) (c : Candidate α) : α :=
  (table.lookup c.point.type).getD dflt

/-- The sum of the weights of the qualifying candidates. -/
def weightTotal (types : List String) (table : List (String × α)) (dflt : α)
    (candidates : List (Candidate α)) : α :=
  ((qualifying types candidates).map (categoryWeight table dflt)).sum

/-- The sum of decay times weight over the qualifying candidates. -/
def decayTotal (types : List String) (table : List (String × α)) (dflt maxDist : α)
    (candidates : List (Candidate α)) : α :=
  ((qualifying types candidates).map
    (fun c => decay c.distKm maxDist * categoryWeight table dflt c)).sum

/-- The score as the specification words it: `100 × Σ(decay × weight) / Σ(weight)` over
the qualifying candidates, and `0` when no candidate qualifies. -/
def weightedDecayMean (types : List String) (table : List (String × α)) (dflt maxDist : α)
    (candidates : List (Candidate α)) : α :=
  if (qualifying types candidates).isEmpty then 0
  else 100 * decayTotal types table dflt maxDist candidates /
    weightTotal types table dflt candidates

end SpecDefinitions

/-- Appending `p` to the array under `key`, creating the entry at the end when the key is
new: what the two grouping loops (`buildGridIndex`, `polygonAttributes`) do in one
iteration. -/
def Buckets.add {β : Type} : Buckets β → String → β → Buckets β
  | [], key, p => [(key, [p])]
  | e :: rest, key, p =>
    if e.1 == key then (e.1, e.2 ++ [p]) :: rest else e :: Buckets.add rest key p

section PolygonSpecDefinitions

variable {α : Type} [LinearOrderedField α]

/-- The arithmetic mean of the vertices of a ring, as a `(lon, lat)` pair. -/
def vertexMean (coords : List (α × α)) : α × α :=
  ((coords.map Prod.fst).sum / (coords.length : α),
   (coords.map Prod.snd).sum / (coords.length : α))

/-- The distance from the query point to the vertex mean of the ring of a polygon, when
it is a number: `none` on an empty ring, which has no mean, and where the distance
function returns `NaN`. -/
def centroidDistance (dist : α → α → α → α → Option α) (lat lng : α) (poly : Polygon α) :
    Option α :=
  if poly.coordinates.isEmpty then none
  else dist lat lng (vertexMean poly.coordinates).2 (vertexMean poly.coordinates).1

/-- The ring of the polygon contains the query point, by the test of `pointInPolygon`. -/
def containsQuery (lat lng : α) (poly : Polygon α) : Bool :=
  pointInPolygon (lng, lat) poly.coordinates

/-- The aspect is present: the classification has a polygon for it (an entry that is not
`null`). -/
def aspectPresent (attrs : List (String × Option (Polygon α))) (aspect : String) : Bool :=
  match attrs.lookup aspect with
  | some (some _) => true
  | _ => false

/-- The details as the specification words them: for each aspect of the table that is
present, in table order, the attribute value read from its polygon and that value
normalized over the range of the aspect.  (An aspect whose polygon has no value to read
contributes nothing here; the score of `polygonScore` is then `NaN`.) -/
def aspectDetails (attrs : List (String × Option (Polygon α)))
    (table : List (String × Range α)) : List (String × AspectDetail α) :=
  table.filterMap fun e =>
    match attrs.lookup e.1 with
    | some (some poly) =>
      (rawValue poly e.1).map fun raw => (e.1, { raw := raw, norm := normalize raw e.2 })
    | _ => none

end PolygonSpecDefinitions

section ClampDefinition

variable {α : Type} [LinearOrderedField α]

/-- A value clamped into `[0,100]`, as the specification words it. -/
def clampScore (x : α) : α :=
  if x < 0 then 0 else if 100 < x then 100 else x

end ClampDefinition

/-- The number that a list of decimal digit characters writes. -/
def decimalValue (cs : List Char) : ℕ :=
  cs.foldl (fun acc c => 10 * acc + (c.toNat - 48)) 0

/-- The key under which `buildGridIndex` files a point. -/
def pointKey {α : Type} [LinearOrderedField α] [FloorRing α] (cellSizeDeg : α)
    (p : Point α) : String :=
  cellKey ⌊p.longitude / cellSizeDeg⌋ ⌊p.latitude / cellSizeDeg⌋

section GridSpecDefinitions

variable {α : Type} [LinearOrderedField α] [FloorRing α]

/-- The full linear scan over a point set, filtered by the radius: each point whose
distance to the query is at most `radiusKm`, paired with that distance. -/
def linearScan (dist : α → α → α → α → α) (points : List (Point α)) (lat lng : α)
    (radiusKm : α) : List (Candidate α) :=
  points.filterMap fun p =>
    if dist lat lng p.latitude p.longitude ≤ radiusKm then
      some { point := p, distKm := dist lat lng p.latitude p.longitude }
    else none

/-- The scan of one cell `(cx, cy)`: the points of that cell within the radius. -/
def cellScan (dist : α → α → α → α → α) (points : List (Point α)) (cellSizeDeg : α)
    (lat lng : α) (radiusKm : α) (cx cy : ℤ) : List (Candidate α) :=
  linearScan dist
    (points.filter fun p =>
      decide (⌊p.longitude / cellSizeDeg⌋ = cx ∧ ⌊p.latitude / cellSizeDeg⌋ = cy))
    lat lng radiusKm

end GridSpecDefinitions

/-- The point lies in one of the 25 cells that `nearbyFromIndex` searches. -/
def inSearchedBlock {α : Type} [LinearOrderedField α] [FloorRing α] (cellSizeDeg lat lng : α)
    (p : Point α) : Bool :=
  decide (⌊p.longitude / cellSizeDeg⌋ - ⌊lng / cellSizeDeg⌋ ∈ cellOffsets) &&
    decide (⌊p.latitude / cellSizeDeg⌋ - ⌊lat / cellSizeDeg⌋ ∈ cellOffsets)

/-- The quantity `a` that `haversineKm` computes before taking square roots. -/
noncomputable def haversineTerm (lat1 lon1 lat2 lon2 : ℝ) : ℝ :=
  Real.sin ((lat2 - lat1) * Real.pi / 180 / 2) ^ 2 +
    Real.cos (lat1 * Real.pi / 180) * Real.cos (lat2 * Real.pi / 180) *
      Real.sin ((lon2 - lon1) * Real.pi / 180 / 2) ^ 2

/-! ## Lemmas -/

/-! ### Properties of decay -/

section DecayLemmas

variable {α : Type} [LinearOrderedField α]

theorem decay_of_le {d maxD : α} (h : maxD ≤ d) : decay d maxD = 0 := by
  simp [decay, h]

theorem decay_of_lt {d maxD : α} (h : d < maxD) :
    decay d maxD = (1 - d / maxD) * (1 - d / maxD) := by
  simp [decay, not_le.mpr h]

theorem decay_nonneg (d maxD : α) : 0 ≤ decay d maxD := by
  unfold decay
  split_ifs
  · exact le_rfl
  · exact mul_self_nonneg _

theorem decay_le_one {d maxD : α} (hd : 0 ≤ d) : decay d maxD ≤ 1 := by
  rcases le_or_lt maxD d with h | h
  · rw [decay_of_le h]; exact zero_le_one
  · rw [decay_of_lt h]
    have hm : 0 < maxD := lt_of_le_of_lt hd h
    have h1 : 0 ≤ d / maxD := div_nonneg hd hm.le
    have h2 : d / maxD < 1 := (div_lt_one hm).mpr h
    nlinarith

theorem decay_antitone {d1 d2 maxD : α} (h0 : 0 ≤ d1) (h12 : d1 ≤ d2) :
    decay d2 maxD ≤ decay d1 maxD := by
  rcases le_or_lt maxD d2 with h | h
  · rw [decay_of_le h]; exact decay_nonneg _ _
  · have h1 : d1 < maxD := lt_of_le_of_lt h12 h
    have hm : 0 < maxD := lt_of_le_of_lt h0 h1
    rw [decay_of_lt h, decay_of_lt h1]
    have ha : d1 / maxD ≤ d2 / maxD := div_le_div_of_nonneg_right h12 hm.le
    have hb : d2 / maxD < 1 := (div_lt_one hm).mpr h
    nlinarith

end DecayLemmas

/-! ### The amenity and penalty loops -/

section ScoreLoops

variable {α : Type} [LinearOrderedField α]

theorem amenityScoreOf_eq (cs : List (Candidate α)) :
    amenityScoreOf cs =
      proximityScoreOf POSITIVE_TYPES AMENITY_TYPE_WEIGHTS (3 / 10) POSITIVE_MAX_DIST_KM cs :=
  rfl

theorem penaltyScoreOf_eq (cs : List (Candidate α)) :
    penaltyScoreOf cs =
      proximityScoreOf NEGATIVE_TYPES NEGATIVE_TYPE_WEIGHTS (5 / 10) NEGATIVE_RADIUS_KM cs :=
  rfl

theorem foldl_accumulate (keep : Candidate α → Bool) (ct wt : Candidate α → α)
    (cs : List (Candidate α)) (acc : α × α) :
    cs.foldl (fun (acc : α × α) c =>
      if !keep c then acc else (acc.1 + ct c, acc.2 + wt c)) acc =
    (acc.1 + ((cs.filter keep).map ct).sum, acc.2 + ((cs.filter keep).map wt).sum) := by
  induction cs generalizing acc with
  | nil => simp
  | cons c cs ih =>
    rw [List.foldl_cons, ih]
    cases h : keep c <;> simp [h, add_assoc]

theorem lookup_mem {β : Type} (t : String) (w : β) :
    ∀ table : List (String × β), table.lookup t = some w → (t, w) ∈ table
  | [], h => by simp at h
  | (k, v) :: rest, h => by
    rw [List.lookup_cons] at h
    by_cases hk : t = k
    · subst hk
      simp at h
      simp [h]
    · have : (t == k) = false := by simpa using hk
      rw [this] at h
      exact List.mem_cons_of_mem _ (lookup_mem t w rest h)

theorem typeWeight_eq_getD (table : List (String × α)) (t : String) (d : α)
    (h : ∀ e ∈ table, 0 < e.2) :
    typeWeight table t d = (table.lookup t).getD d := by
  unfold typeWeight
  cases hl : table.lookup t with
  | none => rfl
  | some w =>
    have := (h _ (lookup_mem t w table hl)).ne'
    simp at this
    simp [this]

theorem typeWeight_pos (table : List (String × α)) (t : String) (d : α)
    (h : ∀ e ∈ table, 0 < e.2) (hd : 0 < d) : 0 < typeWeight table t d := by
  rw [typeWeight_eq_getD table t d h]
  cases hl : table.lookup t with
  | none => simpa using hd
  | some w => simpa using h _ (lookup_mem t w table hl)

theorem amenity_weights_pos : ∀ e ∈ (AMENITY_TYPE_WEIGHTS : List (String × α)), 0 < e.2 := by
  intro e he
  simp only [AMENITY_TYPE_WEIGHTS, List.mem_cons, List.mem_singleton, List.not_mem_nil,
    or_false] at he
  rcases he with h | h | h | h | h | h | h | h | h | h | h | h | h | h | h | h | h | h | h <;>
    (subst h; norm_num)

theorem negative_weights_pos : ∀ e ∈ (NEGATIVE_TYPE_WEIGHTS : List (String × α)), 0 < e.2 := by
  intro e he
  simp only [NEGATIVE_TYPE_WEIGHTS, List.mem_cons, List.mem_singleton, List.not_mem_nil,
    or_false] at he
  rcases he with h | h | h | h | h | h | h | h | h | h | h | h | h | h | h | h | h | h | h |
    h | h | h | h | h | h | h | h | h | h | h <;>
    (subst h; norm_num)

theorem sum_map_pos {β : Type} (f : β → α) :
    ∀ l : List β, l ≠ [] → (∀ x ∈ l, 0 < f x) → 0 < (l.map f).sum
  | [], h, _ => absurd rfl h
  | [x], _, hf => by simpa using hf x (by simp)
  | x :: y :: l, _, hf => by
    rw [List.map_cons, List.sum_cons]
    have h1 := hf x (by simp)
    have h2 := sum_map_pos f (y :: l) (by simp) (fun z hz => hf z (List.mem_cons_of_mem _ hz))
    exact add_pos h1 h2

theorem sum_map_le_sum_map {β : Type} (f g : β → α) :
    ∀ l : List β, (∀ x ∈ l, f x ≤ g x) → (l.map f).sum ≤ (l.map g).sum
  | [], _ => by simp
  | x :: l, h => by
    simp only [List.map_cons, List.sum_cons]
    exact add_le_add (h x (by simp))
      (sum_map_le_sum_map f g l (fun z hz => h z (List.mem_cons_of_mem _ hz)))

theorem sum_map_nonneg {β : Type} (f : β → α) :
    ∀ l : List β, (∀ x ∈ l, 0 ≤ f x) → 0 ≤ (l.map f).sum
  | [], _ => by simp
  | x :: l, h => by
    simp only [List.map_cons, List.sum_cons]
    exact add_nonneg (h x (by simp))
      (sum_map_nonneg f l (fun z hz => h z (List.mem_cons_of_mem _ hz)))

/-- The generic loop computes the weighted mean of the decays over the qualifying
candidates. -/
theorem proximityScoreOf_spec (types : List String) (table : List (String × α))
    (dflt maxDist : α) (htable : ∀ e ∈ table, 0 < e.2) (hdflt : 0 < dflt)
    (cs : List (Candidate α)) (hcs : ∀ c ∈ cs, 0 ≤ c.distKm) :
    let q := cs.filter (fun c => types.contains c.point.type)
    let w := fun c : Candidate α => (table.lookup c.point.type).getD dflt
    let sw := (q.map w).sum
    let sd := (q.map fun c => decay c.distKm maxDist * w c).sum
    (q ≠ [] → sw ≠ 0 ∧ proximityScoreOf types table dflt maxDist cs = 100 * sd / sw) ∧
    (sw = 0 ↔ q = []) ∧
    (q = [] → proximityScoreOf types table dflt maxDist cs = 0) ∧
    0 ≤ proximityScoreOf types table dflt maxDist cs ∧
    proximityScoreOf types table dflt maxDist cs ≤ 100 := by
  intro q w sw sd
  have hw : ∀ c : Candidate α, typeWeight table c.point.type dflt = w c := fun c =>
    typeWeight_eq_getD table _ dflt htable
  have hwpos : ∀ c : Candidate α, 0 < w c := fun c => by
    rw [← hw c]; exact typeWeight_pos table _ dflt htable hdflt
  have hfold : proximityScoreOf types table dflt maxDist cs =
      if sw = 0 then 0 else sd / sw * 100 := by
    unfold proximityScoreOf
    simp only [hw]
    rw [foldl_accumulate (fun c : Candidate α => types.contains c.point.type)
      (fun c => decay c.distKm maxDist * w c) w cs (0, 0)]
    simp only [zero_add]
  have hsw : q ≠ [] → 0 < sw := fun hq => sum_map_pos w q hq (fun c _ => hwpos c)
  have hq0 : q = [] → sw = 0 := fun hq => by simp [sw, hq]
  have hsd0 : 0 ≤ sd := sum_map_nonneg _ q (fun c _ =>
    mul_nonneg (decay_nonneg _ _) (hwpos c).le)
  have hsdle : sd ≤ sw := sum_map_le_sum_map _ w q (fun c hc => by
    have h0 : 0 ≤ c.distKm := hcs c (List.mem_of_mem_filter hc)
    calc decay c.distKm maxDist * w c ≤ 1 * w c :=
          mul_le_mul_of_nonneg_right (decay_le_one h0) (hwpos c).le
      _ = w c := one_mul _)
  refine ⟨fun hq => ⟨(hsw hq).ne', ?_⟩, ⟨fun h => ?_, hq0⟩, fun hq => ?_, ?_, ?_⟩
  · rw [hfold, if_neg (hsw hq).ne']; ring
  · by_contra hq; exact (hsw hq).ne' h
  · rw [hfold, if_pos (hq0 hq)]
  · rw [hfold]; split_ifs with h
    · exact le_rfl
    · have : 0 < sw := by
        by_contra hn; exact h (hq0 (by by_contra hq; exact hn (hsw hq)))
      positivity
  · rw [hfold]; split_ifs with h
    · norm_num
    · have : 0 < sw := by
        by_contra hn; exact h (hq0 (by by_contra hq; exact hn (hsw hq)))
      rw [div_mul_eq_mul_div, div_le_iff₀ this]
      nlinarith

end ScoreLoops

/-! ### The scores as weighted means -/

section ScoreMeans

variable {α : Type} [LinearOrderedField α]

theorem proximityScoreOf_eq_mean (types : List String) (table : List (String × α))
    (dflt maxDist : α) (htable : ∀ e ∈ table, 0 < e.2) (hdflt : 0 < dflt)
    (cs : List (Candidate α)) :
    proximityScoreOf types table dflt maxDist cs =
        weightedDecayMean types table dflt maxDist cs ∧
      (weightTotal types table dflt cs = 0 ↔ qualifying types cs = []) := by
  have hw : ∀ c : Candidate α, typeWeight table c.point.type dflt =
      categoryWeight table dflt c := fun c => typeWeight_eq_getD table _ dflt htable
  have hwpos : ∀ c : Candidate α, 0 < categoryWeight table dflt c := fun c => by
    rw [← hw c]; exact typeWeight_pos table _ dflt htable hdflt
  have hfold : proximityScoreOf types table dflt maxDist cs =
      if weightTotal types table dflt cs = 0 then 0
      else decayTotal types table dflt maxDist cs / weightTotal types table dflt cs * 100 := by
    unfold proximityScoreOf
    simp only [hw]
    rw [foldl_accumulate (fun c : Candidate α => types.contains c.point.type)
      (fun c => decay c.distKm maxDist * categoryWeight table dflt c)
      (categoryWeight table dflt) cs (0, 0)]
    simp only [zero_add]
    rfl
  have hsw : qualifying types cs ≠ [] → 0 < weightTotal types table dflt cs := fun hq =>
    sum_map_pos _ _ hq (fun c _ => hwpos c)
  have hq0 : qualifying types cs = [] → weightTotal types table dflt cs = 0 := fun hq => by
    simp [weightTotal, hq]
  refine ⟨?_, fun h => ?_, hq0⟩
  · rw [hfold]
    unfold weightedDecayMean
    by_cases hq : qualifying types cs = []
    · rw [if_pos (hq0 hq)]; simp [hq]
    · rw [if_neg (hsw hq).ne']
      have : (qualifying types cs).isEmpty = false := by
        cases hc : qualifying types cs with
        | nil => exact absurd hc hq
        | cons a l => rfl
      simp only [this]
      simp only [Bool.false_eq_true, ↓reduceIte]
      ring
  · by_contra hq; exact (hsw hq).ne' h

theorem proximityScoreOf_bounds (types : List String) (table : List (String × α))
    (dflt maxDist : α) (htable : ∀ e ∈ table, 0 < e.2) (hdflt : 0 < dflt)
    (cs : List (Candidate α)) (hcs : ∀ c ∈ cs, 0 ≤ c.distKm) :
    0 ≤ proximityScoreOf types table dflt maxDist cs ∧
      proximityScoreOf types table dflt maxDist cs ≤ 100 := by
  have h := proximityScoreOf_spec types table dflt maxDist htable hdflt cs hcs
  exact ⟨h.2.2.2.1, h.2.2.2.2⟩

end ScoreMeans

/-! ### Normalization -/

section Normalization

variable {α : Type} [LinearOrderedField α]

/-- The properties of `normalize` on a range with `min < max`. -/
theorem normalize_props (range : Range α) (h : range.min < range.max) (v : α) :
    (0 ≤ normalize v range ∧ normalize v range ≤ 1) ∧
    normalize range.min range = (if range.invert then 1 else 0) ∧
    normalize range.max range = (if range.invert then 0 else 1) ∧
    (v ≤ range.min → normalize v range = normalize range.min range) ∧
    (range.max ≤ v → normalize v range = normalize range.max range) := by
  have hd : range.max - range.min ≠ 0 := (sub_pos.mpr h).ne'
  have hpos : 0 < range.max - range.min := sub_pos.mpr h
  have key : ∀ u, normalize u range =
      if range.invert then
        1 - (Min.min (Max.max u range.min) range.max - range.min) / (range.max - range.min)
      else (Min.min (Max.max u range.min) range.max - range.min) / (range.max - range.min) := by
    intro u
    simp only [normalize, if_neg hd]
  have hlo : range.min ≤ Min.min (Max.max v range.min) range.max :=
    le_min (le_max_right _ _) h.le
  have hhi : Min.min (Max.max v range.min) range.max ≤ range.max := min_le_right _ _
  have h0 : 0 ≤ (Min.min (Max.max v range.min) range.max - range.min) /
      (range.max - range.min) := div_nonneg (sub_nonneg.mpr hlo) hpos.le
  have h1 : (Min.min (Max.max v range.min) range.max - range.min) /
      (range.max - range.min) ≤ 1 := by
    rw [div_le_one hpos]; linarith
  have cmin : Min.min (Max.max range.min range.min) range.max = range.min := by
    rw [max_self, min_eq_left h.le]
  have cmax : Min.min (Max.max range.max range.min) range.max = range.max := by
    rw [max_eq_left h.le, min_self]
  refine ⟨?_, ?_, ?_, fun hv => ?_, fun hv => ?_⟩
  · rw [key]; split_ifs
    · exact ⟨by linarith, by linarith⟩
    · exact ⟨h0, h1⟩
  · rw [key, cmin]; simp
  · rw [key, cmax, div_self hd]; simp
  · rw [key, key, max_eq_right hv, max_self]
  · rw [key, key, max_eq_left (h.le.trans hv), max_eq_left h.le, min_eq_right hv, min_self]

theorem normalize_mem_unit (range : Range α) (v : α) :
    0 ≤ normalize v range ∧ normalize v range ≤ 1 := by
  rcases lt_trichotomy range.min range.max with h | h | h
  · exact (normalize_props range h v).1
  · have hc : Min.min (Max.max v range.min) range.max = range.min := by
      rw [← h, min_eq_right (le_max_right _ _)]
    simp only [normalize, hc, sub_self, zero_div]
    split_ifs <;> norm_num
  · have hc : Min.min (Max.max v range.min) range.max = range.max :=
      min_eq_right (h.le.trans (le_max_right _ _))
    have hd : range.max - range.min ≠ 0 := (sub_neg.mpr h).ne
    simp only [normalize, hc, if_neg hd, div_self hd]
    split_ifs <;> norm_num

theorem poly_ranges_lt :
    ∀ e ∈ (POLY_NORMAL_RANGES : List (String × Range α)), e.2.min < e.2.max := by
  intro e he
  simp only [POLY_NORMAL_RANGES, List.mem_cons, List.mem_singleton, List.not_mem_nil,
    or_false] at he
  rcases he with h | h | h | h | h <;> (subst h; norm_num)

end Normalization

/-! ### Maps with string keys -/

section BucketLemmas

variable {β : Type}

theorem Buckets.grid_step_eq_add (m : Buckets β) (k : String) (p : β) :
    (if !m.has k then m.set k [] else m).push k p = m.add k p := by
  induction m with
  | nil => simp [Buckets.has, Buckets.set, Buckets.push, Buckets.add]
  | cons e rest ih =>
    by_cases he : e.1 = k
    · simp [Buckets.has, Buckets.push, Buckets.add, he]
    · have hb : (e.1 == k) = false := by simpa using he
      have hhas : Buckets.has (e :: rest) k = Buckets.has rest k := by
        simp [Buckets.has, he]
      rw [hhas]
      cases hr : Buckets.has rest k
      · rw [hr] at ih
        simp only [Bool.not_false, if_true] at ih ⊢
        simp only [Buckets.set, hb, Buckets.push, Buckets.add, Bool.false_eq_true, if_false, ih]
      · rw [hr] at ih
        simp only [Bool.not_true, Bool.false_eq_true, if_false] at ih ⊢
        simp only [Buckets.push, hb, Buckets.add, Bool.false_eq_true, if_false, ih]

theorem Buckets.aspect_step_eq_add (m : Buckets β) (k : String) (p : β) :
    (m.set k ((m.get k).getD [])).push k p = m.add k p := by
  induction m with
  | nil => simp [Buckets.get, Buckets.set, Buckets.push, Buckets.add]
  | cons e rest ih =>
    by_cases he : e.1 = k
    · simp [Buckets.get, Buckets.set, Buckets.push, Buckets.add, he]
    · have hb : (e.1 == k) = false := by simpa using he
      have hget : Buckets.get (e :: rest) k = Buckets.get rest k := by
        simp [Buckets.get, List.find?, hb]
      rw [hget]
      simp only [Buckets.set, hb, Buckets.push, Buckets.add, Bool.false_eq_true, if_false, ih]

theorem Buckets.get_add (m : Buckets β) (k : String) (p : β) (k' : String) :
    (m.add k p).get k' =
      if k' = k then some ((m.get k).getD [] ++ [p]) else m.get k' := by
  induction m with
  | nil =>
    by_cases h : k' = k
    · simp [Buckets.add, Buckets.get, h]
    · have : ¬ k = k' := fun h' => h h'.symm
      simp [Buckets.add, Buckets.get, h, this]
  | cons e rest ih =>
    by_cases he : e.1 = k
    · by_cases h : k' = k
      · simp [Buckets.add, Buckets.get, he, h]
      · have : ¬ k = k' := fun h' => h h'.symm
        simp [Buckets.add, Buckets.get, he, h, this]
    · have hb : (e.1 == k) = false := by simpa using he
      by_cases hk : e.1 = k'
      · have : ¬ k' = k := fun h' => he (hk.trans h')
        simp [Buckets.add, Buckets.get, hb, hk, this]
      · have hb' : (e.1 == k') = false := by simpa using hk
        have h1 : Buckets.get (e :: Buckets.add rest k p) k' = Buckets.get (Buckets.add rest k p) k' := by
          simp [Buckets.get, List.find?, hb']
        have h2 : Buckets.get (e :: rest) k' = Buckets.get rest k' := by
          simp [Buckets.get, List.find?, hb']
        have h3 : Buckets.get (e :: rest) k = Buckets.get rest k := by
          simp [Buckets.get, List.find?, hb]
        simp only [Buckets.add, hb, Bool.false_eq_true, if_false, h1, h2, h3, ih]

theorem Buckets.get_foldl_add {γ : Type} (key : γ → String) (ps : List γ) :
    ∀ (m0 : Buckets γ) (k : String),
      (ps.foldl (fun m p => Buckets.add m (key p) p) m0).get k =
        if (m0.get k).isSome || ps.any (fun p => key p == k) then
          some ((m0.get k).getD [] ++ ps.filter (fun p => key p == k))
        else none := by
  induction ps with
  | nil =>
    intro m0 k
    cases h : Buckets.get m0 k <;> simp [h]
  | cons p ps ih =>
    intro m0 k
    rw [List.foldl_cons, ih, Buckets.get_add]
    by_cases hk : k = key p
    · subst hk
      simp
    · have hk' : ¬ key p = k := fun h => hk h.symm
      simp [hk, hk']

theorem Buckets.get_foldl_add_nil {γ : Type} (key : γ → String) (ps : List γ) (k : String) :
    (ps.foldl (fun m p => Buckets.add m (key p) p) []).get k =
      if ps.any (fun p => key p == k) then some (ps.filter (fun p => key p == k))
      else none := by
  rw [Buckets.get_foldl_add]
  simp [Buckets.get]

theorem Buckets.keys_add (m : Buckets β) (k : String) (p : β) :
    (m.add k p).map Prod.fst =
      if k ∈ m.map Prod.fst then m.map Prod.fst else m.map Prod.fst ++ [k] := by
  induction m with
  | nil => simp [Buckets.add]
  | cons e rest ih =>
    by_cases he : e.1 = k
    · simp [Buckets.add, he]
    · have hb : (e.1 == k) = false := by simpa using he
      have hne : ¬ k = e.1 := fun h => he h.symm
      simp only [Buckets.add, hb, Bool.false_eq_true, if_false, List.map_cons, ih,
        List.mem_cons, hne, false_or]
      split_ifs <;> simp

theorem Buckets.nodup_keys_add (m : Buckets β) (k : String) (p : β)
    (h : (m.map Prod.fst).Nodup) : ((m.add k p).map Prod.fst).Nodup := by
  rw [Buckets.keys_add]
  split_ifs with hk
  · exact h
  · exact List.Nodup.append h (List.nodup_singleton k) (by simpa using hk)

theorem Buckets.perm_add (m : Buckets β) (k : String) (p : β) :
    ((m.add k p).flatMap Prod.snd).Perm (p :: m.flatMap Prod.snd) := by
  induction m with
  | nil => simp [Buckets.add]
  | cons e rest ih =>
    by_cases he : e.1 = k
    · simp only [Buckets.add, he, beq_self_eq_true, if_true, List.flatMap_cons]
      rw [List.append_assoc]
      have : (e.2 ++ ([p] ++ rest.flatMap Prod.snd)).Perm
          (e.2 ++ (p :: rest.flatMap Prod.snd)) := by simp
      exact this.trans List.perm_middle
    · have hb : (e.1 == k) = false := by simpa using he
      simp only [Buckets.add, hb, Bool.false_eq_true, if_false, List.flatMap_cons]
      exact (List.Perm.append_left e.2 ih).trans List.perm_middle

theorem Buckets.nodup_keys_foldl_add {γ : Type} (key : γ → String) (ps : List γ) :
    ∀ m0 : Buckets γ, (m0.map Prod.fst).Nodup →
      ((ps.foldl (fun m p => Buckets.add m (key p) p) m0).map Prod.fst).Nodup := by
  induction ps with
  | nil => intro m0 h; exact h
  | cons p ps ih =>
    intro m0 h
    rw [List.foldl_cons]
    exact ih _ (Buckets.nodup_keys_add m0 _ _ h)

theorem Buckets.perm_foldl_add {γ : Type} (key : γ → String) (ps : List γ) :
    ∀ m0 : Buckets γ,
      ((ps.foldl (fun m p => Buckets.add m (key p) p) m0).flatMap Prod.snd).Perm
        (m0.flatMap Prod.snd ++ ps) := by
  induction ps with
  | nil => intro m0; simp
  | cons p ps ih =>
    intro m0
    rw [List.foldl_cons]
    refine (ih _).trans ?_
    refine (List.Perm.append_right ps (Buckets.perm_add m0 (key p) p)).trans ?_
    simp only [List.cons_append]
    exact List.perm_middle.symm

/-- In a map with distinct keys, `get` returns the array of the entry with that key. -/
theorem Buckets.get_of_mem (m : Buckets β) (h : (m.map Prod.fst).Nodup)
    (e : String × List β) (he : e ∈ m) : m.get e.1 = some e.2 := by
  induction m with
  | nil => simp at he
  | cons a rest ih =>
    rw [List.map_cons, List.nodup_cons] at h
    rcases List.mem_cons.mp he with rfl | hm
    · simp [Buckets.get]
    · have hne : ¬ a.1 = e.1 := fun hk => h.1 (hk ▸ List.mem_map_of_mem Prod.fst hm)
      have hb : (a.1 == e.1) = false := by simpa using hne
      have : Buckets.get (a :: rest) e.1 = Buckets.get rest e.1 := by
        simp [Buckets.get, List.find?, hb]
      rw [this]
      exact ih h.2 hm

theorem Buckets.mem_of_get (m : Buckets β) (k : String) (b : List β)
    (h : m.get k = some b) : (k, b) ∈ m := by
  induction m with
  | nil => simp [Buckets.get] at h
  | cons a rest ih =>
    by_cases ha : a.1 = k
    · have : Buckets.get (a :: rest) k = some a.2 := by simp [Buckets.get, ha]
      rw [this] at h
      have : a = (k, b) := by
        cases a; simp at ha h; simp [ha, h]
      rw [this]; exact List.mem_cons_self _ _
    · have hb : (a.1 == k) = false := by simpa using ha
      have : Buckets.get (a :: rest) k = Buckets.get rest k := by
        simp [Buckets.get, List.find?, hb]
      rw [this] at h
      exact List.mem_cons_of_mem _ (ih h)

theorem Buckets.lookup_map (m : Buckets β) {γ : Type} (f : List β → γ) (k : String) :
    List.lookup k (m.map fun e => (e.1, f e.2)) = (m.get k).map f := by
  induction m with
  | nil => simp [Buckets.get]
  | cons a rest ih =>
    by_cases ha : a.1 = k
    · have hb : (k == a.1) = true := by simp [ha]
      simp [Buckets.get, List.lookup, ha]
    · have hb : (a.1 == k) = false := by simpa using ha
      have hb' : (k == a.1) = false := by simpa using fun h : k = a.1 => ha h.symm
      have : Buckets.get (a :: rest) k = Buckets.get rest k := by
        simp [Buckets.get, List.find?, hb]
      rw [this, List.map_cons, List.lookup_cons, hb', ih]

end BucketLemmas

/-! ### Polygon classification -/

section PolygonClassification

variable {α : Type} [LinearOrderedField α]

theorem foldl_pair_sum (coords : List (α × α)) (s : α × α) :
    coords.foldl (fun (s : α × α) c => (s.1 + c.1, s.2 + c.2)) s =
      (s.1 + (coords.map Prod.fst).sum, s.2 + (coords.map Prod.snd).sum) := by
  induction coords generalizing s with
  | nil => simp
  | cons c cs ih => rw [List.foldl_cons, ih]; simp [add_assoc]

theorem centroidLonLat_eq (coords : List (α × α)) (h : coords ≠ []) :
    centroidLonLat coords = some (vertexMean coords) := by
  have hl : coords.length ≠ 0 := fun h0 => h (List.length_eq_zero.mp h0)
  unfold centroidLonLat vertexMean
  rw [foldl_pair_sum]
  simp [hl]

theorem centroidLonLat_nil : centroidLonLat ([] : List (α × α)) = none := by
  simp [centroidLonLat]

/-- The centroid is the vertex mean of the ring, and `NaN` on the empty ring. -/
theorem centroidLonLat_eq_vertexMean (coords : List (α × α)) :
    centroidLonLat coords = if coords.isEmpty then none else some (vertexMean coords) := by
  cases coords with
  | nil => simp [centroidLonLat]
  | cons c cs => simpa using centroidLonLat_eq (c :: cs) (by simp)

/-- Scanning a list with a strict comparison, skipping the elements without a value,
keeps the earliest element of least value. -/
theorem argmin_scan {γ : Type} (f : γ → Option α) (l : List γ) :
    ∀ (b0 : Option γ) (d0 : WithTop α),
      (l.foldl (fun (st : Option γ × WithTop α) x =>
          match f x with
          | none => st
          | some d => if (d : WithTop α) < st.2 then (some x, (d : WithTop α)) else st) (b0, d0)
        = (b0, d0) ∧ ∀ x ∈ l, ∀ d, f x = some d → d0 ≤ (d : WithTop α)) ∨
      (∃ l1 x l2 d, l = l1 ++ x :: l2 ∧ f x = some d ∧
        l.foldl (fun (st : Option γ × WithTop α) x =>
          match f x with
          | none => st
          | some d => if (d : WithTop α) < st.2 then (some x, (d : WithTop α)) else st) (b0, d0)
          = (some x, (d : WithTop α)) ∧
        (d : WithTop α) < d0 ∧ (∀ y ∈ l1, ∀ dy, f y = some dy → d < dy) ∧
        (∀ y ∈ l2, ∀ dy, f y = some dy → d ≤ dy)) := by
  induction l with
  | nil => intro b0 d0; left; simp
  | cons a t ih =>
    intro b0 d0
    rw [List.foldl_cons]
    cases hfa : f a with
    | none =>
      simp only
      rcases ih b0 d0 with ⟨hr, hall⟩ | ⟨l1, x, l2, d, hl, hfx, hr, hlt, h1, h2⟩
      · left
        refine ⟨hr, fun y hy dy hdy => ?_⟩
        rcases List.mem_cons.mp hy with rfl | hy
        · rw [hfa] at hdy; exact absurd hdy (by simp)
        · exact hall y hy dy hdy
      · right
        refine ⟨a :: l1, x, l2, d, by rw [hl]; rfl, hfx, hr, hlt, ?_, h2⟩
        intro y hy dy hdy
        rcases List.mem_cons.mp hy with rfl | hy
        · rw [hfa] at hdy; exact absurd hdy (by simp)
        · exact h1 y hy dy hdy
    | some da =>
      simp only
      by_cases ha : (da : WithTop α) < d0
      · simp only [ha, if_true]
        rcases ih (some a) (da : WithTop α) with
          ⟨hr, hall⟩ | ⟨l1, x, l2, d, hl, hfx, hr, hlt, h1, h2⟩
        · right
          refine ⟨[], a, t, da, rfl, hfa, hr, ha, by simp, fun y hy dy hdy => ?_⟩
          exact WithTop.coe_le_coe.mp (hall y hy dy hdy)
        · right
          refine ⟨a :: l1, x, l2, d, by rw [hl]; rfl, hfx, hr, lt_trans hlt ha, ?_, h2⟩
          intro y hy dy hdy
          rcases List.mem_cons.mp hy with rfl | hy
          · rw [hfa] at hdy
            simp only [Option.some.injEq] at hdy
            subst hdy
            exact WithTop.coe_lt_coe.mp hlt
          · exact h1 y hy dy hdy
      · simp only [ha, if_false]
        have hle : d0 ≤ (da : WithTop α) := not_lt.mp ha
        rcases ih b0 d0 with ⟨hr, hall⟩ | ⟨l1, x, l2, d, hl, hfx, hr, hlt, h1, h2⟩
        · left
          refine ⟨hr, fun y hy dy hdy => ?_⟩
          rcases List.mem_cons.mp hy with rfl | hy
          · rw [hfa] at hdy
            simp only [Option.some.injEq] at hdy
            subst hdy
            exact hle
          · exact hall y hy dy hdy
        · right
          refine ⟨a :: l1, x, l2, d, by rw [hl]; rfl, hfx, hr, hlt, ?_, h2⟩
          intro y hy dy hdy
          rcases List.mem_cons.mp hy with rfl | hy
          · rw [hfa] at hdy
            simp only [Option.some.injEq] at hdy
            subst hdy
            exact WithTop.coe_lt_coe.mp (lt_of_lt_of_le hlt hle)
          · exact h1 y hy dy hdy

/-- The fallback loop compares the centroid distances that are numbers. -/
theorem nearestByCentroid_eq_scan (dist : α → α → α → α → Option α) (lat lng : α)
    (polys : List (Polygon α)) :
    nearestByCentroid dist lat lng polys =
      (polys.foldl (fun (st : Option (Polygon α) × WithTop α) x =>
          match centroidDistance dist lat lng x with
          | none => st
          | some d => if (d : WithTop α) < st.2 then (some x, (d : WithTop α)) else st)
        (none, ⊤)).1 := by
  unfold nearestByCentroid
  congr 1
  apply List.foldl_ext
  intro st p _
  rw [centroidLonLat_eq_vertexMean]
  unfold centroidDistance
  cases hc : p.coordinates.isEmpty with
  | true => simp
  | false =>
    simp only [Bool.false_eq_true, if_false]

/-- The fallback loop returns the earliest polygon of least centroid distance among the
polygons whose centroid distance is a number, and `null` when there is none. -/
theorem nearestByCentroid_spec (dist : α → α → α → α → Option α) (lat lng : α)
    (polys : List (Polygon α)) :
    (nearestByCentroid dist lat lng polys = none ∧
      ∀ p ∈ polys, centroidDistance dist lat lng p = none) ∨
    (∃ l1 poly l2 d, polys = l1 ++ poly :: l2 ∧
      nearestByCentroid dist lat lng polys = some poly ∧
      centroidDistance dist lat lng poly = some d ∧
      (∀ q ∈ l1, ∀ dq, centroidDistance dist lat lng q = some dq → d < dq) ∧
      (∀ q ∈ l2, ∀ dq, centroidDistance dist lat lng q = some dq → d ≤ dq)) := by
  rw [nearestByCentroid_eq_scan]
  rcases argmin_scan (centroidDistance dist lat lng) polys none ⊤ with
    ⟨hr, hall⟩ | ⟨l1, x, l2, d, hl, hfx, hr, _, h1, h2⟩
  · left
    refine ⟨by rw [hr], fun p hp => ?_⟩
    cases hd : centroidDistance dist lat lng p with
    | none => rfl
    | some d =>
      have := hall p hp d hd
      simp at this
  · right
    exact ⟨l1, x, l2, d, hl, by rw [hr], hfx, h1, h2⟩

/-- The value chosen for the polygons of one aspect: the first polygon containing the
query point; else the earliest polygon of least centroid distance among those whose
centroid distance is a number; else `null`. -/
theorem choosePolygon_spec (dist : α → α → α → α → Option α) (lat lng : α)
    (polys : List (Polygon α)) :
    (∃ l1 poly l2, polys = l1 ++ poly :: l2 ∧
      choosePolygon dist lat lng polys = some poly ∧
      containsQuery lat lng poly = true ∧ ∀ q ∈ l1, containsQuery lat lng q = false) ∨
    ((∀ q ∈ polys, containsQuery lat lng q = false) ∧
      ∃ l1 poly l2 d, polys = l1 ++ poly :: l2 ∧
        choosePolygon dist lat lng polys = some poly ∧
        centroidDistance dist lat lng poly = some d ∧
        (∀ q ∈ l1, ∀ dq, centroidDistance dist lat lng q = some dq → d < dq) ∧
        (∀ q ∈ l2, ∀ dq, centroidDistance dist lat lng q = some dq → d ≤ dq)) ∨
    ((∀ q ∈ polys, containsQuery lat lng q = false) ∧
      (∀ q ∈ polys, centroidDistance dist lat lng q = none) ∧
      choosePolygon dist lat lng polys = none) := by
  unfold choosePolygon
  cases hf : polys.find? (fun poly => pointInPolygon (lng, lat) poly.coordinates) with
  | some poly =>
    obtain ⟨hp, l1, l2, hl, h1⟩ := List.find?_eq_some.mp hf
    refine Or.inl ⟨l1, poly, l2, hl, rfl, hp, fun q hq => ?_⟩
    simpa [containsQuery] using h1 q hq
  | none =>
    have hnone : ∀ q ∈ polys, containsQuery lat lng q = false := by
      intro q hq
      have := List.find?_eq_none.mp hf q hq
      simpa [containsQuery] using this
    rcases nearestByCentroid_spec dist lat lng polys with
      ⟨hr, hall⟩ | ⟨l1, poly, l2, d, hl, hr, hd, h1, h2⟩
    · exact Or.inr (Or.inr ⟨hnone, hall, hr⟩)
    · exact Or.inr (Or.inl ⟨hnone, l1, poly, l2, d, hl, hr, hd, h1, h2⟩)

theorem choosePolygon_mem (dist : α → α → α → α → Option α) (lat lng : α)
    (polys : List (Polygon α)) (poly : Polygon α)
    (h : choosePolygon dist lat lng polys = some poly) : poly ∈ polys := by
  rcases choosePolygon_spec dist lat lng polys with
    ⟨l1, q, l2, hl, hc, _⟩ | ⟨_, l1, q, l2, d, hl, hc, _⟩ | ⟨_, _, hc⟩
  · rw [hc] at h
    simp only [Option.some.injEq] at h
    subst h
    rw [hl]; simp
  · rw [hc] at h
    simp only [Option.some.injEq] at h
    subst h
    rw [hl]; simp
  · rw [hc] at h
    exact absurd h (by simp)

omit [LinearOrderedField α] in
theorem groupByAspect_foldl_none (polygons : List (Polygon α)) :
    polygons.foldl (fun (st : Option (Buckets (Polygon α))) p =>
      match st with
      | none => none
      | some byAspect =>
        if objectPrototypeNames.contains p.aspect then none
        else
          let byAspect := byAspect.set p.aspect ((byAspect.get p.aspect).getD [])
          some (byAspect.push p.aspect p)) none = none := by
  induction polygons with
  | nil => rfl
  | cons p ps ih => rw [List.foldl_cons]; exact ih

omit [LinearOrderedField α] in
theorem groupByAspect_foldl (polygons : List (Polygon α)) :
    ∀ m0 : Buckets (Polygon α),
    polygons.foldl (fun (st : Option (Buckets (Polygon α))) p =>
      match st with
      | none => none
      | some byAspect =>
        if objectPrototypeNames.contains p.aspect then none
        else
          let byAspect := byAspect.set p.aspect ((byAspect.get p.aspect).getD [])
          some (byAspect.push p.aspect p)) (some m0) =
      if polygons.any (fun p => objectPrototypeNames.contains p.aspect) then none
      else some (polygons.foldl (fun m p => Buckets.add m p.aspect p) m0) := by
  induction polygons with
  | nil => intro m0; simp
  | cons p ps ih =>
    intro m0
    rw [List.foldl_cons, List.foldl_cons]
    cases hp : objectPrototypeNames.contains p.aspect with
    | true =>
      simp only [hp, if_true, List.any_cons, Bool.true_or]
      exact groupByAspect_foldl_none ps
    | false =>
      simp only [hp, Bool.false_eq_true, if_false, List.any_cons, Bool.false_or]
      rw [Buckets.aspect_step_eq_add]
      exact ih _

omit [LinearOrderedField α] in
/-- The grouping loop throws exactly when an aspect is named like a member of
`Object.prototype`; otherwise it files each polygon under its aspect. -/
theorem groupByAspect_eq (polygons : List (Polygon α)) :
    groupByAspect polygons =
      if polygons.any (fun p => objectPrototypeNames.contains p.aspect) then none
      else some (polygons.foldl (fun m p => Buckets.add m p.aspect p) []) := by
  unfold groupByAspect
  exact groupByAspect_foldl polygons []

/-- The call `polygonAttributes(lat, lng)` throws exactly when the aspect of a polygon is
named like a member of `Object.prototype`. -/
theorem polygonAttributes_eq_none_iff (dist : α → α → α → α → Option α)
    (polygons : List (Polygon α)) (lat lng : α) :
    polygonAttributes dist polygons lat lng = none ↔
      ∃ p ∈ polygons, p.aspect ∈ objectPrototypeNames := by
  unfold polygonAttributes
  rw [groupByAspect_eq]
  by_cases h : polygons.any (fun p => objectPrototypeNames.contains p.aspect) = true
  · simp only [h, if_true, true_iff]
    obtain ⟨p, hp, hc⟩ := List.any_eq_true.mp h
    exact ⟨p, hp, by simpa using hc⟩
  · simp only [h, Bool.false_eq_true, if_false, false_iff]
    simp only [reduceCtorEq, false_iff]
    rintro ⟨p, hp, hc⟩
    exact h (List.any_eq_true.mpr ⟨p, hp, by simpa using hc⟩)

/-- The entry of `polygonAttributes` for an aspect: absent when no polygon has the
aspect, else the value chosen among the polygons of that aspect in input order. -/
theorem polygonAttributes_lookup (dist : α → α → α → α → Option α)
    (polygons : List (Polygon α)) (lat lng : α)
    (attrs : List (String × Option (Polygon α)))
    (h : polygonAttributes dist polygons lat lng = some attrs) (aspect : String) :
    attrs.lookup aspect =
      if polygons.any (fun p => p.aspect == aspect) then
        some (choosePolygon dist lat lng (polygons.filter (fun p => p.aspect == aspect)))
      else none := by
  unfold polygonAttributes at h
  rw [groupByAspect_eq] at h
  split_ifs at h with hproto
  simp only [Option.some.injEq] at h
  rw [← h,
    Buckets.lookup_map (polygons.foldl (fun m p => Buckets.add m p.aspect p) [])
      (choosePolygon dist lat lng) aspect,
    Buckets.get_foldl_add_nil]
  split_ifs <;> rfl

end PolygonClassification

/-! ### The polygon score -/

section PolygonScoreLemmas

variable {α : Type} [LinearOrderedField α]

theorem polygonScoreStep_none (attrs : List (String × Option (Polygon α)))
    (l : List (String × Range α)) :
    l.foldl (polygonScoreStep attrs) none = none := by
  induction l with
  | nil => rfl
  | cons e t ih => rw [List.foldl_cons]; exact ih

theorem aspectDetails_cons_absent (attrs : List (String × Option (Polygon α)))
    (e : String × Range α) (t : List (String × Range α))
    (h : aspectPresent attrs e.1 = false) :
    aspectDetails attrs (e :: t) = aspectDetails attrs t := by
  unfold aspectPresent at h
  unfold aspectDetails
  rw [List.filterMap_cons]
  cases ha : attrs.lookup e.1 with
  | none => rfl
  | some o =>
    cases o with
    | none => rfl
    | some poly => rw [ha] at h; exact absurd h (by simp)

theorem aspectDetails_cons_present (attrs : List (String × Option (Polygon α)))
    (e : String × Range α) (t : List (String × Range α)) (poly : Polygon α) (raw : α)
    (ha : attrs.lookup e.1 = some (some poly)) (hr : rawValue poly e.1 = some raw) :
    aspectDetails attrs (e :: t) =
      (e.1, { raw := raw, norm := normalize raw e.2 }) :: aspectDetails attrs t := by
  unfold aspectDetails
  rw [List.filterMap_cons]
  simp only [ha, hr, Option.map_some']

/-- The loop of `polygonScore`, when it ends in a numeric state: `details` are the details
of the present aspects, `total` is the sum of their `norm` fields, `count` is their
number, and every chosen polygon had a value to read. -/
theorem polygonScore_loop (attrs : List (String × Option (Polygon α)))
    (l : List (String × Range α)) :
    ∀ (t0 : α) (c0 : ℕ) (d0 : List (String × AspectDetail α)) (total : α) (count : ℕ)
      (details : List (String × AspectDetail α)),
      l.foldl (polygonScoreStep attrs) (some (t0, c0, d0)) = some (total, count, details) →
        details = d0 ++ aspectDetails attrs l ∧
        total = t0 + ((aspectDetails attrs l).map fun d => d.2.norm).sum ∧
        count = c0 + (aspectDetails attrs l).length ∧
        ∀ e ∈ l, ∀ poly, attrs.lookup e.1 = some (some poly) →
          (rawValue poly e.1).isSome = true := by
  induction l with
  | nil =>
    intro t0 c0 d0 total count details h
    simp only [List.foldl_nil, Option.some.injEq, Prod.mk.injEq] at h
    simp [aspectDetails, h.1, h.2.1, h.2.2]
  | cons e t ih =>
    intro t0 c0 d0 total count details h
    rw [List.foldl_cons] at h
    have hskip : aspectPresent attrs e.1 = false →
        polygonScoreStep attrs (some (t0, c0, d0)) e = some (t0, c0, d0) →
        details = d0 ++ aspectDetails attrs (e :: t) ∧
        total = t0 + ((aspectDetails attrs (e :: t)).map fun d => d.2.norm).sum ∧
        count = c0 + (aspectDetails attrs (e :: t)).length ∧
        ∀ e' ∈ e :: t, ∀ poly, attrs.lookup e'.1 = some (some poly) →
          (rawValue poly e'.1).isSome = true := by
      intro hab hs
      rw [hs] at h
      obtain ⟨h1, h2, h3, h4⟩ := ih t0 c0 d0 total count details h
      rw [aspectDetails_cons_absent attrs e t hab]
      refine ⟨h1, h2, h3, fun e' he' poly hl => ?_⟩
      rcases List.mem_cons.mp he' with rfl | he'
      · unfold aspectPresent at hab
        rw [hl] at hab
        exact absurd hab (by simp)
      · exact h4 e' he' poly hl
    cases ha : attrs.lookup e.1 with
    | none => exact hskip (by simp [aspectPresent, ha]) (by simp [polygonScoreStep, ha])
    | some o =>
      cases o with
      | none => exact hskip (by simp [aspectPresent, ha]) (by simp [polygonScoreStep, ha])
      | some poly =>
        cases hr : rawValue poly e.1 with
        | none =>
          have : polygonScoreStep attrs (some (t0, c0, d0)) e = none := by
            simp [polygonScoreStep, ha, hr]
          rw [this, polygonScoreStep_none] at h
          exact absurd h (by simp)
        | some raw =>
          have : polygonScoreStep attrs (some (t0, c0, d0)) e =
              some (t0 + normalize raw e.2, c0 + 1,
                d0 ++ [(e.1, { raw := raw, norm := normalize raw e.2 })]) := by
            simp [polygonScoreStep, ha, hr]
          rw [this] at h
          obtain ⟨h1, h2, h3, h4⟩ := ih _ _ _ total count details h
          rw [aspectDetails_cons_present attrs e t poly raw ha hr]
          refine ⟨?_, ?_, ?_, ?_⟩
          · rw [h1]; simp
          · rw [h2]; simp [add_assoc]
          · rw [h3]; simp; omega
          · intro e' he' poly' hl
            rcases List.mem_cons.mp he' with rfl | he'
            · rw [ha] at hl
              simp only [Option.some.injEq] at hl
              subst hl
              rw [hr]; rfl
            · exact h4 e' he' poly' hl

/-- The loop of `polygonScore` ends in a numeric state when every chosen polygon has a
value to read. -/
theorem polygonScore_loop_isSome (attrs : List (String × Option (Polygon α)))
    (l : List (String × Range α))
    (h : ∀ e ∈ l, ∀ poly, attrs.lookup e.1 = some (some poly) →
      (rawValue poly e.1).isSome = true) :
    ∀ st, ∃ st', l.foldl (polygonScoreStep attrs) (some st) = some st' := by
  induction l with
  | nil => intro st; exact ⟨st, rfl⟩
  | cons e t ih =>
    intro st
    rw [List.foldl_cons]
    have ht := ih (fun e he => h e (List.mem_cons_of_mem _ he))
    obtain ⟨t0, c0, d0⟩ := st
    cases ha : attrs.lookup e.1 with
    | none =>
      have : polygonScoreStep attrs (some (t0, c0, d0)) e = some (t0, c0, d0) := by
        simp [polygonScoreStep, ha]
      rw [this]; exact ht _
    | some o =>
      cases o with
      | none =>
        have : polygonScoreStep attrs (some (t0, c0, d0)) e = some (t0, c0, d0) := by
          simp [polygonScoreStep, ha]
        rw [this]; exact ht _
      | some poly =>
        have hs := h e (List.mem_cons_self _ _) poly ha
        obtain ⟨raw, hr⟩ := Option.isSome_iff_exists.mp hs
        have : polygonScoreStep attrs (some (t0, c0, d0)) e =
            some (t0 + normalize raw e.2, c0 + 1,
              d0 ++ [(e.1, { raw := raw, norm := normalize raw e.2 })]) := by
          simp [polygonScoreStep, ha, hr]
        rw [this]; exact ht _

/-- The keys of the details are the aspects of the table that are present, in table
order, when every chosen polygon has a value to read. -/
theorem aspectDetails_keys (attrs : List (String × Option (Polygon α)))
    (l : List (String × Range α))
    (h : ∀ e ∈ l, ∀ poly, attrs.lookup e.1 = some (some poly) →
      (rawValue poly e.1).isSome = true) :
    (aspectDetails attrs l).map Prod.fst = (l.map Prod.fst).filter (aspectPresent attrs) := by
  induction l with
  | nil => rfl
  | cons e t ih =>
    have ht := ih (fun e he => h e (List.mem_cons_of_mem _ he))
    cases hp : aspectPresent attrs e.1 with
    | false =>
      rw [aspectDetails_cons_absent attrs e t hp, ht, List.map_cons, List.filter_cons, hp]
      simp
    | true =>
      have hp' := hp
      unfold aspectPresent at hp'
      cases ha : attrs.lookup e.1 with
      | none => rw [ha] at hp'; exact absurd hp' (by simp)
      | some o =>
        cases o with
        | none => rw [ha] at hp'; exact absurd hp' (by simp)
        | some poly =>
          obtain ⟨raw, hr⟩ := Option.isSome_iff_exists.mp (h e (List.mem_cons_self _ _) poly ha)
          rw [aspectDetails_cons_present attrs e t poly raw ha hr, List.map_cons, ht,
            List.map_cons, List.filter_cons, hp]
          simp

/-- Every detail holds the attribute value of the polygon chosen for its aspect and the
value normalized over the range of that aspect. -/
theorem mem_aspectDetails (attrs : List (String × Option (Polygon α)))
    (l : List (String × Range α)) (d : String × AspectDetail α)
    (hd : d ∈ aspectDetails attrs l) :
    ∃ range poly, (d.1, range) ∈ l ∧ attrs.lookup d.1 = some (some poly) ∧
      rawValue poly d.1 = some d.2.raw ∧ d.2.norm = normalize d.2.raw range := by
  unfold aspectDetails at hd
  rw [List.mem_filterMap] at hd
  obtain ⟨e, he, hm⟩ := hd
  cases ha : attrs.lookup e.1 with
  | none => rw [ha] at hm; exact absurd hm (by simp)
  | some o =>
    cases o with
    | none => rw [ha] at hm; exact absurd hm (by simp)
    | some poly =>
      rw [ha] at hm
      simp only [Option.map_eq_some'] at hm
      obtain ⟨raw, hr, hde⟩ := hm
      subst hde
      exact ⟨e.2, poly, he, ha, hr, rfl⟩

/-- A polygon chosen for an aspect is one of the input polygons and has that aspect. -/
theorem polygonAttributes_chosen (dist : α → α → α → α → Option α)
    (polygons : List (Polygon α)) (lat lng : α)
    (attrs : List (String × Option (Polygon α)))
    (hattrs : polygonAttributes dist polygons lat lng = some attrs)
    (aspect : String) (poly : Polygon α)
    (h : attrs.lookup aspect = some (some poly)) :
    poly ∈ polygons ∧ poly.aspect = aspect := by
  rw [polygonAttributes_lookup dist polygons lat lng attrs hattrs] at h
  split_ifs at h with hany
  simp only [Option.some.injEq] at h
  have := choosePolygon_mem dist lat lng _ poly h
  rw [List.mem_filter] at this
  exact ⟨this.1, by simpa using this.2⟩

/-- The outcome of `polygonScore` on a classification `attrs`: a value when every chosen
polygon of a table aspect has a value to read, `NaN` otherwise. -/
theorem polygonScore_of_attrs (dist : α → α → α → α → Option α)
    (polygons : List (Polygon α)) (lat lng : α)
    (attrs : List (String × Option (Polygon α)))
    (hattrs : polygonAttributes dist polygons lat lng = some attrs) :
    ((∀ e ∈ (POLY_NORMAL_RANGES : List (String × Range α)), ∀ poly,
        attrs.lookup e.1 = some (some poly) → (rawValue poly e.1).isSome = true) ∧
      polygonScore dist polygons lat lng = Outcome.value
        { score :=
            if (aspectDetails attrs (POLY_NORMAL_RANGES : List (String × Range α))).length = 0
            then 0
            else ((aspectDetails attrs (POLY_NORMAL_RANGES : List (String × Range α))).map
              fun d => d.2.norm).sum /
              ((aspectDetails attrs
                (POLY_NORMAL_RANGES : List (String × Range α))).length : α) * 100
          details := aspectDetails attrs POLY_NORMAL_RANGES }) ∨
    ((∃ e ∈ (POLY_NORMAL_RANGES : List (String × Range α)), ∃ poly,
        attrs.lookup e.1 = some (some poly) ∧ rawValue poly e.1 = none) ∧
      polygonScore dist polygons lat lng = Outcome.notANumber) := by
  unfold polygonScore
  rw [hattrs]
  simp only
  cases hf : List.foldl (polygonScoreStep attrs) (some (0, 0, []))
      (POLY_NORMAL_RANGES : List (String × Range α)) with
  | none =>
    right
    refine ⟨?_, rfl⟩
    by_contra hne
    push_neg at hne
    obtain ⟨st', hst'⟩ := polygonScore_loop_isSome attrs
      (POLY_NORMAL_RANGES : List (String × Range α))
      (fun e he poly hl => by
        cases hr : rawValue poly e.1 with
        | none => exact absurd hr (hne e he poly hl)
        | some v => rfl) (0, 0, [])
    rw [hf] at hst'
    exact absurd hst' (by simp)
  | some st =>
    left
    obtain ⟨total, count, details⟩ := st
    obtain ⟨h1, h2, h3, h4⟩ := polygonScore_loop _ _ _ _ _ _ _ _ hf
    simp only [List.nil_append, zero_add] at h1 h2 h3
    subst h1 h2 h3
    exact ⟨h4, rfl⟩

theorem aspectDetails_score_bounds (details : List (String × AspectDetail α))
    (hnorm : ∀ d ∈ details, 0 ≤ d.2.norm ∧ d.2.norm ≤ 1) :
    0 ≤ (if details.length = 0 then (0 : α)
      else (details.map fun d => d.2.norm).sum / (details.length : α) * 100) ∧
    (if details.length = 0 then (0 : α)
      else (details.map fun d => d.2.norm).sum / (details.length : α) * 100) ≤ 100 := by
  have h0 : 0 ≤ (details.map fun d => d.2.norm).sum :=
    sum_map_nonneg _ _ (fun d hd' => (hnorm d hd').1)
  have h1 : (details.map fun d => d.2.norm).sum ≤ (details.length : α) := by
    have := sum_map_le_sum_map (fun d : String × AspectDetail α => d.2.norm) (fun _ => (1 : α))
      details (fun d hd' => (hnorm d hd').2)
    simpa using this
  split_ifs with hl
  · norm_num
  · have hpos : (0 : α) < (details.length : α) := by
      exact_mod_cast Nat.pos_of_ne_zero hl
    constructor
    · positivity
    · rw [div_mul_eq_mul_div, div_le_iff₀ hpos]
      nlinarith

theorem aspectDetails_norm_mem_unit (attrs : List (String × Option (Polygon α)))
    (l : List (String × Range α)) (d : String × AspectDetail α)
    (hd : d ∈ aspectDetails attrs l) : 0 ≤ d.2.norm ∧ d.2.norm ≤ 1 := by
  obtain ⟨range, _, _, _, _, hn⟩ := mem_aspectDetails attrs l d hd
  rw [hn]; exact normalize_mem_unit range _

/-- The three outcomes of `polygonScore`. -/
theorem polygonScore_outcome (dist : α → α → α → α → Option α)
    (polygons : List (Polygon α)) (lat lng : α) :
    (polygonScore dist polygons lat lng = Outcome.typeError ↔
      ∃ p ∈ polygons, p.aspect ∈ objectPrototypeNames) ∧
    (polygonScore dist polygons lat lng = Outcome.notANumber ↔
      ∃ attrs, polygonAttributes dist polygons lat lng = some attrs ∧
        ∃ e ∈ (POLY_NORMAL_RANGES : List (String × Range α)), ∃ poly,
          attrs.lookup e.1 = some (some poly) ∧ rawValue poly e.1 = none) ∧
    ((∃ ps, polygonScore dist polygons lat lng = Outcome.value ps) ↔
      ∃ attrs, polygonAttributes dist polygons lat lng = some attrs ∧
        ∀ e ∈ (POLY_NORMAL_RANGES : List (String × Range α)), ∀ poly,
          attrs.lookup e.1 = some (some poly) → (rawValue poly e.1).isSome = true) := by
  cases hattrs : polygonAttributes dist polygons lat lng with
  | none =>
    have ht : polygonScore dist polygons lat lng = Outcome.typeError := by
      unfold polygonScore; rw [hattrs]
    have hex := (polygonAttributes_eq_none_iff dist polygons lat lng).mp hattrs
    rw [ht]
    simp [hex]
  | some attrs =>
    have hno : ¬ ∃ p ∈ polygons, p.aspect ∈ objectPrototypeNames := by
      intro hex
      have := (polygonAttributes_eq_none_iff dist polygons lat lng).mpr hex
      rw [hattrs] at this
      exact absurd this (by simp)
    rcases polygonScore_of_attrs dist polygons lat lng attrs hattrs with
      ⟨hall, hv⟩ | ⟨hex, hn⟩
    · rw [hv]
      refine ⟨by simp [hno], ?_, ?_⟩
      · simp only [reduceCtorEq, false_iff]
        rintro ⟨a, ha, e, he, poly, hl, hr⟩
        simp only [Option.some.injEq] at ha
        subst ha
        have := hall e he poly hl
        rw [hr] at this
        exact absurd this (by simp)
      · exact ⟨fun _ => ⟨attrs, rfl, hall⟩, fun _ => ⟨_, rfl⟩⟩
    · rw [hn]
      refine ⟨by simp [hno], ?_, ?_⟩
      · simp only [true_iff]
        exact ⟨attrs, rfl, hex⟩
      · simp only [reduceCtorEq, exists_false, false_iff]
        rintro ⟨a, ha, hall⟩
        simp only [Option.some.injEq] at ha
        subst ha
        obtain ⟨e, he, poly, hl, hr⟩ := hex
        have := hall e he poly hl
        rw [hr] at this
        exact absurd this (by simp)

/-- What `polygonScore` returns: the details of the present aspects of the table, and
their mean normalized value times 100, which lies in `[0,100]`. -/
theorem polygonScore_spec (dist : α → α → α → α → Option α) (polygons : List (Polygon α))
    (lat lng : α) (attrs : List (String × Option (Polygon α)))
    (hattrs : polygonAttributes dist polygons lat lng = some attrs)
    (ps : PolygonScore α)
    (h : polygonScore dist polygons lat lng = Outcome.value ps) :
    ps.details = aspectDetails attrs POLY_NORMAL_RANGES ∧
    ps.details.map Prod.fst =
      ((POLY_NORMAL_RANGES : List (String × Range α)).map Prod.fst).filter
        (aspectPresent attrs) ∧
    ps.score = (if ps.details.length = 0 then 0
      else (ps.details.map fun d => d.2.norm).sum / (ps.details.length : α) * 100) ∧
    0 ≤ ps.score ∧ ps.score ≤ 100 := by
  rcases polygonScore_of_attrs dist polygons lat lng attrs hattrs with
    ⟨hall, hv⟩ | ⟨_, hn⟩
  · rw [hv] at h
    simp only [Outcome.value.injEq] at h
    subst h
    refine ⟨rfl, aspectDetails_keys attrs _ hall, rfl, ?_⟩
    exact aspectDetails_score_bounds _
      (fun d hd => aspectDetails_norm_mem_unit attrs _ d hd)
  · rw [hn] at h
    exact absurd h (by simp)

end PolygonScoreLemmas

/-! ### Clamping -/

section Clamping

variable {α : Type} [LinearOrderedField α]

theorem max_min_eq_clampScore (x : α) : Max.max 0 (Min.min 100 x) = clampScore x := by
  unfold clampScore
  split_ifs with h1 h2
  · rw [min_eq_right (by linarith), max_eq_left h1.le]
  · rw [min_eq_left h2.le, max_eq_right (by norm_num)]
  · rw [min_eq_right (not_lt.mp h2), max_eq_right (not_lt.mp h1)]

theorem clampScore_mem (x : α) : 0 ≤ clampScore x ∧ clampScore x ≤ 100 := by
  unfold clampScore
  split_ifs with h1 h2
  · norm_num
  · norm_num
  · exact ⟨not_lt.mp h1, not_lt.mp h2⟩

end Clamping

/-! ### Ray casting on a rectangle -/

section RayCasting

variable {α : Type} [LinearOrderedField α]

theorem range_four : List.range 4 = [0, 1, 2, 3] := rfl

/-- The value of `pointInPolygon` on the ring of an axis-aligned rectangle. -/
theorem pointInPolygon_rectangle (x0 y0 x1 y1 x y : α) :
    pointInPolygon (x, y) [(x0, y0), (x0, y1), (x1, y1), (x1, y0)] =
      (edgeIntersect x y x1 y0 x1 y1 ^^ (edgeIntersect x y x1 y1 x0 y1 ^^
        (edgeIntersect x y x0 y1 x0 y0 ^^ edgeIntersect x y x0 y0 x1 y0))) := by
  unfold pointInPolygon
  have hl : ([(x0, y0), (x0, y1), (x1, y1), (x1, y0)] : List (α × α)).length = 4 := rfl
  simp only [hl, range_four, List.foldl_cons, List.foldl_nil]
  simp only [List.getD_cons_zero, List.getD_cons_succ, Nat.reduceSub]
  rcases Bool.eq_false_or_eq_true (edgeIntersect x y x1 y0 x1 y1) with h1 | h1 <;>
    rcases Bool.eq_false_or_eq_true (edgeIntersect x y x1 y1 x0 y1) with h2 | h2 <;>
    rcases Bool.eq_false_or_eq_true (edgeIntersect x y x0 y1 x0 y0) with h3 | h3 <;>
    rcases Bool.eq_false_or_eq_true (edgeIntersect x y x0 y0 x1 y0) with h4 | h4 <;>
    simp [h1, h2, h3, h4]

theorem edgeIntersect_horizontal (x y xi yi xj : α) :
    edgeIntersect x y xi yi xj yi = false := by
  simp [edgeIntersect]

theorem edgeIntersect_vertical (x y xi yi yj : α) :
    edgeIntersect x y xi yi xi yj =
      ((decide (yi > y) != decide (yj > y)) && decide (x < xi)) := by
  simp [edgeIntersect]

theorem pointInPolygon_rectangle_inside (x0 y0 x1 y1 x y : α)
    (hx0 : x0 < x) (hx1 : x < x1) (hy0 : y0 < y) (hy1 : y < y1) :
    pointInPolygon (x, y) [(x0, y0), (x0, y1), (x1, y1), (x1, y0)] = true := by
  rw [pointInPolygon_rectangle, edgeIntersect_horizontal, edgeIntersect_horizontal,
    edgeIntersect_vertical, edgeIntersect_vertical]
  have h1 : ¬ y0 > y := not_lt.mpr hy0.le
  have h2 : ¬ x < x0 := not_lt.mpr hx0.le
  simp [h1, h2, hy1, hx1]

theorem pointInPolygon_rectangle_outside (x0 y0 x1 y1 x y : α)
    (hx : x0 < x1) (hy : y0 < y1)
    (hout : x < x0 ∨ x1 < x ∨ y < y0 ∨ y1 < y) :
    pointInPolygon (x, y) [(x0, y0), (x0, y1), (x1, y1), (x1, y0)] = false := by
  rw [pointInPolygon_rectangle, edgeIntersect_horizontal, edgeIntersect_horizontal,
    edgeIntersect_vertical, edgeIntersect_vertical]
  rcases hout with h | h | h | h
  · have : x < x1 := h.trans hx
    simp [h, this]
  · have h1 : ¬ x < x1 := not_lt.mpr h.le
    have h2 : ¬ x < x0 := not_lt.mpr (hx.trans h).le
    simp [h1, h2]
  · have h1 : y0 > y := h
    have h2 : y1 > y := h.trans hy
    simp [h1, h2]
  · have h1 : ¬ y1 > y := not_lt.mpr h.le
    have h2 : ¬ y0 > y := not_lt.mpr (hy.trans h).le
    simp [h1, h2]

/-- No divisor that `pointInPolygon` evaluates is zero, whatever the ring. -/
theorem evaluatedDivisors_ne_zero (point : α × α) (polygon : List (α × α)) :
    ∀ d ∈ evaluatedDivisors point polygon, d ≠ 0 := by
  unfold evaluatedDivisors
  have key : ∀ (l : List ℕ) (st : List α × ℕ), (∀ d ∈ st.1, d ≠ 0) →
      ∀ d ∈ (l.foldl (fun (st : List α × ℕ) i =>
        (if decide ((polygon.getD i (0, 0)).2 > point.2) !=
            decide ((polygon.getD st.2 (0, 0)).2 > point.2)
          then st.1 ++ [(polygon.getD st.2 (0, 0)).2 - (polygon.getD i (0, 0)).2]
          else st.1, i)) st).1, d ≠ 0 := by
    intro l
    induction l with
    | nil => intro st h; exact h
    | cons i t ih =>
      intro st h
      rw [List.foldl_cons]
      apply ih
      intro d hd
      simp only at hd
      split_ifs at hd with hc
      · rcases List.mem_append.mp hd with hd | hd
        · exact h d hd
        · simp only [List.mem_singleton] at hd
          subst hd
          intro h0
          have : (polygon.getD st.2 (0, 0)).2 = (polygon.getD i (0, 0)).2 := sub_eq_zero.mp h0
          rw [this] at hc
          simp at hc
      · exact h d hd
  exact key _ _ (by simp)

end RayCasting

/-! ### Cell keys -/

section CellKeys

theorem decimalValue_append_singleton (cs : List Char) (c : Char) :
    decimalValue (cs ++ [c]) = 10 * decimalValue cs + (c.toNat - 48) := by
  simp [decimalValue, List.foldl_append]

theorem digitChar_toNat (d : ℕ) (h : d < 10) : (Nat.digitChar d).toNat - 48 = d := by
  interval_cases d <;> rfl

theorem digitChar_isDigit (d : ℕ) (h : d < 10) : (Nat.digitChar d).isDigit = true := by
  interval_cases d <;> rfl

theorem toDigitsCore_append (fuel : ℕ) :
    ∀ (n : ℕ) (ds : List Char),
      Nat.toDigitsCore 10 fuel n ds = Nat.toDigitsCore 10 fuel n [] ++ ds := by
  induction fuel with
  | zero => intro n ds; simp [Nat.toDigitsCore]
  | succ f ih =>
    intro n ds
    simp only [Nat.toDigitsCore]
    split_ifs with h
    · simp
    · rw [ih (n / 10) (Nat.digitChar (n % 10) :: ds), ih (n / 10) [Nat.digitChar (n % 10)]]
      simp

theorem toDigitsCore_succ (fuel n : ℕ) :
    Nat.toDigitsCore 10 (fuel + 1) n [] =
      (if n / 10 = 0 then [] else Nat.toDigitsCore 10 fuel (n / 10) []) ++
        [Nat.digitChar (n % 10)] := by
  simp only [Nat.toDigitsCore]
  split_ifs with h
  · simp
  · rw [toDigitsCore_append]

theorem decimalValue_toDigitsCore (fuel : ℕ) :
    ∀ n, n < fuel → decimalValue (Nat.toDigitsCore 10 fuel n []) = n := by
  induction fuel with
  | zero => intro n h; omega
  | succ f ih =>
    intro n h
    rw [toDigitsCore_succ, decimalValue_append_singleton,
      digitChar_toNat _ (Nat.mod_lt _ (by norm_num))]
    split_ifs with h0
    · simp only [decimalValue, List.foldl_nil]; omega
    · rw [ih (n / 10) (by omega)]; omega

theorem toDigitsCore_isDigit (fuel : ℕ) :
    ∀ n, ∀ c ∈ Nat.toDigitsCore 10 fuel n [], c.isDigit = true := by
  induction fuel with
  | zero => intro n c h; simp [Nat.toDigitsCore] at h
  | succ f ih =>
    intro n c h
    rw [toDigitsCore_succ] at h
    rcases List.mem_append.mp h with h | h
    · split_ifs at h with h0
      · simp at h
      · exact ih _ c h
    · simp only [List.mem_singleton] at h
      rw [h]; exact digitChar_isDigit _ (Nat.mod_lt _ (by norm_num))

theorem toDigitsCore_ne_nil (fuel n : ℕ) (h : 0 < fuel) :
    Nat.toDigitsCore 10 fuel n [] ≠ [] := by
  cases fuel with
  | zero => omega
  | succ f => rw [toDigitsCore_succ]; simp

/-- The characters of the decimal representation of a natural number. -/
theorem nat_toString_data (n : ℕ) : (toString n).data = Nat.toDigits 10 n := rfl

theorem nat_toString_injective (a b : ℕ) (h : (toString a).data = (toString b).data) :
    a = b := by
  rw [nat_toString_data, nat_toString_data] at h
  have ha := decimalValue_toDigitsCore (a + 1) a (by omega)
  have hb := decimalValue_toDigitsCore (b + 1) b (by omega)
  unfold Nat.toDigits at h
  rw [h] at ha
  omega

theorem nat_toString_isDigit (n : ℕ) : ∀ c ∈ (toString n).data, c.isDigit = true := by
  rw [nat_toString_data]
  exact toDigitsCore_isDigit _ _

theorem nat_toString_ne_nil (n : ℕ) : (toString n).data ≠ [] := by
  rw [nat_toString_data]
  exact toDigitsCore_ne_nil _ _ (by omega)

theorem int_toString_ofNat (n : ℕ) : (toString (Int.ofNat n)).data = (toString n).data := rfl

theorem int_toString_negSucc (n : ℕ) :
    (toString (Int.negSucc n)).data = '-' :: (toString (n + 1)).data := rfl

/-- No colon occurs in the decimal representation of an integer. -/
theorem int_toString_no_colon (z : ℤ) : ':' ∉ (toString z).data := by
  intro h
  cases z with
  | ofNat n =>
    rw [int_toString_ofNat] at h
    have := nat_toString_isDigit n _ h
    exact absurd this (by decide)
  | negSucc n =>
    rw [int_toString_negSucc] at h
    rcases List.mem_cons.mp h with h | h
    · exact absurd h (by decide)
    · have := nat_toString_isDigit _ _ h
      exact absurd this (by decide)

theorem int_toString_injective (a b : ℤ) (h : (toString a).data = (toString b).data) :
    a = b := by
  have hfirst : ∀ n : ℕ, ∀ l, (toString n).data ≠ '-' :: l := by
    intro n l hl
    have := nat_toString_isDigit n '-' (by rw [hl]; exact List.mem_cons_self _ _)
    exact absurd this (by decide)
  cases a with
  | ofNat m =>
    cases b with
    | ofNat n =>
      rw [int_toString_ofNat, int_toString_ofNat] at h
      rw [nat_toString_injective m n h]
    | negSucc n =>
      rw [int_toString_ofNat, int_toString_negSucc] at h
      exact absurd h (hfirst m _)
  | negSucc m =>
    cases b with
    | ofNat n =>
      rw [int_toString_ofNat, int_toString_negSucc] at h
      exact absurd h.symm (hfirst n _)
    | negSucc n =>
      rw [int_toString_negSucc, int_toString_negSucc] at h
      have := nat_toString_injective (m + 1) (n + 1) (List.cons.inj h).2
      have hmn : m = n := by omega
      rw [hmn]

theorem append_colon_inj :
    ∀ (l1 l2 r1 r2 : List Char), ':' ∉ l1 → ':' ∉ l2 →
      l1 ++ ':' :: r1 = l2 ++ ':' :: r2 → l1 = l2 ∧ r1 = r2
  | [], [], r1, r2, _, _, h => by simpa using h
  | [], c :: l2, r1, r2, _, h2, h => by
    simp only [List.nil_append, List.cons_append, List.cons.injEq] at h
    exact absurd (h.1 ▸ List.mem_cons_self _ _) h2
  | c :: l1, [], r1, r2, h1, _, h => by
    simp only [List.nil_append, List.cons_append, List.cons.injEq] at h
    exact absurd (h.1 ▸ List.mem_cons_self _ _) h1
  | c :: l1, d :: l2, r1, r2, h1, h2, h => by
    simp only [List.cons_append, List.cons.injEq] at h
    have := append_colon_inj l1 l2 r1 r2 (fun hm => h1 (List.mem_cons_of_mem _ hm))
      (fun hm => h2 (List.mem_cons_of_mem _ hm)) h.2
    exact ⟨by rw [h.1, this.1], this.2⟩

theorem cellKey_data (gx gy : ℤ) :
    (cellKey gx gy).data = (toString gx).data ++ ':' :: (toString gy).data := by
  simp [cellKey, String.data_append]

/-- Distinct pairs of cell coordinates have distinct keys. -/
theorem cellKey_injective (a b c d : ℤ) (h : cellKey a b = cellKey c d) :
    a = c ∧ b = d := by
  have hd : (cellKey a b).data = (cellKey c d).data := by rw [h]
  rw [cellKey_data, cellKey_data] at hd
  obtain ⟨h1, h2⟩ := append_colon_inj _ _ _ _ (int_toString_no_colon a)
    (int_toString_no_colon c) hd
  exact ⟨int_toString_injective a c h1, int_toString_injective b d h2⟩

end CellKeys

/-! ### The grid index -/

section GridIndexLemmas

variable {α : Type} [LinearOrderedField α] [FloorRing α]

theorem buildGridIndex_eq (points : List (Point α)) (cellSizeDeg : α) :
    buildGridIndex points cellSizeDeg =
      { index := points.foldl (fun m p => Buckets.add m (pointKey cellSizeDeg p) p) []
        cellSizeDeg := cellSizeDeg } := by
  unfold buildGridIndex
  simp only [Buckets.grid_step_eq_add]
  rfl

/-- The array that the built index holds under a key: the input points of that key, in
input order, when there is one, and no entry otherwise. -/
theorem buildGridIndex_get (points : List (Point α)) (cellSizeDeg : α) (k : String) :
    (buildGridIndex points cellSizeDeg).index.get k =
      if points.any (fun p => pointKey cellSizeDeg p == k) then
        some (points.filter (fun p => pointKey cellSizeDeg p == k))
      else none := by
  rw [buildGridIndex_eq]
  exact Buckets.get_foldl_add_nil _ _ _

theorem buildGridIndex_nodup (points : List (Point α)) (cellSizeDeg : α) :
    ((buildGridIndex points cellSizeDeg).index.map Prod.fst).Nodup := by
  rw [buildGridIndex_eq]
  exact Buckets.nodup_keys_foldl_add _ _ [] List.nodup_nil

theorem buildGridIndex_perm (points : List (Point α)) (cellSizeDeg : α) :
    ((buildGridIndex points cellSizeDeg).index.flatMap Prod.snd).Perm points := by
  rw [buildGridIndex_eq]
  simpa using Buckets.perm_foldl_add (pointKey cellSizeDeg) points []

theorem buildGridIndex_bucket (points : List (Point α)) (cellSizeDeg : α)
    (e : String × List (Point α)) (he : e ∈ (buildGridIndex points cellSizeDeg).index) :
    e.2 = points.filter (fun p => pointKey cellSizeDeg p == e.1) := by
  have h1 := Buckets.get_of_mem _ (buildGridIndex_nodup points cellSizeDeg) e he
  rw [buildGridIndex_get] at h1
  split_ifs at h1
  exact (Option.some.inj h1).symm

end GridIndexLemmas

/-! ### The index query -/

section IndexQuery

variable {α : Type} [LinearOrderedField α] [FloorRing α]

theorem pointKey_beq (cellSizeDeg : α) (p : Point α) (cx cy : ℤ) :
    (pointKey cellSizeDeg p == cellKey cx cy) =
      decide (⌊p.longitude / cellSizeDeg⌋ = cx ∧ ⌊p.latitude / cellSizeDeg⌋ = cy) := by
  by_cases h : ⌊p.longitude / cellSizeDeg⌋ = cx ∧ ⌊p.latitude / cellSizeDeg⌋ = cy
  · rw [decide_eq_true h]
    simp [pointKey, h.1, h.2]
  · rw [decide_eq_false h]
    rw [beq_eq_false_iff_ne]
    intro hk
    exact h (cellKey_injective _ _ _ _ hk)

/-- The index query is the scan of the 25 cells around the cell of the query point. -/
theorem nearbyFromIndex_buildGridIndex (dist : α → α → α → α → α) (points : List (Point α))
    (cellSizeDeg lat lng radiusKm : α) :
    nearbyFromIndex dist (buildGridIndex points cellSizeDeg) lat lng radiusKm =
      cellOffsets.flatMap fun dx => cellOffsets.flatMap fun dy =>
        cellScan dist points cellSizeDeg lat lng radiusKm
          (⌊lng / cellSizeDeg⌋ + dx) (⌊lat / cellSizeDeg⌋ + dy) := by
  unfold nearbyFromIndex
  have hcs : (buildGridIndex points cellSizeDeg).cellSizeDeg = cellSizeDeg := rfl
  simp only [hcs, buildGridIndex_get]
  congr 1
  funext dx
  congr 1
  funext dy
  simp only [pointKey_beq]
  unfold cellScan linearScan
  split_ifs with hany
  · rfl
  · have : points.filter (fun p => decide (⌊p.longitude / cellSizeDeg⌋ = ⌊lng / cellSizeDeg⌋ + dx ∧
        ⌊p.latitude / cellSizeDeg⌋ = ⌊lat / cellSizeDeg⌋ + dy)) = [] := by
      rw [List.filter_eq_nil_iff]
      intro p hp hd
      exact hany (List.any_eq_true.mpr ⟨p, hp, hd⟩)
    rw [this]
    rfl

omit [FloorRing α] in
theorem mem_linearScan (dist : α → α → α → α → α) (points : List (Point α))
    (lat lng radiusKm : α) (c : Candidate α) :
    c ∈ linearScan dist points lat lng radiusKm ↔
      c.point ∈ points ∧ c.distKm = dist lat lng c.point.latitude c.point.longitude ∧
        c.distKm ≤ radiusKm := by
  unfold linearScan
  rw [List.mem_filterMap]
  constructor
  · rintro ⟨p, hp, hc⟩
    split_ifs at hc with hd
    simp only [Option.some.injEq] at hc
    subst hc
    exact ⟨hp, rfl, hd⟩
  · rintro ⟨hp, hd, hr⟩
    refine ⟨c.point, hp, ?_⟩
    rw [← hd, if_pos hr]

/-- The candidates of the index query: the candidates of the linear scan whose point lies
in one of the 25 cells around the cell of the query point. -/
theorem mem_nearbyFromIndex (dist : α → α → α → α → α) (points : List (Point α))
    (cellSizeDeg lat lng radiusKm : α) (c : Candidate α) :
    c ∈ nearbyFromIndex dist (buildGridIndex points cellSizeDeg) lat lng radiusKm ↔
      c ∈ linearScan dist points lat lng radiusKm ∧
      ⌊c.point.longitude / cellSizeDeg⌋ - ⌊lng / cellSizeDeg⌋ ∈ cellOffsets ∧
      ⌊c.point.latitude / cellSizeDeg⌋ - ⌊lat / cellSizeDeg⌋ ∈ cellOffsets := by
  rw [nearbyFromIndex_buildGridIndex]
  simp only [List.mem_flatMap, cellScan, mem_linearScan, List.mem_filter, decide_eq_true_eq]
  constructor
  · rintro ⟨dx, hdx, dy, hdy, ⟨hp, hx, hy⟩, hd, hr⟩
    refine ⟨⟨hp, hd, hr⟩, ?_, ?_⟩
    · rw [hx]; simpa using hdx
    · rw [hy]; simpa using hdy
  · rintro ⟨⟨hp, hd, hr⟩, hx, hy⟩
    exact ⟨_, hx, _, hy, ⟨hp, by ring, by ring⟩, hd, hr⟩

end IndexQuery

/-! ### The haversine distance -/

section Haversine

theorem atan2_of_pos (y x : ℝ) (hx : 0 < x) : atan2 y x = Real.arctan (y / x) := by
  simp [atan2, hx]

theorem arctan_le_self_of_nonneg (t : ℝ) (ht : 0 ≤ t) : Real.arctan t ≤ t := by
  have h1 : 0 ≤ Real.arctan t := by
    rw [← Real.arctan_zero]
    exact Real.arctan_strictMono.monotone ht
  have h2 := Real.le_tan h1 (Real.arctan_lt_pi_div_two t)
  rwa [Real.tan_arctan] at h2

/-- The haversine distance of a point to itself is zero. -/
theorem haversineKm_self (lat lon : ℝ) : haversineKm lat lon lat lon = 0 := by
  simp [haversineKm, atan2_of_pos]

/-- Along a meridian the haversine distance is the earth radius times the angle. -/
theorem haversineKm_meridian (lat1 lat2 lon : ℝ) (h1 : lat1 < lat2)
    (h2 : lat2 - lat1 < 180) :
    haversineKm lat1 lon lat2 lon = 6371 * ((lat2 - lat1) * Real.pi / 180) := by
  have hpi := Real.pi_pos
  set x := (lat2 - lat1) * Real.pi / 180 / 2 with hx
  have hx0 : 0 < x := by rw [hx]; have := sub_pos.mpr h1; positivity
  have hx1 : x < Real.pi / 2 := by
    rw [hx]
    have : (lat2 - lat1) * Real.pi < 180 * Real.pi := by nlinarith
    linarith
  have hsin : 0 < Real.sin x := Real.sin_pos_of_pos_of_lt_pi hx0 (by linarith)
  have hcos : 0 < Real.cos x := Real.cos_pos_of_mem_Ioo ⟨by linarith, hx1⟩
  have ha : Real.sin x ^ 2 + Real.cos (lat1 * Real.pi / 180) * Real.cos (lat2 * Real.pi / 180) *
      Real.sin ((lon - lon) * Real.pi / 180 / 2) ^ 2 = Real.sin x ^ 2 := by
    simp
  have hs1 : Real.sqrt (Real.sin x ^ 2) = Real.sin x := Real.sqrt_sq hsin.le
  have hs2 : Real.sqrt (1 - Real.sin x ^ 2) = Real.cos x := by
    have : 1 - Real.sin x ^ 2 = Real.cos x ^ 2 := by
      have := Real.sin_sq_add_cos_sq x; linarith
    rw [this, Real.sqrt_sq hcos.le]
  unfold haversineKm
  simp only []
  rw [← hx, ha, hs1, hs2, atan2_of_pos _ _ hcos, ← Real.tan_eq_sin_div_cos,
    Real.arctan_tan (by linarith) hx1, hx]
  ring

theorem haversine_core_le (a D : ℝ) (ha0 : 0 ≤ a) (ha1 : a < 1) (hD : 0 ≤ D)
    (h : a * (2 * 6371) ^ 2 ≤ (1 - a) * D ^ 2) :
    6371 * 2 * atan2 (Real.sqrt a) (Real.sqrt (1 - a)) ≤ D := by
  have hpos : 0 < Real.sqrt (1 - a) := Real.sqrt_pos.mpr (by linarith)
  rw [atan2_of_pos _ _ hpos]
  have hq : 0 ≤ Real.sqrt a / Real.sqrt (1 - a) := div_nonneg (Real.sqrt_nonneg _) hpos.le
  have h1 := arctan_le_self_of_nonneg _ hq
  have h2 : 6371 * 2 * Real.sqrt a ≤ D * Real.sqrt (1 - a) := by
    have e1 : 6371 * 2 * Real.sqrt a = Real.sqrt (a * (2 * 6371) ^ 2) := by
      rw [Real.sqrt_mul ha0, Real.sqrt_sq (by norm_num)]; ring
    have e2 : D * Real.sqrt (1 - a) = Real.sqrt ((1 - a) * D ^ 2) := by
      rw [Real.sqrt_mul (by linarith), Real.sqrt_sq hD]; ring
    rw [e1, e2]
    exact Real.sqrt_le_sqrt h
  have h3 : 6371 * 2 * (Real.sqrt a / Real.sqrt (1 - a)) ≤ D := by
    rw [← mul_div_assoc, div_le_iff₀ hpos]
    exact h2
  calc 6371 * 2 * Real.arctan (Real.sqrt a / Real.sqrt (1 - a))
      ≤ 6371 * 2 * (Real.sqrt a / Real.sqrt (1 - a)) :=
        mul_le_mul_of_nonneg_left h1 (by norm_num)
    _ ≤ D := h3

theorem cos_sq_le_of_latitude (lat : ℝ) (hlat0 : 30 ≤ lat) (hlat1 : lat ≤ 90) :
    0 ≤ Real.cos (lat * Real.pi / 180) * Real.cos (lat * Real.pi / 180) ∧
      Real.cos (lat * Real.pi / 180) * Real.cos (lat * Real.pi / 180) ≤ 3 / 4 := by
  have hpi := Real.pi_pos
  have h0 : Real.pi / 6 ≤ lat * Real.pi / 180 := by nlinarith
  have h1 : lat * Real.pi / 180 ≤ Real.pi / 2 := by nlinarith
  have hc0 : 0 ≤ Real.cos (lat * Real.pi / 180) :=
    Real.cos_nonneg_of_mem_Icc ⟨by linarith, h1⟩
  have hc1 : Real.cos (lat * Real.pi / 180) ≤ Real.sqrt 3 / 2 := by
    rw [← Real.cos_pi_div_six]
    exact Real.cos_le_cos_of_nonneg_of_le_pi (by positivity) (by linarith) h0
  have h3 : Real.sqrt 3 * Real.sqrt 3 = 3 := Real.mul_self_sqrt (by norm_num)
  have hs : 0 ≤ Real.sqrt 3 := Real.sqrt_nonneg _
  constructor
  · exact mul_nonneg hc0 hc0
  · nlinarith

/-- An upper bound of the haversine distance between two points of one parallel, of
latitude between 30 and 90 degrees. -/
theorem haversineKm_parallel_le (lat lon1 lon2 D : ℝ) (hlat0 : 30 ≤ lat) (hlat1 : lat ≤ 90)
    (hD : 0 < D)
    (h : 3 / 4 * ((lon2 - lon1) * (315 / 100) / 360) ^ 2 * ((2 * 6371) ^ 2 + D ^ 2) ≤ D ^ 2) :
    haversineKm lat lon1 lat lon2 ≤ D := by
  have hpi := Real.pi_pos
  have hpi2 : Real.pi < 315 / 100 := by
    have := Real.pi_lt_d2; norm_num at this ⊢; linarith
  obtain ⟨hc0, hc1⟩ := cos_sq_le_of_latitude lat hlat0 hlat1
  set c2 := Real.cos (lat * Real.pi / 180) * Real.cos (lat * Real.pi / 180) with hc2
  set s := Real.sin ((lon2 - lon1) * Real.pi / 180 / 2) ^ 2 with hs
  have hs0 : 0 ≤ s := sq_nonneg _
  have hs1 : s ≤ ((lon2 - lon1) * (315 / 100) / 360) ^ 2 := by
    have h1 : s ≤ ((lon2 - lon1) * Real.pi / 180 / 2) ^ 2 := Real.sin_sq_le_sq
    have h2 : ((lon2 - lon1) * Real.pi / 180 / 2) ^ 2 ≤
        ((lon2 - lon1) * (315 / 100) / 360) ^ 2 := by
      have e1 : ((lon2 - lon1) * Real.pi / 180 / 2) ^ 2 =
          (lon2 - lon1) ^ 2 * Real.pi ^ 2 / 360 ^ 2 := by ring
      have e2 : ((lon2 - lon1) * (315 / 100) / 360) ^ 2 =
          (lon2 - lon1) ^ 2 * (315 / 100) ^ 2 / 360 ^ 2 := by ring
      rw [e1, e2]
      have : Real.pi ^ 2 ≤ (315 / 100) ^ 2 := by nlinarith
      have hl : 0 ≤ (lon2 - lon1) ^ 2 := sq_nonneg _
      have : (lon2 - lon1) ^ 2 * Real.pi ^ 2 ≤ (lon2 - lon1) ^ 2 * (315 / 100) ^ 2 :=
        mul_le_mul_of_nonneg_left this hl
      exact div_le_div_of_nonneg_right this (by norm_num)
    exact h1.trans h2
  have ha : Real.sin ((lat - lat) * Real.pi / 180 / 2) ^ 2 +
      Real.cos (lat * Real.pi / 180) * Real.cos (lat * Real.pi / 180) * s = c2 * s := by
    simp [hc2]
  have hA : c2 * s ≤ 3 / 4 * ((lon2 - lon1) * (315 / 100) / 360) ^ 2 :=
    mul_le_mul hc1 hs1 hs0 (by norm_num)
  have hK : (0 : ℝ) < (2 * 6371) ^ 2 + D ^ 2 := by positivity
  have hmain : c2 * s * ((2 * 6371) ^ 2 + D ^ 2) ≤ D ^ 2 :=
    (mul_le_mul_of_nonneg_right hA hK.le).trans h
  have ha0 : 0 ≤ c2 * s := mul_nonneg hc0 hs0
  have ha1 : c2 * s < 1 := by
    by_contra hge
    have hge : 1 ≤ c2 * s := not_lt.mp hge
    have : (2 * 6371) ^ 2 + D ^ 2 ≤ c2 * s * ((2 * 6371) ^ 2 + D ^ 2) := by
      nlinarith
    have : ((2 : ℝ) * 6371) ^ 2 ≤ 0 := by linarith
    norm_num at this
  unfold haversineKm
  simp only []
  rw [← hs, ha]
  exact haversine_core_le (c2 * s) D ha0 ha1 hD.le (by nlinarith)

end Haversine

/-! ### Cells of the failing inputs -/

section FailingInputCells

theorem floor_query_lng : ⌊(-739799 / 10000 : ℝ) / (1 / 100)⌋ = -7398 := by
  rw [Int.floor_eq_iff]; norm_num

theorem floor_point_lng : ⌊(-740001 / 10000 : ℝ) / (1 / 100)⌋ = -7401 := by
  rw [Int.floor_eq_iff]; norm_num

end FailingInputCells

/-! ### Distances of the failing inputs -/

section FailingInputDistances

theorem haversineKm_c4_far :
    (2 : ℝ) < haversineKm (40705 / 1000) (-73985 / 1000) (40805 / 1000) (-73985 / 1000) := by
  rw [haversineKm_meridian _ _ _ (by norm_num) (by norm_num)]
  have := Real.pi_gt_three
  norm_num
  nlinarith

end FailingInputDistances

/-! ### Scanning a list by cells -/

section CellScans

variable {β : Type}

theorem filter_append_perm_of_disjoint (p q : β → Bool) (l : List β)
    (h : ∀ x ∈ l, ¬ (p x = true ∧ q x = true)) :
    (l.filter p ++ l.filter q).Perm (l.filter fun x => p x || q x) := by
  induction l with
  | nil => simp
  | cons a t ih =>
    have iht := ih (fun x hx => h x (List.mem_cons_of_mem _ hx))
    have ha := h a (List.mem_cons_self _ _)
    cases hp : p a <;> cases hq : q a
    · simpa [List.filter_cons, hp, hq] using iht
    · simp only [List.filter_cons, hp, hq, Bool.false_eq_true, if_false, if_true, Bool.or_true]
      exact List.perm_middle.trans (List.Perm.cons a iht)
    · simp only [List.filter_cons, hp, hq, Bool.false_eq_true, if_false, if_true, Bool.or_false,
        List.cons_append]
      exact List.Perm.cons a iht
    · exact absurd ⟨hp, hq⟩ ha

/-- Collecting a list cell by cell, over distinct cells, permutes the elements whose cell
is listed. -/
theorem flatMap_filter_perm (f : β → ℤ) (l : List β) :
    ∀ ks : List ℤ, ks.Nodup →
      (ks.flatMap fun k => l.filter fun x => decide (f x = k)).Perm
        (l.filter fun x => decide (f x ∈ ks)) := by
  intro ks
  induction ks with
  | nil => intro _; simp
  | cons k ks ih =>
    intro hnd
    rw [List.nodup_cons] at hnd
    rw [List.flatMap_cons]
    refine (List.Perm.append_left _ (ih hnd.2)).trans ?_
    refine (filter_append_perm_of_disjoint _ _ l ?_).trans ?_
    · rintro x _ ⟨h1, h2⟩
      simp only [decide_eq_true_eq] at h1 h2
      exact hnd.1 (h1 ▸ h2)
    · apply List.Perm.of_eq
      congr 1
      funext x
      simp [List.mem_cons]

theorem filterMap_flatMap_list {γ δ : Type} (g : β → Option γ) (F : δ → List β) :
    ∀ ks : List δ, (ks.flatMap F).filterMap g = ks.flatMap fun k => (F k).filterMap g := by
  intro ks
  induction ks with
  | nil => rfl
  | cons k ks ih => simp [List.flatMap_cons, List.filterMap_append, ih]

theorem flatMap_perm_congr {δ : Type} (F G : δ → List β) :
    ∀ ks : List δ, (∀ k ∈ ks, (F k).Perm (G k)) → (ks.flatMap F).Perm (ks.flatMap G) := by
  intro ks
  induction ks with
  | nil => intro _; exact List.Perm.refl _
  | cons k ks ih =>
    intro h
    rw [List.flatMap_cons, List.flatMap_cons]
    exact List.Perm.append (h k (List.mem_cons_self _ _))
      (ih (fun k' hk' => h k' (List.mem_cons_of_mem _ hk')))

/-- Scanning a list cell by cell, over distinct cells, permutes the scan of the elements
whose cell is listed. -/
theorem flatMap_filter_filterMap_perm {γ : Type} (f : β → ℤ) (g : β → Option γ)
    (l : List β) (ks : List ℤ) (hnd : ks.Nodup) :
    (ks.flatMap fun k => (l.filter fun x => decide (f x = k)).filterMap g).Perm
      ((l.filter fun x => decide (f x ∈ ks)).filterMap g) := by
  rw [← filterMap_flatMap_list g (fun k => l.filter fun x => decide (f x = k))]
  exact List.Perm.filterMap _ (flatMap_filter_perm f l ks hnd)

end CellScans

/-! ### The index query as a scan of the searched block -/

section SearchedBlock

variable {α : Type} [LinearOrderedField α] [FloorRing α]

omit [FloorRing α] in
theorem linearScan_eq_filterMap (dist : α → α → α → α → α) (points : List (Point α))
    (lat lng radiusKm : α) :
    linearScan dist points lat lng radiusKm = points.filterMap fun p =>
      if dist lat lng p.latitude p.longitude ≤ radiusKm then
        some { point := p, distKm := dist lat lng p.latitude p.longitude }
      else none := rfl

theorem cellOffsets_nodup : cellOffsets.Nodup := by decide

/-- The index query is a permutation of the linear scan of the points of the searched
block. -/
theorem nearbyFromIndex_perm (dist : α → α → α → α → α) (points : List (Point α))
    (cellSizeDeg lat lng radiusKm : α) :
    (nearbyFromIndex dist (buildGridIndex points cellSizeDeg) lat lng radiusKm).Perm
      (linearScan dist (points.filter (inSearchedBlock cellSizeDeg lat lng)) lat lng
        radiusKm) := by
  rw [nearbyFromIndex_buildGridIndex]
  have hcell : ∀ dx dy : ℤ,
      cellScan dist points cellSizeDeg lat lng radiusKm
        (⌊lng / cellSizeDeg⌋ + dx) (⌊lat / cellSizeDeg⌋ + dy) =
      linearScan dist
        ((points.filter fun p => decide (⌊p.longitude / cellSizeDeg⌋ - ⌊lng / cellSizeDeg⌋ = dx)).filter
          fun p => decide (⌊p.latitude / cellSizeDeg⌋ - ⌊lat / cellSizeDeg⌋ = dy))
        lat lng radiusKm := by
    intro dx dy
    unfold cellScan
    congr 1
    rw [List.filter_filter]
    congr 1
    funext p
    have e1 : (⌊p.longitude / cellSizeDeg⌋ = ⌊lng / cellSizeDeg⌋ + dx) ↔
        (⌊p.longitude / cellSizeDeg⌋ - ⌊lng / cellSizeDeg⌋ = dx) := by
      constructor <;> intro h <;> omega
    have e2 : (⌊p.latitude / cellSizeDeg⌋ = ⌊lat / cellSizeDeg⌋ + dy) ↔
        (⌊p.latitude / cellSizeDeg⌋ - ⌊lat / cellSizeDeg⌋ = dy) := by
      constructor <;> intro h <;> omega
    simp only [e1, e2, Bool.decide_and, Bool.and_comm]
  simp only [hcell, linearScan_eq_filterMap]
  refine (flatMap_perm_congr _ _ cellOffsets (fun dx _ =>
    flatMap_filter_filterMap_perm
      (fun p : Point α => ⌊p.latitude / cellSizeDeg⌋ - ⌊lat / cellSizeDeg⌋) _
      (points.filter fun p => decide (⌊p.longitude / cellSizeDeg⌋ - ⌊lng / cellSizeDeg⌋ = dx))
      cellOffsets cellOffsets_nodup)).trans ?_
  have step : ∀ dx : ℤ,
      ((points.filter fun p =>
          decide (⌊p.longitude / cellSizeDeg⌋ - ⌊lng / cellSizeDeg⌋ = dx)).filter fun p =>
          decide (⌊p.latitude / cellSizeDeg⌋ - ⌊lat / cellSizeDeg⌋ ∈ cellOffsets)).filterMap
        (fun p =>
          if dist lat lng p.latitude p.longitude ≤ radiusKm then
            some ({ point := p, distKm := dist lat lng p.latitude p.longitude } : Candidate α)
          else none) =
      (points.filter fun p =>
          decide (⌊p.longitude / cellSizeDeg⌋ - ⌊lng / cellSizeDeg⌋ = dx)).filterMap
        (fun p =>
          if decide (⌊p.latitude / cellSizeDeg⌋ - ⌊lat / cellSizeDeg⌋ ∈ cellOffsets) = true then
            (if dist lat lng p.latitude p.longitude ≤ radiusKm then
              some ({ point := p, distKm := dist lat lng p.latitude p.longitude } : Candidate α)
            else none)
          else none) := fun dx => List.filterMap_filter _ _ _
  simp only [step]
  refine (flatMap_filter_filterMap_perm
    (fun p : Point α => ⌊p.longitude / cellSizeDeg⌋ - ⌊lng / cellSizeDeg⌋) _ points
    cellOffsets cellOffsets_nodup).trans ?_
  apply List.Perm.of_eq
  rw [← List.filterMap_filter, List.filter_filter]
  congr 2
  funext p
  simp only [inSearchedBlock, Bool.and_comm]

omit [FloorRing α] in
/-- Filtering the points first changes nothing in the linear scan when the filter keeps
every point within the radius. -/
theorem linearScan_filter (dist : α → α → α → α → α) (points : List (Point α))
    (lat lng radiusKm : α) (keep : Point α → Bool)
    (h : ∀ p ∈ points, dist lat lng p.latitude p.longitude ≤ radiusKm → keep p = true) :
    linearScan dist (points.filter keep) lat lng radiusKm =
      linearScan dist points lat lng radiusKm := by
  induction points with
  | nil => rfl
  | cons a t ih =>
    have iht := ih (fun p hp => h p (List.mem_cons_of_mem _ hp))
    unfold linearScan at iht ⊢
    by_cases hk : keep a = true
    · rw [List.filter_cons_of_pos hk, List.filterMap_cons, List.filterMap_cons, iht]
    · have hd : ¬ dist lat lng a.latitude a.longitude ≤ radiusKm :=
        fun hd => hk (h a (List.mem_cons_self _ _) hd)
      rw [List.filter_cons_of_neg hk, List.filterMap_cons, iht]
      simp [hd]

end SearchedBlock

/-! ### Short distances stay in the searched block -/

section ShortDistances

/-- A small sine forces a small angle, within a right angle. -/
theorem abs_le_of_sin_sq_le (x ε : ℝ) (hx : |x| ≤ Real.pi / 2) (hε0 : 0 ≤ ε)
    (hε1 : ε ≤ 1 / 1000) (h : Real.sin x ^ 2 ≤ ε ^ 2) : |x| ≤ 1001 / 1000 * ε := by
  have hpi := Real.pi_pos
  have hpi4 : Real.pi < 4 := by have := Real.pi_lt_d2; norm_num at this; linarith
  have hy0 : 0 ≤ |x| := abs_nonneg x
  have hsq : Real.sin |x| ^ 2 = Real.sin x ^ 2 := by
    rcases abs_cases x with ⟨h1, _⟩ | ⟨h1, _⟩
    · rw [h1]
    · rw [h1, Real.sin_neg]; ring
  have hs0 : 0 ≤ Real.sin |x| := Real.sin_nonneg_of_nonneg_of_le_pi hy0 (by linarith)
  have hs1 : Real.sin |x| ≤ ε := by
    rw [← hsq] at h
    exact abs_le_of_sq_le_sq' h hε0 |>.2
  have hj := Real.mul_le_sin hy0 hx
  have hy1 : |x| ≤ 2 * ε := by
    have h1 : 2 / Real.pi * |x| ≤ ε := hj.trans hs1
    have h2 : 2 * |x| ≤ ε * Real.pi := by
      rw [div_mul_eq_mul_div, div_le_iff₀ hpi] at h1
      exact h1
    nlinarith
  rcases eq_or_lt_of_le hy0 with h0 | h0
  · rw [← h0]; positivity
  · have hc := Real.sin_gt_sub_cube h0 (by linarith)
    have h3 : |x| ^ 3 / 4 ≤ |x| * (1 / 1000000) := by
      have : |x| ^ 2 ≤ (2 / 1000) ^ 2 := by
        apply pow_le_pow_left₀ hy0; linarith
      have e : |x| ^ 3 / 4 = |x| * (|x| ^ 2 / 4) := by ring
      rw [e]
      apply mul_le_mul_of_nonneg_left _ hy0
      linarith
    linarith

/-- A short haversine distance forces a small haversine term `a`. -/
theorem haversine_core_small (a D : ℝ) (ha : 0 ≤ a) (hD0 : 0 ≤ D) (hD1 : D ≤ 10)
    (h : 6371 * 2 * atan2 (Real.sqrt a) (Real.sqrt (1 - a)) ≤ D) :
    a ≤ (1001 / 1000 * (D / 12742)) ^ 2 := by
  have hpi := Real.pi_gt_three
  by_cases ha1 : a < 1
  · have hx : 0 < Real.sqrt (1 - a) := Real.sqrt_pos.mpr (by linarith)
    rw [atan2_of_pos _ _ hx] at h
    set t := Real.sqrt a / Real.sqrt (1 - a) with ht
    have ht0 : 0 ≤ t := div_nonneg (Real.sqrt_nonneg _) hx.le
    set θ := Real.arctan t with hθ
    have hθ0 : 0 ≤ θ := by
      rw [hθ, ← Real.arctan_zero]
      exact Real.arctan_strictMono.monotone ht0
    have hθ1 : θ ≤ D / 12742 := by
      rw [le_div_iff₀ (by norm_num)]; linarith
    have hθ2 : θ ≤ 1 / 1000 := by
      have : D / 12742 ≤ 1 / 1000 := by
        rw [div_le_div_iff₀ (by norm_num) (by norm_num)]; linarith
      linarith
    have hcos : 1 - θ ^ 2 / 2 ≤ Real.cos θ := Real.one_sub_sq_div_two_le_cos
    have hcos' : 999 / 1000 ≤ Real.cos θ := by nlinarith
    have hsin : Real.sin θ ≤ θ := Real.sin_le hθ0
    have htan : Real.tan θ = t := Real.tan_arctan t
    have hcpos : 0 < Real.cos θ := by linarith
    have ht1 : t ≤ 1001 / 1000 * (D / 12742) := by
      rw [← htan, Real.tan_eq_sin_div_cos, div_le_iff₀ hcpos]
      have h1 : Real.sin θ ≤ D / 12742 := hsin.trans hθ1
      have h2 : 0 ≤ D / 12742 := by positivity
      have h3 : 1 - (1 / 1000) ^ 2 / 2 ≤ Real.cos θ := by nlinarith
      nlinarith
    have hsq : t ^ 2 = a / (1 - a) := by
      rw [ht, div_pow, Real.sq_sqrt ha, Real.sq_sqrt (by linarith)]
    have hat : a ≤ t ^ 2 := by
      rw [hsq, le_div_iff₀ (by linarith)]
      nlinarith
    calc a ≤ t ^ 2 := hat
      _ ≤ (1001 / 1000 * (D / 12742)) ^ 2 := pow_le_pow_left₀ ht0 ht1 2
  · exfalso
    have h1 : Real.sqrt (1 - a) = 0 := Real.sqrt_eq_zero_of_nonpos (by linarith)
    have h2 : 0 < Real.sqrt a := Real.sqrt_pos.mpr (by linarith)
    rw [h1] at h
    have : atan2 (Real.sqrt a) 0 = Real.pi / 2 := by
      simp [atan2, h2]
    rw [this] at h
    linarith


/-- Two numbers at most two cell sizes apart lie at most two cells apart. -/
theorem floor_sub_mem_cellOffsets (u v : ℝ) (h : |u - v| ≤ 2 / 100) :
    ⌊u / (1 / 100)⌋ - ⌊v / (1 / 100)⌋ ∈ cellOffsets := by
  have h1 := abs_le.mp h
  have hu : u / (1 / 100) ≤ v / (1 / 100) + ((2 : ℤ) : ℝ) := by
    push_cast; linarith
  have hv : v / (1 / 100) ≤ u / (1 / 100) + ((2 : ℤ) : ℝ) := by
    push_cast; linarith
  have h2 : ⌊u / (1 / 100)⌋ ≤ ⌊v / (1 / 100)⌋ + 2 := by
    have := Int.floor_le_floor hu
    rwa [Int.floor_add_int] at this
  have h3 : ⌊v / (1 / 100)⌋ ≤ ⌊u / (1 / 100)⌋ + 2 := by
    have := Int.floor_le_floor hv
    rwa [Int.floor_add_int] at this
  generalize ⌊u / (1 / 100)⌋ = a at h2 h3 ⊢
  generalize ⌊v / (1 / 100)⌋ = b at h2 h3 ⊢
  have h4 : a - b = -2 ∨ a - b = -1 ∨ a - b = 0 ∨ a - b = 1 ∨ a - b = 2 := by omega
  simp only [cellOffsets, List.mem_cons, List.mem_singleton, List.not_mem_nil, or_false]
  rcases h4 with h | h | h | h | h <;> simp [h]

theorem cos_lower_of_latitude (lat : ℝ) (h0 : 0 ≤ lat) (h1 : lat ≤ 4102 / 100) :
    74 / 100 ≤ Real.cos (lat * Real.pi / 180) := by
  have hpi := Real.pi_pos
  have hpi2 : Real.pi < 315 / 100 := by
    have := Real.pi_lt_d2; norm_num at this ⊢; linarith
  have hx0 : 0 ≤ lat * Real.pi / 180 := by positivity
  have hx1 : lat * Real.pi / 180 ≤ 718 / 1000 := by
    have : lat * Real.pi ≤ 4102 / 100 * (315 / 100) := by nlinarith
    linarith
  have hc : 1 - (lat * Real.pi / 180) ^ 2 / 2 ≤ Real.cos (lat * Real.pi / 180) :=
    Real.one_sub_sq_div_two_le_cos
  have hsq : (lat * Real.pi / 180) ^ 2 ≤ (718 / 1000) ^ 2 := pow_le_pow_left₀ hx0 hx1 2
  linarith

theorem abs_half_radians_le (δ : ℝ) (h : |δ| ≤ 180) :
    |δ * Real.pi / 180 / 2| ≤ Real.pi / 2 := by
  have hpi := Real.pi_pos
  have e : δ * Real.pi / 180 / 2 = δ * (Real.pi / 360) := by ring
  rw [e, abs_mul, abs_of_pos (by positivity : (0 : ℝ) < Real.pi / 360)]
  have : |δ| * (Real.pi / 360) ≤ 180 * (Real.pi / 360) :=
    mul_le_mul_of_nonneg_right h (by positivity)
  linarith

theorem abs_degrees_le (δ ε : ℝ) (hε : ε ≤ 1 / 6000)
    (h : |δ * Real.pi / 180 / 2| ≤ ε) : |δ| ≤ 2 / 100 := by
  have hpi3 := Real.pi_gt_three
  have e : δ * Real.pi / 180 / 2 = δ * (Real.pi / 360) := by ring
  rw [e, abs_mul, abs_of_pos (by positivity : (0 : ℝ) < Real.pi / 360)] at h
  have h0 : 0 ≤ |δ| := abs_nonneg _
  have h1 : |δ| * (3 / 360) ≤ |δ| * (Real.pi / 360) :=
    mul_le_mul_of_nonneg_left (by linarith) h0
  linarith

/-- Within 1.5 km of a query point of latitude 40 to 41, a point of latitude in
`[-90, 90]` and of longitude within 180 degrees is at most 0.02 degree away in latitude
and in longitude. -/
theorem within_penalty_radius_close (lat lng plat plon : ℝ) (hlat0 : 40 ≤ lat)
    (hlat1 : lat ≤ 41) (hp0 : -90 ≤ plat) (hp1 : plat ≤ 90) (hlon : |plon - lng| ≤ 180)
    (hd : haversineKm lat lng plat plon ≤ 15 / 10) :
    |plat - lat| ≤ 2 / 100 ∧ |plon - lng| ≤ 2 / 100 := by
  have hpi := Real.pi_pos
  unfold haversineKm at hd
  simp only [] at hd
  have hc1' : 74 / 100 ≤ Real.cos (lat * Real.pi / 180) :=
    cos_lower_of_latitude lat (by linarith) (by linarith)
  have hc2n : 0 ≤ Real.cos (plat * Real.pi / 180) := by
    apply Real.cos_nonneg_of_mem_Icc
    have e1 : -(Real.pi / 2) = -90 * Real.pi / 180 := by ring
    have e2 : Real.pi / 2 = 90 * Real.pi / 180 := by ring
    constructor
    · rw [e1]
      exact div_le_div_of_nonneg_right (mul_le_mul_of_nonneg_right hp0 hpi.le) (by norm_num)
    · rw [e2]
      exact div_le_div_of_nonneg_right (mul_le_mul_of_nonneg_right hp1 hpi.le) (by norm_num)
  have hs1 : 0 ≤ Real.sin ((plat - lat) * Real.pi / 180 / 2) ^ 2 := sq_nonneg _
  have hs2 : 0 ≤ Real.sin ((plon - lng) * Real.pi / 180 / 2) ^ 2 := sq_nonneg _
  have hcc : 0 ≤ Real.cos (lat * Real.pi / 180) * Real.cos (plat * Real.pi / 180) *
      Real.sin ((plon - lng) * Real.pi / 180 / 2) ^ 2 :=
    mul_nonneg (mul_nonneg (by linarith) hc2n) hs2
  have ha := haversine_core_small _ (15 / 10) (add_nonneg hs1 hcc) (by norm_num) (by norm_num) hd
  have hT : (1001 / 1000 * ((15 / 10 : ℝ) / 12742)) ^ 2 ≤ (1179 / 10000000) ^ 2 := by norm_num
  -- latitude
  have hdlat : |plat - lat| ≤ 180 := by
    rw [abs_le]; constructor <;> linarith
  have h1 : Real.sin ((plat - lat) * Real.pi / 180 / 2) ^ 2 ≤ (1179 / 10000000) ^ 2 := by
    linarith
  have hx1s := abs_le_of_sin_sq_le _ (1179 / 10000000) (abs_half_radians_le _ hdlat)
    (by norm_num) (by norm_num) h1
  have hlatc : |plat - lat| ≤ 2 / 100 :=
    abs_degrees_le _ (1001 / 1000 * (1179 / 10000000)) (by norm_num) hx1s
  -- longitude
  have hplat := abs_le.mp hlatc
  have hc2' : 74 / 100 ≤ Real.cos (plat * Real.pi / 180) :=
    cos_lower_of_latitude plat (by linarith) (by linarith)
  have hcc' : 74 / 100 * (74 / 100) ≤
      Real.cos (lat * Real.pi / 180) * Real.cos (plat * Real.pi / 180) :=
    mul_le_mul hc1' hc2' (by norm_num) (by linarith)
  have h2 : Real.sin ((plon - lng) * Real.pi / 180 / 2) ^ 2 ≤ (161 / 1000000) ^ 2 := by
    have h3 : 74 / 100 * (74 / 100) * Real.sin ((plon - lng) * Real.pi / 180 / 2) ^ 2 ≤
        Real.cos (lat * Real.pi / 180) * Real.cos (plat * Real.pi / 180) *
          Real.sin ((plon - lng) * Real.pi / 180 / 2) ^ 2 :=
      mul_le_mul_of_nonneg_right hcc' hs2
    have h4 : 74 / 100 * (74 / 100) * Real.sin ((plon - lng) * Real.pi / 180 / 2) ^ 2 ≤
        (1179 / 10000000) ^ 2 := by linarith
    norm_num at h4 ⊢
    linarith
  have hx2s := abs_le_of_sin_sq_le _ (161 / 1000000) (abs_half_radians_le _ hlon)
    (by norm_num) (by norm_num) h2
  exact ⟨hlatc, abs_degrees_le _ (1001 / 1000 * (161 / 1000000)) (by norm_num) hx2s⟩


theorem cos_mem_unit_of_latitude (lat : ℝ) (h0 : -90 ≤ lat) (h1 : lat ≤ 90) :
    0 ≤ Real.cos (lat * Real.pi / 180) ∧ Real.cos (lat * Real.pi / 180) ≤ 1 := by
  have hpi := Real.pi_pos
  refine ⟨?_, Real.cos_le_one _⟩
  apply Real.cos_nonneg_of_mem_Icc
  have e1 : -(Real.pi / 2) = -90 * Real.pi / 180 := by ring
  have e2 : Real.pi / 2 = 90 * Real.pi / 180 := by ring
  constructor
  · rw [e1]
    exact div_le_div_of_nonneg_right (mul_le_mul_of_nonneg_right h0 hpi.le) (by norm_num)
  · rw [e2]
    exact div_le_div_of_nonneg_right (mul_le_mul_of_nonneg_right h1 hpi.le) (by norm_num)

theorem sin_half_radians_sq_le (δ : ℝ) :
    Real.sin (δ * Real.pi / 180 / 2) ^ 2 ≤ (δ * (315 / 100) / 360) ^ 2 := by
  have hpi := Real.pi_pos
  have hpi2 : Real.pi < 315 / 100 := by
    have := Real.pi_lt_d2; norm_num at this ⊢; linarith
  have h1 : Real.sin (δ * Real.pi / 180 / 2) ^ 2 ≤ (δ * Real.pi / 180 / 2) ^ 2 :=
    Real.sin_sq_le_sq
  have e1 : (δ * Real.pi / 180 / 2) ^ 2 = δ ^ 2 * Real.pi ^ 2 / 360 ^ 2 := by ring
  have e2 : (δ * (315 / 100) / 360) ^ 2 = δ ^ 2 * (315 / 100) ^ 2 / 360 ^ 2 := by ring
  rw [e2]
  rw [e1] at h1
  have h2 : Real.pi ^ 2 ≤ (315 / 100) ^ 2 := pow_le_pow_left₀ hpi.le hpi2.le 2
  have h3 : δ ^ 2 * Real.pi ^ 2 ≤ δ ^ 2 * (315 / 100) ^ 2 :=
    mul_le_mul_of_nonneg_left h2 (sq_nonneg _)
  exact h1.trans (div_le_div_of_nonneg_right h3 (by norm_num))

/-- An upper bound of the haversine distance between two points of latitude in
`[-90, 90]`. -/
theorem haversineKm_le (lat1 lon1 lat2 lon2 D : ℝ) (h1 : -90 ≤ lat1 ∧ lat1 ≤ 90)
    (h2 : -90 ≤ lat2 ∧ lat2 ≤ 90) (hD : 0 < D)
    (h : (((lat2 - lat1) * (315 / 100) / 360) ^ 2 + ((lon2 - lon1) * (315 / 100) / 360) ^ 2) *
      ((2 * 6371) ^ 2 + D ^ 2) ≤ D ^ 2) :
    haversineKm lat1 lon1 lat2 lon2 ≤ D := by
  obtain ⟨hc1, hc1'⟩ := cos_mem_unit_of_latitude lat1 h1.1 h1.2
  obtain ⟨hc2, hc2'⟩ := cos_mem_unit_of_latitude lat2 h2.1 h2.2
  have hs1 := sin_half_radians_sq_le (lat2 - lat1)
  have hs2 := sin_half_radians_sq_le (lon2 - lon1)
  have hs2n : 0 ≤ Real.sin ((lon2 - lon1) * Real.pi / 180 / 2) ^ 2 := sq_nonneg _
  have hcc0 : 0 ≤ Real.cos (lat1 * Real.pi / 180) * Real.cos (lat2 * Real.pi / 180) :=
    mul_nonneg hc1 hc2
  have hcc1 : Real.cos (lat1 * Real.pi / 180) * Real.cos (lat2 * Real.pi / 180) ≤ 1 := by
    calc Real.cos (lat1 * Real.pi / 180) * Real.cos (lat2 * Real.pi / 180)
        ≤ 1 * 1 := mul_le_mul hc1' hc2' hc2 (by norm_num)
      _ = 1 := one_mul 1
  have ht : Real.cos (lat1 * Real.pi / 180) * Real.cos (lat2 * Real.pi / 180) *
      Real.sin ((lon2 - lon1) * Real.pi / 180 / 2) ^ 2 ≤
      ((lon2 - lon1) * (315 / 100) / 360) ^ 2 := by
    calc Real.cos (lat1 * Real.pi / 180) * Real.cos (lat2 * Real.pi / 180) *
          Real.sin ((lon2 - lon1) * Real.pi / 180 / 2) ^ 2
        ≤ 1 * Real.sin ((lon2 - lon1) * Real.pi / 180 / 2) ^ 2 :=
          mul_le_mul_of_nonneg_right hcc1 hs2n
      _ ≤ ((lon2 - lon1) * (315 / 100) / 360) ^ 2 := by rw [one_mul]; exact hs2
  set a := Real.sin ((lat2 - lat1) * Real.pi / 180 / 2) ^ 2 +
    Real.cos (lat1 * Real.pi / 180) * Real.cos (lat2 * Real.pi / 180) *
      Real.sin ((lon2 - lon1) * Real.pi / 180 / 2) ^ 2 with ha
  have ha0 : 0 ≤ a := add_nonneg (sq_nonneg _) (mul_nonneg hcc0 hs2n)
  have haA : a ≤ ((lat2 - lat1) * (315 / 100) / 360) ^ 2 +
      ((lon2 - lon1) * (315 / 100) / 360) ^ 2 := add_le_add hs1 ht
  have hK : (0 : ℝ) < (2 * 6371) ^ 2 + D ^ 2 := by positivity
  have hmain : a * ((2 * 6371) ^ 2 + D ^ 2) ≤ D ^ 2 :=
    (mul_le_mul_of_nonneg_right haA hK.le).trans h
  have ha1 : a < 1 := by
    by_contra hge
    have hge : 1 ≤ a := not_lt.mp hge
    have h5 : 1 * ((2 * 6371) ^ 2 + D ^ 2) ≤ a * ((2 * 6371) ^ 2 + D ^ 2) :=
      mul_le_mul_of_nonneg_right hge hK.le
    have : ((2 : ℝ) * 6371) ^ 2 ≤ 0 := by linarith
    norm_num at this
  unfold haversineKm
  simp only []
  rw [← ha]
  exact haversine_core_le a D ha0 ha1 hD.le (by linarith)

/-- Within 1.5 km of a query point of latitude 40 to 41, a point lies in the block of
cells that the index query searches, with the default cell size. -/
theorem within_penalty_radius_in_block (lat lng : ℝ) (p : Point ℝ) (hlat0 : 40 ≤ lat)
    (hlat1 : lat ≤ 41) (hp0 : -90 ≤ p.latitude) (hp1 : p.latitude ≤ 90)
    (hlon : |p.longitude - lng| ≤ 180)
    (hd : haversineKm lat lng p.latitude p.longitude ≤ 15 / 10) :
    inSearchedBlock (1 / 100) lat lng p = true := by
  obtain ⟨h1, h2⟩ := within_penalty_radius_close lat lng p.latitude p.longitude hlat0 hlat1
    hp0 hp1 hlon hd
  simp only [inSearchedBlock, Bool.and_eq_true, decide_eq_true_eq]
  exact ⟨floor_sub_mem_cellOffsets _ _ h2, floor_sub_mem_cellOffsets _ _ h1⟩

end ShortDistances

/-! ### The grid scenario -/

section GridScenario

theorem haversineKm_scenario_P1 :
    haversineKm (40705 / 1000) (-73985 / 1000) (4070 / 100) (-7399 / 100) ≤ 15 / 10 :=
  haversineKm_le _ _ _ _ _ (by norm_num) (by norm_num) (by norm_num) (by norm_num)

theorem haversineKm_scenario_P2 :
    haversineKm (40705 / 1000) (-73985 / 1000) (4071 / 100) (-7398 / 100) ≤ 15 / 10 :=
  haversineKm_le _ _ _ _ _ (by norm_num) (by norm_num) (by norm_num) (by norm_num)

theorem linearScan_scenario (r : ℝ) (hr : 15 / 10 ≤ r) :
    linearScan haversineKm
        [(⟨"P1", "park", 4070 / 100, -7399 / 100⟩ : Point ℝ),
         ⟨"P2", "park", 4071 / 100, -7398 / 100⟩] (40705 / 1000) (-73985 / 1000) r =
      [{ point := ⟨"P1", "park", 4070 / 100, -7399 / 100⟩
         distKm := haversineKm (40705 / 1000) (-73985 / 1000) (4070 / 100) (-7399 / 100) },
       { point := ⟨"P2", "park", 4071 / 100, -7398 / 100⟩
         distKm := haversineKm (40705 / 1000) (-73985 / 1000) (4071 / 100) (-7398 / 100) }] := by
  have h1 := haversineKm_scenario_P1.trans hr
  have h2 := haversineKm_scenario_P2.trans hr
  simp [linearScan, h1, h2]

theorem nearbyFromIndex_scenario (r : ℝ) (hr : 15 / 10 ≤ r) :
    nearbyFromIndex haversineKm
        (buildGridIndex [(⟨"P1", "park", 4070 / 100, -7399 / 100⟩ : Point ℝ),
          ⟨"P2", "park", 4071 / 100, -7398 / 100⟩] (1 / 100))
        (40705 / 1000) (-73985 / 1000) r =
      [{ point := ⟨"P1", "park", 4070 / 100, -7399 / 100⟩
         distKm := haversineKm (40705 / 1000) (-73985 / 1000) (4070 / 100) (-7399 / 100) },
       { point := ⟨"P2", "park", 4071 / 100, -7398 / 100⟩
         distKm := haversineKm (40705 / 1000) (-73985 / 1000) (4071 / 100) (-7398 / 100) }] := by
  have h1 := haversineKm_scenario_P1.trans hr
  have h2 := haversineKm_scenario_P2.trans hr
  have f1 : ⌊(40705 / 1000 : ℝ) * 100⌋ = 4070 := by rw [Int.floor_eq_iff]; norm_num
  have f2 : ⌊(-73985 / 1000 : ℝ) * 100⌋ = -7399 := by rw [Int.floor_eq_iff]; norm_num
  have f3 : ⌊(4070 : ℝ)⌋ = 4070 := by rw [Int.floor_eq_iff]; norm_num
  have f4 : ⌊(-7399 : ℝ)⌋ = -7399 := by rw [Int.floor_eq_iff]; norm_num
  have f5 : ⌊(4071 : ℝ)⌋ = 4071 := by rw [Int.floor_eq_iff]; norm_num
  have f6 : ⌊(-7398 : ℝ)⌋ = -7398 := by rw [Int.floor_eq_iff]; norm_num
  rw [nearbyFromIndex_buildGridIndex]
  simp [cellOffsets, cellScan, linearScan, f1, f2, f3, f4, f5, f6, h1, h2, List.filter]

end GridScenario

/-! ### The fallback path of the penalty score -/

section PenaltyFallback

/-- The same two points as jails: without a grid index `penaltyScore` is 50, with the
grid index it is 100. -/
theorem penaltyScore_fallback_counts_far_points :
    penaltyScore haversineKm
      { amenities := [⟨"near", "jail", 40705 / 1000, -73985 / 1000⟩,
          ⟨"far", "jail", 40805 / 1000, -73985 / 1000⟩]
        polygons := []
        gridIndex := none } (40705 / 1000) (-73985 / 1000) = 50 ∧
    penaltyScore haversineKm
      { amenities := [⟨"near", "jail", 40705 / 1000, -73985 / 1000⟩,
          ⟨"far", "jail", 40805 / 1000, -73985 / 1000⟩]
        polygons := []
        gridIndex := some (buildGridIndex
          [⟨"near", "jail", 40705 / 1000, -73985 / 1000⟩,
           ⟨"far", "jail", 40805 / 1000, -73985 / 1000⟩] (1 / 100)) }
      (40705 / 1000) (-73985 / 1000) = 100 := by
  have hfar := haversineKm_c4_far
  have hfar2 : (NEGATIVE_RADIUS_KM : ℝ) ≤
      haversineKm (40705 / 1000) (-73985 / 1000) (40805 / 1000) (-73985 / 1000) := by
    unfold NEGATIVE_RADIUS_KM; linarith
  have hfar' : ¬ haversineKm (40705 / 1000) (-73985 / 1000) (40805 / 1000) (-73985 / 1000) ≤
      15 / 10 := by
    intro h; linarith
  have hmean : weightedDecayMean NEGATIVE_TYPES (NEGATIVE_TYPE_WEIGHTS : List (String × ℝ))
      (5 / 10) NEGATIVE_RADIUS_KM
      [{ point := ⟨"near", "jail", 40705 / 1000, -73985 / 1000⟩, distKm := 0 }] = 100 := by
    simp [weightedDecayMean, qualifying, decayTotal, weightTotal, categoryWeight,
      NEGATIVE_TYPES, NEGATIVE_TYPE_WEIGHTS, decay, List.lookup, NEGATIVE_RADIUS_KM]
  refine ⟨?_, ?_⟩
  · simp only [penaltyScore, penaltyCandidates, List.map_cons, List.map_nil, haversineKm_self,
      penaltyScoreOf_eq]
    rw [(proximityScoreOf_eq_mean NEGATIVE_TYPES (NEGATIVE_TYPE_WEIGHTS : List (String × ℝ))
      (5 / 10) NEGATIVE_RADIUS_KM negative_weights_pos (by norm_num) _).1]
    simp [weightedDecayMean, qualifying, decayTotal, weightTotal, categoryWeight,
      NEGATIVE_TYPES, NEGATIVE_TYPE_WEIGHTS, List.lookup, decay_of_le hfar2]
    simp [decay, NEGATIVE_RADIUS_KM]
    norm_num
  · have hidx : nearbyFromIndex haversineKm (buildGridIndex
        [(⟨"near", "jail", 40705 / 1000, -73985 / 1000⟩ : Point ℝ),
         ⟨"far", "jail", 40805 / 1000, -73985 / 1000⟩] (1 / 100))
        (40705 / 1000) (-73985 / 1000) NEGATIVE_RADIUS_KM =
        [{ point := ⟨"near", "jail", 40705 / 1000, -73985 / 1000⟩, distKm := 0 }] := by
      have f1 : ⌊(40705 / 1000 : ℝ) * 100⌋ = 4070 := by
        rw [Int.floor_eq_iff]; norm_num
      have f2 : ⌊(-73985 / 1000 : ℝ) * 100⌋ = -7399 := by
        rw [Int.floor_eq_iff]; norm_num
      have f3 : ⌊(40805 / 1000 : ℝ) * 100⌋ = 4080 := by
        rw [Int.floor_eq_iff]; norm_num
      rw [nearbyFromIndex_buildGridIndex]
      simp [cellOffsets, cellScan, linearScan, f1, f2, f3, haversineKm_self,
        NEGATIVE_RADIUS_KM, List.filter]
      rw [List.filterMap_cons]
      simp only [haversineKm_self]
      norm_num
    simp only [penaltyScore, penaltyCandidates, hidx, penaltyScoreOf_eq]
    rw [(proximityScoreOf_eq_mean NEGATIVE_TYPES (NEGATIVE_TYPE_WEIGHTS : List (String × ℝ))
      (5 / 10) NEGATIVE_RADIUS_KM negative_weights_pos (by norm_num) _).1]
    exact hmean

end PenaltyFallback

/-! ### Symmetry and sign of the haversine distance -/

section HaversineSymmetry

theorem haversineKm_eq_term (lat1 lon1 lat2 lon2 : ℝ) :
    haversineKm lat1 lon1 lat2 lon2 =
      6371 * 2 * atan2 (Real.sqrt (haversineTerm lat1 lon1 lat2 lon2))
        (Real.sqrt (1 - haversineTerm lat1 lon1 lat2 lon2)) := rfl

theorem sin_half_sq_swap (u v : ℝ) :
    Real.sin ((u - v) * Real.pi / 180 / 2) ^ 2 = Real.sin ((v - u) * Real.pi / 180 / 2) ^ 2 := by
  have e : (u - v) * Real.pi / 180 / 2 = -((v - u) * Real.pi / 180 / 2) := by ring
  rw [e, Real.sin_neg, neg_sq]

theorem haversineTerm_symm (lat1 lon1 lat2 lon2 : ℝ) :
    haversineTerm lat1 lon1 lat2 lon2 = haversineTerm lat2 lon2 lat1 lon1 := by
  unfold haversineTerm
  rw [sin_half_sq_swap lat2 lat1, sin_half_sq_swap lon2 lon1,
    mul_comm (Real.cos (lat1 * Real.pi / 180))]

/-- The term `a` is one half of one minus the cosine of the central angle. -/
theorem haversineTerm_eq (lat1 lon1 lat2 lon2 : ℝ) :
    haversineTerm lat1 lon1 lat2 lon2 =
      (1 - Real.sin (lat1 * Real.pi / 180) * Real.sin (lat2 * Real.pi / 180) -
        Real.cos (lat1 * Real.pi / 180) * Real.cos (lat2 * Real.pi / 180) *
          Real.cos ((lon2 - lon1) * Real.pi / 180)) / 2 := by
  unfold haversineTerm
  have h1 : Real.sin ((lat2 - lat1) * Real.pi / 180 / 2) ^ 2 =
      1 / 2 - Real.cos ((lat2 - lat1) * Real.pi / 180) / 2 := by
    rw [Real.sin_sq_eq_half_sub]; ring_nf
  have h2 : Real.sin ((lon2 - lon1) * Real.pi / 180 / 2) ^ 2 =
      1 / 2 - Real.cos ((lon2 - lon1) * Real.pi / 180) / 2 := by
    rw [Real.sin_sq_eq_half_sub]; ring_nf
  have h3 : Real.cos ((lat2 - lat1) * Real.pi / 180) =
      Real.cos (lat2 * Real.pi / 180) * Real.cos (lat1 * Real.pi / 180) +
        Real.sin (lat2 * Real.pi / 180) * Real.sin (lat1 * Real.pi / 180) := by
    rw [← Real.cos_sub]; congr 1; ring
  rw [h1, h2, h3]
  ring

/-- The term `a` lies in `[0,1]`, so both square roots are taken of non-negative
numbers. -/
theorem haversineTerm_mem_unit (lat1 lon1 lat2 lon2 : ℝ) :
    0 ≤ haversineTerm lat1 lon1 lat2 lon2 ∧ haversineTerm lat1 lon1 lat2 lon2 ≤ 1 := by
  rw [haversineTerm_eq]
  set s1 := Real.sin (lat1 * Real.pi / 180)
  set s2 := Real.sin (lat2 * Real.pi / 180)
  set c1 := Real.cos (lat1 * Real.pi / 180)
  set c2 := Real.cos (lat2 * Real.pi / 180)
  set t := Real.cos ((lon2 - lon1) * Real.pi / 180)
  have e1 : s1 ^ 2 + c1 ^ 2 = 1 := Real.sin_sq_add_cos_sq _
  have e2 : s2 ^ 2 + c2 ^ 2 = 1 := Real.sin_sq_add_cos_sq _
  have ht1 : t ≤ 1 := Real.cos_le_one _
  have ht0 : -1 ≤ t := Real.neg_one_le_cos _
  have hs : s1 * s2 ≤ (s1 ^ 2 + s2 ^ 2) / 2 := by nlinarith [sq_nonneg (s1 - s2)]
  have hs' : -(s1 * s2) ≤ (s1 ^ 2 + s2 ^ 2) / 2 := by nlinarith [sq_nonneg (s1 + s2)]
  have hc : c1 * c2 * t ≤ (c1 ^ 2 + c2 ^ 2) / 2 ∧ -(c1 * c2 * t) ≤ (c1 ^ 2 + c2 ^ 2) / 2 := by
    have hp : c1 * c2 ≤ (c1 ^ 2 + c2 ^ 2) / 2 := by nlinarith [sq_nonneg (c1 - c2)]
    have hn : -(c1 * c2) ≤ (c1 ^ 2 + c2 ^ 2) / 2 := by nlinarith [sq_nonneg (c1 + c2)]
    rcases le_total 0 (c1 * c2) with h | h
    · constructor
      · have : c1 * c2 * t ≤ c1 * c2 * 1 := mul_le_mul_of_nonneg_left ht1 h
        linarith
      · have : c1 * c2 * (-1) ≤ c1 * c2 * t := mul_le_mul_of_nonneg_left ht0 h
        linarith
    · constructor
      · have : c1 * c2 * t ≤ c1 * c2 * (-1) := mul_le_mul_of_nonpos_left ht0 h
        linarith
      · have : c1 * c2 * 1 ≤ c1 * c2 * t := mul_le_mul_of_nonpos_left ht1 h
        linarith
  constructor
  · linarith [hc.1]
  · linarith [hc.2]

theorem atan2_nonneg (y x : ℝ) (hy : 0 ≤ y) (hx : 0 ≤ x) : 0 ≤ atan2 y x := by
  have hpi := Real.pi_pos
  rcases hx.lt_or_eq with h | h
  · rw [atan2_of_pos y x h, ← Real.arctan_zero]
    exact Real.arctan_strictMono.monotone (div_nonneg hy h.le)
  · subst h
    rcases hy.lt_or_eq with h' | h'
    · have : atan2 y 0 = Real.pi / 2 := by simp [atan2, h']
      rw [this]; positivity
    · subst h'
      have : atan2 0 0 = 0 := by simp [atan2]
      rw [this]

end HaversineSymmetry

/-! ### Longitudes more than 180 degrees from the query point -/

section WrappedLongitude

/-- A point whose longitude is that of the query point plus 360 degrees is at distance
zero from it. -/
theorem haversineKm_wrapped (lat lon : ℝ) : haversineKm lat lon lat (lon + 360) = 0 := by
  have h : (lon + 360 - lon) * Real.pi / 180 / 2 = Real.pi := by ring
  unfold haversineKm
  simp only [h, Real.sin_pi]
  simp [atan2_of_pos]

/-- The index query does not see such a point, which lies 36000 cells east of the query
point: the precondition of the equivalence at the radius 1.5 on the longitudes is
needed. -/
theorem nearbyFromIndex_misses_wrapped_longitude :
    linearScan haversineKm [(⟨"P", "jail", 407 / 10, 286⟩ : Point ℝ)]
        (407 / 10) (-74) (15 / 10) =
      [{ point := ⟨"P", "jail", 407 / 10, 286⟩, distKm := 0 }] ∧
    nearbyFromIndex haversineKm
        (buildGridIndex [(⟨"P", "jail", 407 / 10, 286⟩ : Point ℝ)] (1 / 100))
        (407 / 10) (-74) (15 / 10) = [] := by
  have hd : haversineKm (407 / 10) (-74) (407 / 10) 286 = 0 := by
    have := haversineKm_wrapped (407 / 10) (-74)
    norm_num at this
    exact this
  refine ⟨?_, ?_⟩
  · simp only [linearScan, List.filterMap_cons, List.filterMap_nil, hd]
    norm_num
  · rw [List.eq_nil_iff_forall_not_mem]
    intro c hc
    rw [mem_nearbyFromIndex, mem_linearScan] at hc
    obtain ⟨⟨hp, _, _⟩, hx, _⟩ := hc
    simp only [List.mem_singleton] at hp
    rw [hp] at hx
    have f1 : ⌊(286 : ℝ) / (1 / 100)⌋ = 28600 := by
      rw [Int.floor_eq_iff]; norm_num
    have f2 : ⌊(-74 : ℝ) / (1 / 100)⌋ = -7400 := by
      rw [Int.floor_eq_iff]; norm_num
    simp only [f1, f2] at hx
    exact absurd hx (by decide)

end WrappedLongitude

/-! ## Claims -/

section Claims

variable {α : Type} [LinearOrderedField α]

/-- C1 (as stated, refuted): on a dataset whose only polygon, a crime-rate zone around
the query point, carries no numeric value, `raw` is `undefined`, the polygon score is
`NaN` and so is the `finalScore` that `computeHabitability` returns, which is then not in
`[0,100]`. -/
theorem computeHabitability_not_a_number :
    computeHabitability haversineKm
      { amenities := []
        polygons := [⟨"crime_rate", "zone", [(-75, 40), (-75, 41), (-73, 41), (-73, 40)],
          fun _ => none⟩]
        gridIndex := none }
      { amenity := 4 / 10, polygons := 4 / 10, penalty := 2 / 10 } (407 / 10) (-74) =
      Outcome.notANumber := by
  have hin : pointInPolygon ((-74 : ℝ), (407 / 10 : ℝ))
      [(-75, 40), (-75, 41), (-73, 41), (-73, 40)] = true :=
    pointInPolygon_rectangle_inside (-75) 40 (-73) 41 (-74) (407 / 10)
      (by norm_num) (by norm_num) (by norm_num) (by norm_num)
  have hattrs : polygonAttributes (fun a b c d => some (haversineKm a b c d))
      [(⟨"crime_rate", "zone", [(-75, 40), (-75, 41), (-73, 41), (-73, 40)],
        fun _ => none⟩ : Polygon ℝ)] (407 / 10) (-74) =
      some [("crime_rate", some ⟨"crime_rate", "zone",
        [(-75, 40), (-75, 41), (-73, 41), (-73, 40)], fun _ => none⟩)] := by
    simp [polygonAttributes, groupByAspect, objectPrototypeNames, Buckets.get, Buckets.set,
      Buckets.push, choosePolygon, hin]
  have hps : polygonScore (fun a b c d => some (haversineKm a b c d))
      [(⟨"crime_rate", "zone", [(-75, 40), (-75, 41), (-73, 41), (-73, 40)],
        fun _ => none⟩ : Polygon ℝ)] (407 / 10) (-74) = Outcome.notANumber := by
    rw [(polygonScore_outcome _ _ _ _).2.1]
    exact ⟨_, hattrs, ("crime_rate", { min := 28 / 10, max := 67 / 10, invert := true }),
      by simp [POLY_NORMAL_RANGES],
      ⟨"crime_rate", "zone", [(-75, 40), (-75, 41), (-73, 41), (-73, 40)], fun _ => none⟩,
      by simp [List.lookup], by simp [rawValue]⟩
  unfold computeHabitability
  simp only [hps]

/-- C1 (amended): over exact arithmetic, whatever the query point, the datasets (with or
without grid index) and the weights, `computeHabitability` throws exactly when the aspect
of a polygon is named like a member of `Object.prototype`, returns the `finalScore` `NaN`
exactly when the polygon chosen for an aspect of the normalization table carries no
numeric value, and otherwise returns a result whose `finalScore` is
`amenityScore × weights.amenity + polygonScore × weights.polygons − penaltyScore ×
weights.penalty` clamped into `[0,100]`, hence `0 ≤ finalScore ≤ 100`, and whose weighted
components are the components times their weights; such a result is returned whenever no
aspect is so named and every polygon carries a numeric value for its aspect. -/
theorem computeHabitability_finalScore [FloorRing α] (dist : α → α → α → α → α)
    (data : Dataset α) (W : Weights α) (lat lng : α) :
    (∀ r, computeHabitability dist data W lat lng = Outcome.value r →
      ∃ ps, polygonScore (fun a b c d => some (dist a b c d)) data.polygons lat lng =
          Outcome.value ps ∧
        r.components.amenity = amenityScore dist data lat lng ∧
        r.components.polygons = ps.score ∧
        r.components.penalty = penaltyScore dist data lat lng ∧
        r.finalScore = clampScore (amenityScore dist data lat lng * W.amenity +
          ps.score * W.polygons - penaltyScore dist data lat lng * W.penalty) ∧
        0 ≤ r.finalScore ∧ r.finalScore ≤ 100 ∧
        r.weighted.amenity = r.components.amenity * W.amenity ∧
        r.weighted.polygons = r.components.polygons * W.polygons ∧
        r.weighted.penalty = r.components.penalty * W.penalty ∧
        r.polyDetails = ps.details ∧
        r.weights = W) ∧
    (computeHabitability dist data W lat lng = Outcome.typeError ↔
      ∃ p ∈ data.polygons, p.aspect ∈ objectPrototypeNames) ∧
    (computeHabitability dist data W lat lng = Outcome.notANumber ↔
      ∃ attrs, polygonAttributes (fun a b c d => some (dist a b c d)) data.polygons lat lng =
          some attrs ∧
        ∃ e ∈ (POLY_NORMAL_RANGES : List (String × Range α)), ∃ poly,
          attrs.lookup e.1 = some (some poly) ∧ rawValue poly e.1 = none) ∧
    ((∃ r, computeHabitability dist data W lat lng = Outcome.value r) ↔
      ∃ attrs, polygonAttributes (fun a b c d => some (dist a b c d)) data.polygons lat lng =
          some attrs ∧
        ∀ e ∈ (POLY_NORMAL_RANGES : List (String × Range α)), ∀ poly,
          attrs.lookup e.1 = some (some poly) → (rawValue poly e.1).isSome = true) ∧
    ((∀ p ∈ data.polygons, p.aspect ∉ objectPrototypeNames ∧
        (rawValue p p.aspect).isSome = true) →
      ∃ r, computeHabitability dist data W lat lng = Outcome.value r) := by
  have hout := polygonScore_outcome (fun a b c d => some (dist a b c d)) data.polygons lat lng
  have hvalue : (∃ r, computeHabitability dist data W lat lng = Outcome.value r) ↔
      ∃ ps, polygonScore (fun a b c d => some (dist a b c d)) data.polygons lat lng =
        Outcome.value ps := by
    unfold computeHabitability
    cases polygonScore (fun a b c d => some (dist a b c d)) data.polygons lat lng <;> simp
  refine ⟨?_, ?_, ?_, ?_, ?_⟩
  · intro r hr
    unfold computeHabitability at hr
    cases hp : polygonScore (fun a b c d => some (dist a b c d)) data.polygons lat lng with
    | typeError => rw [hp] at hr; exact absurd hr (by simp)
    | notANumber => rw [hp] at hr; exact absurd hr (by simp)
    | value ps =>
      rw [hp] at hr
      simp only [Outcome.value.injEq] at hr
      subst hr
      refine ⟨ps, rfl, rfl, rfl, rfl, ?_, ?_, ?_, rfl, rfl, rfl, rfl, rfl⟩
      · exact max_min_eq_clampScore _
      · show 0 ≤ Max.max 0 _
        exact le_max_left _ _
      · show Max.max 0 (Min.min 100 _) ≤ 100
        exact max_le (by norm_num) (min_le_left _ _)
  · rw [← hout.1]
    unfold computeHabitability
    cases polygonScore (fun a b c d => some (dist a b c d)) data.polygons lat lng <;> simp
  · rw [← hout.2.1]
    unfold computeHabitability
    cases polygonScore (fun a b c d => some (dist a b c d)) data.polygons lat lng <;> simp
  · rw [hvalue, hout.2.2]
  · intro hval
    rw [hvalue, hout.2.2]
    cases hattrs : polygonAttributes (fun a b c d => some (dist a b c d))
        data.polygons lat lng with
    | none =>
      obtain ⟨p, hp, hproto⟩ := (polygonAttributes_eq_none_iff _ _ _ _).mp hattrs
      exact absurd hproto (hval p hp).1
    | some attrs =>
      refine ⟨attrs, rfl, fun e _ poly hl => ?_⟩
      obtain ⟨hm, ha⟩ := polygonAttributes_chosen _ data.polygons lat lng attrs hattrs
        e.1 poly hl
      rw [← ha]
      exact (hval poly hm).2

/-- Witness for C1: one amenity, one crime-rate polygon, no grid index, weights that do
not sum to 1. -/
theorem computeHabitability_finalScore_witness :
    ∃ r, computeHabitability haversineKm
      { amenities := [⟨"A", "park", 407 / 10, -74⟩]
        polygons := [⟨"crime_rate", "zone", [(-74, 40), (-74, 41), (-73, 41), (-73, 40)],
          fun f => if f = "crime_rate" then some 3 else none⟩]
        gridIndex := none }
      { amenity := 1, polygons := 1, penalty := 1 } (407 / 10) (-74) = Outcome.value r ∧
      0 ≤ r.finalScore ∧ r.finalScore ≤ 100 := by
  have h := computeHabitability_finalScore haversineKm
      { amenities := [⟨"A", "park", 407 / 10, -74⟩]
        polygons := [⟨"crime_rate", "zone", [(-74, 40), (-74, 41), (-73, 41), (-73, 40)],
          fun f => if f = "crime_rate" then some 3 else none⟩]
        gridIndex := none }
      { amenity := 1, polygons := 1, penalty := 1 } (407 / 10) (-74)
  obtain ⟨r, hr⟩ := h.2.2.2.2
    (by intro p hp; simp at hp; subst hp; simp [rawValue, objectPrototypeNames])
  obtain ⟨_, _, _, _, _, _, h0, h100, _⟩ := h.1 r hr
  exact ⟨r, hr, h0, h100⟩

/-- C2: on every candidate list with non-negative distances, `amenityScore` and
`penaltyScore` return a value in `[0,100]`, equal to `100 × Σ(decay × w) / Σ(w)` over the
candidates of a positive (resp. negative) category, with `w` the per-category weight
(default 0.3, resp. 0.5), and to `0` when no candidate qualifies; the sum of weights, the
divisor, is zero only when no candidate qualifies. -/
theorem amenity_penalty_score_of_candidates (cs : List (Candidate α))
    (hcs : ∀ c ∈ cs, 0 ≤ c.distKm) :
    (amenityScoreOf cs =
        weightedDecayMean POSITIVE_TYPES AMENITY_TYPE_WEIGHTS (3 / 10) 2 cs ∧
      (weightTotal POSITIVE_TYPES AMENITY_TYPE_WEIGHTS (3 / 10) cs = 0 ↔
        qualifying POSITIVE_TYPES cs = []) ∧
      0 ≤ amenityScoreOf cs ∧ amenityScoreOf cs ≤ 100) ∧
    (penaltyScoreOf cs =
        weightedDecayMean NEGATIVE_TYPES NEGATIVE_TYPE_WEIGHTS (5 / 10) (15 / 10) cs ∧
      (weightTotal NEGATIVE_TYPES NEGATIVE_TYPE_WEIGHTS (5 / 10) cs = 0 ↔
        qualifying NEGATIVE_TYPES cs = []) ∧
      0 ≤ penaltyScoreOf cs ∧ penaltyScoreOf cs ≤ 100) := by
  have ha := proximityScoreOf_eq_mean POSITIVE_TYPES (AMENITY_TYPE_WEIGHTS : List (String × α))
    (3 / 10) 2 amenity_weights_pos (by norm_num) cs
  have hb := proximityScoreOf_bounds POSITIVE_TYPES (AMENITY_TYPE_WEIGHTS : List (String × α))
    (3 / 10) 2 amenity_weights_pos (by norm_num) cs hcs
  have hc := proximityScoreOf_eq_mean NEGATIVE_TYPES (NEGATIVE_TYPE_WEIGHTS : List (String × α))
    (5 / 10) (15 / 10) negative_weights_pos (by norm_num) cs
  have hd := proximityScoreOf_bounds NEGATIVE_TYPES (NEGATIVE_TYPE_WEIGHTS : List (String × α))
    (5 / 10) (15 / 10) negative_weights_pos (by norm_num) cs hcs
  exact ⟨⟨ha.1, ha.2, hb⟩, ⟨hc.1, hc.2, hd⟩⟩

/-- Witness for C2: a park at 1 km and a jail at 0.75 km. -/
theorem amenity_penalty_score_of_candidates_witness :
    (amenityScoreOf
        [({ point := ⟨"A", "park", 407 / 10, -74⟩, distKm := 1 } : Candidate ℚ),
         { point := ⟨"B", "jail", 407 / 10, -74⟩, distKm := 3 / 4 }] = 25 ∧
      penaltyScoreOf
        [({ point := ⟨"A", "park", 407 / 10, -74⟩, distKm := 1 } : Candidate ℚ),
         { point := ⟨"B", "jail", 407 / 10, -74⟩, distKm := 3 / 4 }] = 25) := by
  have h := amenity_penalty_score_of_candidates
    [({ point := ⟨"A", "park", 407 / 10, -74⟩, distKm := 1 } : Candidate ℚ),
     { point := ⟨"B", "jail", 407 / 10, -74⟩, distKm := 3 / 4 }]
    (by intro c hc; simp at hc; rcases hc with rfl | rfl <;> norm_num)
  refine ⟨h.1.1.trans ?_, h.2.1.trans ?_⟩
  · simp [weightedDecayMean, qualifying, decayTotal, weightTotal, categoryWeight,
      POSITIVE_TYPES, AMENITY_TYPE_WEIGHTS, decay, List.lookup]
    norm_num
  · simp [weightedDecayMean, qualifying, decayTotal, weightTotal, categoryWeight,
      NEGATIVE_TYPES, NEGATIVE_TYPE_WEIGHTS, decay, List.lookup]
    norm_num

/-- C3 (as stated, refuted): with the default cell size, the park at
`(40.7, -74.0001)` is within 2 km of the query point `(40.7, -73.9799)`, so the linear
scan filtered by the radius 2 returns it, but it lies three cells west of the cell of the
query point and `nearbyFromIndex` returns nothing. -/
theorem nearbyFromIndex_misses_point_within_radius :
    haversineKm (407 / 10) (-739799 / 10000) (407 / 10) (-740001 / 10000) ≤ 2 ∧
    linearScan haversineKm [(⟨"P", "park", 407 / 10, -740001 / 10000⟩ : Point ℝ)]
        (407 / 10) (-739799 / 10000) 2 =
      [{ point := ⟨"P", "park", 407 / 10, -740001 / 10000⟩
         distKm := haversineKm (407 / 10) (-739799 / 10000) (407 / 10) (-740001 / 10000) }] ∧
    nearbyFromIndex haversineKm
        (buildGridIndex [(⟨"P", "park", 407 / 10, -740001 / 10000⟩ : Point ℝ)] (1 / 100))
        (407 / 10) (-739799 / 10000) 2 = [] := by
  have hd : haversineKm (407 / 10) (-739799 / 10000) (407 / 10) (-740001 / 10000) ≤ 2 :=
    haversineKm_parallel_le _ _ _ 2 (by norm_num) (by norm_num) (by norm_num) (by norm_num)
  refine ⟨hd, ?_, ?_⟩
  · simp [linearScan, hd]
  · rw [List.eq_nil_iff_forall_not_mem]
    intro c hc
    rw [mem_nearbyFromIndex, mem_linearScan] at hc
    obtain ⟨⟨hp, _, _⟩, hx, _⟩ := hc
    simp only [List.mem_singleton] at hp
    rw [hp] at hx
    simp only [floor_query_lng, floor_point_lng] at hx
    exact absurd hx (by decide)

/-- C3 (amended): with the default cell size 0.01, for every point set indexed by
`buildGridIndex` and every query point, `nearbyFromIndex` with the radius 2.0 and with the
radius 1.5 returns, up to order, the linear scan filtered by the radius of the points
that lie in the 5×5 block of cells around the cell of the query point, each paired with
its haversine distance; every candidate it returns is a point of the set, paired with its
distance, within the radius.  For a query latitude from 40 to 41 and the radius 1.5, for
points of latitude in `[-90, 90]` and of longitude within 180 degrees of the query point,
it returns, up to order, the full linear scan filtered by the radius. -/
theorem nearbyFromIndex_searched_block (points : List (Point ℝ)) (lat lng : ℝ) :
    ((nearbyFromIndex haversineKm (buildGridIndex points (1 / 100)) lat lng 2).Perm
        (linearScan haversineKm (points.filter (inSearchedBlock (1 / 100) lat lng))
          lat lng 2) ∧
      ∀ c ∈ nearbyFromIndex haversineKm (buildGridIndex points (1 / 100)) lat lng 2,
        c.point ∈ points ∧
        c.distKm = haversineKm lat lng c.point.latitude c.point.longitude ∧
        c.distKm ≤ 2) ∧
    ((nearbyFromIndex haversineKm (buildGridIndex points (1 / 100)) lat lng (15 / 10)).Perm
        (linearScan haversineKm (points.filter (inSearchedBlock (1 / 100) lat lng))
          lat lng (15 / 10)) ∧
      ∀ c ∈ nearbyFromIndex haversineKm (buildGridIndex points (1 / 100)) lat lng (15 / 10),
        c.point ∈ points ∧
        c.distKm = haversineKm lat lng c.point.latitude c.point.longitude ∧
        c.distKm ≤ 15 / 10) ∧
    (40 ≤ lat → lat ≤ 41 →
      (∀ p ∈ points, -90 ≤ p.latitude ∧ p.latitude ≤ 90 ∧ |p.longitude - lng| ≤ 180) →
      (nearbyFromIndex haversineKm (buildGridIndex points (1 / 100)) lat lng (15 / 10)).Perm
        (linearScan haversineKm points lat lng (15 / 10))) := by
  have hsound : ∀ (r : ℝ) (c : Candidate ℝ),
      c ∈ nearbyFromIndex haversineKm (buildGridIndex points (1 / 100)) lat lng r →
        c.point ∈ points ∧
        c.distKm = haversineKm lat lng c.point.latitude c.point.longitude ∧
        c.distKm ≤ r := fun r c hc =>
    (mem_linearScan _ _ _ _ _ _).mp ((mem_nearbyFromIndex _ _ _ _ _ _ _).mp hc).1
  refine ⟨⟨nearbyFromIndex_perm haversineKm points (1 / 100) lat lng 2, hsound 2⟩,
    ⟨nearbyFromIndex_perm haversineKm points (1 / 100) lat lng (15 / 10), hsound (15 / 10)⟩,
    ?_⟩
  intro h0 h1 hp
  have hperm := nearbyFromIndex_perm haversineKm points (1 / 100) lat lng (15 / 10)
  rw [linearScan_filter haversineKm points lat lng (15 / 10) _
    (fun p hpm hd => within_penalty_radius_in_block lat lng p h0 h1 (hp p hpm).1
      (hp p hpm).2.1 (hp p hpm).2.2 hd)] at hperm
  exact hperm

/-- Witness for C3: the grid scenario, `P1 = (40.70, -73.99)` and `P2 = (40.71, -73.98)`
queried from `(40.705, -73.985)`: with the radius 1.5 the index query is a permutation of
the linear scan, and with the radius 2 both return the two points with their haversine
distances. -/
theorem nearbyFromIndex_searched_block_witness :
    (nearbyFromIndex haversineKm
        (buildGridIndex [(⟨"P1", "park", 4070 / 100, -7399 / 100⟩ : Point ℝ),
          ⟨"P2", "park", 4071 / 100, -7398 / 100⟩] (1 / 100))
        (40705 / 1000) (-73985 / 1000) (15 / 10)).Perm
      (linearScan haversineKm
        [(⟨"P1", "park", 4070 / 100, -7399 / 100⟩ : Point ℝ),
         ⟨"P2", "park", 4071 / 100, -7398 / 100⟩] (40705 / 1000) (-73985 / 1000) (15 / 10)) ∧
    nearbyFromIndex haversineKm
        (buildGridIndex [(⟨"P1", "park", 4070 / 100, -7399 / 100⟩ : Point ℝ),
          ⟨"P2", "park", 4071 / 100, -7398 / 100⟩] (1 / 100))
        (40705 / 1000) (-73985 / 1000) 2 =
      linearScan haversineKm
        [(⟨"P1", "park", 4070 / 100, -7399 / 100⟩ : Point ℝ),
         ⟨"P2", "park", 4071 / 100, -7398 / 100⟩] (40705 / 1000) (-73985 / 1000) 2 ∧
    (linearScan haversineKm
        [(⟨"P1", "park", 4070 / 100, -7399 / 100⟩ : Point ℝ),
         ⟨"P2", "park", 4071 / 100, -7398 / 100⟩] (40705 / 1000) (-73985 / 1000) 2).map
        (fun c => c.point.name) = ["P1", "P2"] :=
  ⟨(nearbyFromIndex_searched_block
      [(⟨"P1", "park", 4070 / 100, -7399 / 100⟩ : Point ℝ),
       ⟨"P2", "park", 4071 / 100, -7398 / 100⟩] (40705 / 1000) (-73985 / 1000)).2.2
      (by norm_num) (by norm_num)
      (by
        intro p hp
        simp only [List.mem_cons, List.mem_singleton, List.not_mem_nil, or_false] at hp
        rcases hp with rfl | rfl <;>
          refine ⟨by norm_num, by norm_num, ?_⟩ <;> rw [abs_le] <;> constructor <;> norm_num),
   by rw [nearbyFromIndex_scenario 2 (by norm_num), linearScan_scenario 2 (by norm_num)],
   by rw [linearScan_scenario 2 (by norm_num)]; rfl⟩

/-- C4 (code evaluated at the failing input): two parks, one at the query point
`(40.705, -73.985)` and one 0.1 degree north of it (more than 2 km away).  Without a grid
index `amenityScore` is 50: the far park adds its weight to the divisor.  The weighted
mean over the parks within 2 km is 100, and so is `amenityScore` with the grid index. -/
theorem amenityScore_fallback_counts_far_points :
    amenityScore haversineKm
      { amenities := [⟨"near", "park", 40705 / 1000, -73985 / 1000⟩,
          ⟨"far", "park", 40805 / 1000, -73985 / 1000⟩]
        polygons := []
        gridIndex := none } (40705 / 1000) (-73985 / 1000) = 50 ∧
    weightedDecayMean POSITIVE_TYPES AMENITY_TYPE_WEIGHTS (3 / 10) 2
      (linearScan haversineKm
        [⟨"near", "park", 40705 / 1000, -73985 / 1000⟩,
         ⟨"far", "park", 40805 / 1000, -73985 / 1000⟩]
        (40705 / 1000) (-73985 / 1000) 2) = 100 ∧
    amenityScore haversineKm
      { amenities := [⟨"near", "park", 40705 / 1000, -73985 / 1000⟩,
          ⟨"far", "park", 40805 / 1000, -73985 / 1000⟩]
        polygons := []
        gridIndex := some (buildGridIndex
          [⟨"near", "park", 40705 / 1000, -73985 / 1000⟩,
           ⟨"far", "park", 40805 / 1000, -73985 / 1000⟩] (1 / 100)) }
      (40705 / 1000) (-73985 / 1000) = 100 := by
  have hfar := haversineKm_c4_far
  have hfar' : ¬ haversineKm (40705 / 1000) (-73985 / 1000) (40805 / 1000) (-73985 / 1000) ≤ 2 :=
    not_le.mpr hfar
  have hscan : linearScan haversineKm
      [(⟨"near", "park", 40705 / 1000, -73985 / 1000⟩ : Point ℝ),
       ⟨"far", "park", 40805 / 1000, -73985 / 1000⟩]
      (40705 / 1000) (-73985 / 1000) 2 =
      [{ point := ⟨"near", "park", 40705 / 1000, -73985 / 1000⟩, distKm := 0 }] := by
    simp [linearScan, haversineKm_self, hfar']
  have hmean : weightedDecayMean POSITIVE_TYPES (AMENITY_TYPE_WEIGHTS : List (String × ℝ))
      (3 / 10) 2
      [{ point := ⟨"near", "park", 40705 / 1000, -73985 / 1000⟩, distKm := 0 }] = 100 := by
    simp [weightedDecayMean, qualifying, decayTotal, weightTotal, categoryWeight,
      POSITIVE_TYPES, AMENITY_TYPE_WEIGHTS, decay, List.lookup]
  refine ⟨?_, ?_, ?_⟩
  · simp only [amenityScore, amenityCandidates, List.map_cons, List.map_nil, haversineKm_self,
      amenityScoreOf_eq]
    rw [(proximityScoreOf_eq_mean POSITIVE_TYPES (AMENITY_TYPE_WEIGHTS : List (String × ℝ))
      (3 / 10) POSITIVE_MAX_DIST_KM amenity_weights_pos (by norm_num) _).1]
    simp [weightedDecayMean, qualifying, decayTotal, weightTotal, categoryWeight,
      POSITIVE_TYPES, AMENITY_TYPE_WEIGHTS, List.lookup, POSITIVE_MAX_DIST_KM,
      decay_of_le hfar.le]
    simp [decay]
    norm_num
  · rw [hscan, hmean]
  · have hidx : nearbyFromIndex haversineKm (buildGridIndex
        [(⟨"near", "park", 40705 / 1000, -73985 / 1000⟩ : Point ℝ),
         ⟨"far", "park", 40805 / 1000, -73985 / 1000⟩] (1 / 100))
        (40705 / 1000) (-73985 / 1000) POSITIVE_MAX_DIST_KM =
        [{ point := ⟨"near", "park", 40705 / 1000, -73985 / 1000⟩, distKm := 0 }] := by
      have f1 : ⌊(40705 / 1000 : ℝ) * 100⌋ = 4070 := by
        rw [Int.floor_eq_iff]; norm_num
      have f2 : ⌊(-73985 / 1000 : ℝ) * 100⌋ = -7399 := by
        rw [Int.floor_eq_iff]; norm_num
      have f3 : ⌊(40805 / 1000 : ℝ) * 100⌋ = 4080 := by
        rw [Int.floor_eq_iff]; norm_num
      rw [nearbyFromIndex_buildGridIndex]
      simp [cellOffsets, cellScan, linearScan, f1, f2, f3, haversineKm_self,
        POSITIVE_MAX_DIST_KM, List.filter]
    simp only [amenityScore, amenityCandidates, hidx, amenityScoreOf_eq]
    rw [(proximityScoreOf_eq_mean POSITIVE_TYPES (AMENITY_TYPE_WEIGHTS : List (String × ℝ))
      (3 / 10) POSITIVE_MAX_DIST_KM amenity_weights_pos (by norm_num) _).1]
    exact hmean

/-- C5 (as stated, refuted): an aspect whose only polygon has an empty ring gets the
entry `null`: `pointInPolygon` is false on the empty ring and the centroid is `NaN`. -/
theorem polygonAttributes_null_entry :
    polygonAttributes (fun a b c d => some (haversineKm a b c d))
      [(⟨"crime_rate", "zone", [], fun _ => some 3⟩ : Polygon ℝ)] (407 / 10) (-74) =
      some [("crime_rate", none)] := by
  simp [polygonAttributes, groupByAspect, objectPrototypeNames, Buckets.get, Buckets.set,
    Buckets.push, choosePolygon, pointInPolygon, nearestByCentroid, centroidLonLat]

/-- C5 (amended): the centroid of a ring is the mean of its vertices, and `NaN` on the
empty ring.  `polygonAttributes` throws exactly when the aspect of a polygon is named like
a member of `Object.prototype`.  Otherwise, for every query point and every aspect: when
a polygon of the aspect contains the point, the entry is the first such polygon in input
order; when none contains it and the centroid distance of some polygon of the aspect is a
number, the entry is the earliest polygon of least centroid distance among those whose
centroid distance is a number; when the aspect has polygons, none contains the point and
no centroid distance is a number (with a distance function that always returns a number,
when every ring of the aspect is empty), the entry is `null`; and an aspect with no
polygon gets no entry.  The details of `polygonScore` hold exactly the aspects of the
normalization table whose entry is a polygon, and the score averages over these alone. -/
theorem polygonAttributes_choice (dist : α → α → α → α → Option α)
    (polygons : List (Polygon α)) (lat lng : α) (aspect : String) :
    (∀ p ∈ polygons, centroidLonLat p.coordinates =
      if p.coordinates.isEmpty then none else some (vertexMean p.coordinates)) ∧
    ((∀ a b c d, (dist a b c d).isSome = true) →
      ∀ p ∈ polygons, (centroidDistance dist lat lng p = none ↔ p.coordinates = [])) ∧
    (polygonAttributes dist polygons lat lng = none ↔
      ∃ p ∈ polygons, p.aspect ∈ objectPrototypeNames) ∧
    (∀ attrs, polygonAttributes dist polygons lat lng = some attrs →
      ((∃ p ∈ polygons, p.aspect = aspect ∧ containsQuery lat lng p = true) →
        ∃ l1 poly l2, polygons.filter (fun p => p.aspect == aspect) = l1 ++ poly :: l2 ∧
          attrs.lookup aspect = some (some poly) ∧
          containsQuery lat lng poly = true ∧ ∀ q ∈ l1, containsQuery lat lng q = false) ∧
      ((∀ p ∈ polygons, p.aspect = aspect → containsQuery lat lng p = false) →
        (∃ p ∈ polygons, p.aspect = aspect ∧
          (centroidDistance dist lat lng p).isSome = true) →
        ∃ l1 poly l2 d, polygons.filter (fun p => p.aspect == aspect) = l1 ++ poly :: l2 ∧
          attrs.lookup aspect = some (some poly) ∧
          centroidDistance dist lat lng poly = some d ∧
          (∀ q ∈ l1, ∀ dq, centroidDistance dist lat lng q = some dq → d < dq) ∧
          (∀ q ∈ l2, ∀ dq, centroidDistance dist lat lng q = some dq → d ≤ dq)) ∧
      ((∃ p ∈ polygons, p.aspect = aspect) →
        (∀ p ∈ polygons, p.aspect = aspect →
          containsQuery lat lng p = false ∧ centroidDistance dist lat lng p = none) →
        attrs.lookup aspect = some none ∧ aspectPresent attrs aspect = false) ∧
      ((∀ p ∈ polygons, p.aspect ≠ aspect) →
        attrs.lookup aspect = none ∧ aspectPresent attrs aspect = false) ∧
      (∀ ps, polygonScore dist polygons lat lng = Outcome.value ps →
        (aspect ∈ ps.details.map Prod.fst ↔
          aspect ∈ (POLY_NORMAL_RANGES : List (String × Range α)).map Prod.fst ∧
            aspectPresent attrs aspect = true) ∧
        ps.details.length =
          (((POLY_NORMAL_RANGES : List (String × Range α)).map Prod.fst).filter
            (aspectPresent attrs)).length ∧
        ps.score = (if ps.details.length = 0 then 0
          else (ps.details.map fun d => d.2.norm).sum / (ps.details.length : α) * 100))) := by
  refine ⟨fun p _ => centroidLonLat_eq_vertexMean _, ?_,
    polygonAttributes_eq_none_iff dist polygons lat lng, ?_⟩
  · intro hd p _
    unfold centroidDistance
    cases hc : p.coordinates with
    | nil => simp
    | cons c cs =>
      simp only [List.isEmpty_cons, Bool.false_eq_true, if_false, reduceCtorEq, iff_false]
      intro hn
      have := hd lat lng (vertexMean (c :: cs)).2 (vertexMean (c :: cs)).1
      rw [hn] at this
      exact absurd this (by simp)
  · intro attrs hattrs
    have hlook := polygonAttributes_lookup dist polygons lat lng attrs hattrs aspect
    have hany_of : (∃ p ∈ polygons, p.aspect = aspect) →
        polygons.any (fun p => p.aspect == aspect) = true := by
      rintro ⟨p, hp, hpa⟩
      exact List.any_eq_true.mpr ⟨p, hp, by simp [hpa]⟩
    have hfilter : ∀ q, q ∈ polygons.filter (fun p => p.aspect == aspect) ↔
        q ∈ polygons ∧ q.aspect = aspect := by
      intro q
      rw [List.mem_filter]
      simp
    refine ⟨?_, ?_, ?_, ?_, ?_⟩
    · rintro ⟨p, hp, hpa, hpc⟩
      rw [if_pos (hany_of ⟨p, hp, hpa⟩)] at hlook
      rcases choosePolygon_spec dist lat lng (polygons.filter (fun p => p.aspect == aspect))
        with ⟨l1, poly, l2, hl, hc, hin, hbefore⟩ | ⟨hnone, _⟩ | ⟨hnone, _⟩
      · exact ⟨l1, poly, l2, hl, by rw [hlook, hc], hin, hbefore⟩
      · have := hnone p ((hfilter p).mpr ⟨hp, hpa⟩)
        rw [hpc] at this
        exact absurd this (by simp)
      · have := hnone p ((hfilter p).mpr ⟨hp, hpa⟩)
        rw [hpc] at this
        exact absurd this (by simp)
    · rintro hout ⟨p, hp, hpa, hpd⟩
      rw [if_pos (hany_of ⟨p, hp, hpa⟩)] at hlook
      rcases choosePolygon_spec dist lat lng (polygons.filter (fun p => p.aspect == aspect))
        with ⟨l1, poly, l2, hl, _, hin, _⟩ | ⟨_, l1, poly, l2, d, hl, hc, hd, h1, h2⟩ |
          ⟨_, hall, _⟩
      · have hmem : poly ∈ polygons.filter (fun p => p.aspect == aspect) := by
          rw [hl]; simp
        have := hout poly ((hfilter poly).mp hmem).1 ((hfilter poly).mp hmem).2
        rw [hin] at this
        exact absurd this (by simp)
      · exact ⟨l1, poly, l2, d, hl, by rw [hlook, hc], hd, h1, h2⟩
      · have := hall p ((hfilter p).mpr ⟨hp, hpa⟩)
        rw [this] at hpd
        exact absurd hpd (by simp)
    · rintro hex hall
      rw [if_pos (hany_of hex)] at hlook
      have hnull : attrs.lookup aspect = some none := by
        rcases choosePolygon_spec dist lat lng
          (polygons.filter (fun p => p.aspect == aspect))
          with ⟨l1, poly, l2, hl, _, hin, _⟩ | ⟨_, l1, poly, l2, d, hl, _, hd, _⟩ |
            ⟨_, _, hc⟩
        · have hmem : poly ∈ polygons.filter (fun p => p.aspect == aspect) := by
            rw [hl]; simp
          have := (hall poly ((hfilter poly).mp hmem).1 ((hfilter poly).mp hmem).2).1
          rw [hin] at this
          exact absurd this (by simp)
        · have hmem : poly ∈ polygons.filter (fun p => p.aspect == aspect) := by
            rw [hl]; simp
          have := (hall poly ((hfilter poly).mp hmem).1 ((hfilter poly).mp hmem).2).2
          rw [hd] at this
          exact absurd this (by simp)
        · rw [hlook, hc]
      exact ⟨hnull, by simp [aspectPresent, hnull]⟩
    · intro hnone
      have hany : polygons.any (fun p => p.aspect == aspect) = false := by
        rw [Bool.eq_false_iff]
        intro h
        obtain ⟨p, hp, hpa⟩ := List.any_eq_true.mp h
        exact hnone p hp (by simpa using hpa)
      rw [hany] at hlook
      simp only [Bool.false_eq_true, if_false] at hlook
      exact ⟨hlook, by simp [aspectPresent, hlook]⟩
    · intro ps hps
      obtain ⟨_, hk, hs, _⟩ := polygonScore_spec dist polygons lat lng attrs hattrs ps hps
      refine ⟨?_, ?_, hs⟩
      · rw [hk, List.mem_filter]
      · rw [← hk, List.length_map]

/-- Witness for C5: of two crime-rate zones, the one around the query point is chosen;
and of a zone with an empty ring and a zone away from the query point, the second is
chosen. -/
theorem polygonAttributes_choice_witness :
    (∃ attrs poly,
      polygonAttributes (fun a b c d => some (haversineKm a b c d))
        [⟨"crime_rate", "west", [(-77, 40), (-77, 41), (-76, 41), (-76, 40)], fun _ => some 3⟩,
         ⟨"crime_rate", "east", [(-75, 40), (-75, 41), (-73, 41), (-73, 40)], fun _ => some 5⟩]
        (407 / 10) (-74) = some attrs ∧
      attrs.lookup "crime_rate" = some (some poly) ∧ poly.zone_type = "east") ∧
    (∃ attrs poly,
      polygonAttributes (fun a b c d => some (haversineKm a b c d))
        [⟨"crime_rate", "empty", [], fun _ => some 3⟩,
         ⟨"crime_rate", "far", [(-77, 40), (-77, 41), (-76, 41), (-76, 40)], fun _ => some 5⟩]
        (407 / 10) (-74) = some attrs ∧
      attrs.lookup "crime_rate" = some (some poly) ∧ poly.zone_type = "far") := by
  have hwest : pointInPolygon ((-74 : ℝ), (407 / 10 : ℝ))
      [(-77, 40), (-77, 41), (-76, 41), (-76, 40)] = false :=
    pointInPolygon_rectangle_outside (-77) 40 (-76) 41 (-74) (407 / 10)
      (by norm_num) (by norm_num) (Or.inr (Or.inl (by norm_num)))
  have heast : pointInPolygon ((-74 : ℝ), (407 / 10 : ℝ))
      [(-75, 40), (-75, 41), (-73, 41), (-73, 40)] = true :=
    pointInPolygon_rectangle_inside (-75) 40 (-73) 41 (-74) (407 / 10)
      (by norm_num) (by norm_num) (by norm_num) (by norm_num)
  constructor
  · have h := polygonAttributes_choice (fun a b c d => some (haversineKm a b c d))
      [⟨"crime_rate", "west", [(-77, 40), (-77, 41), (-76, 41), (-76, 40)], fun _ => some 3⟩,
       ⟨"crime_rate", "east", [(-75, 40), (-75, 41), (-73, 41), (-73, 40)], fun _ => some 5⟩]
      (407 / 10) (-74) "crime_rate"
    cases hattrs : polygonAttributes (fun a b c d => some (haversineKm a b c d))
      [⟨"crime_rate", "west", [(-77, 40), (-77, 41), (-76, 41), (-76, 40)], fun _ => some 3⟩,
       ⟨"crime_rate", "east", [(-75, 40), (-75, 41), (-73, 41), (-73, 40)], fun _ => some 5⟩]
      (407 / 10) (-74) with
    | none =>
      obtain ⟨p, hp, hproto⟩ := h.2.2.1.mp hattrs
      simp at hp
      rcases hp with rfl | rfl <;> simp [objectPrototypeNames] at hproto
    | some attrs =>
      obtain ⟨l1, poly, l2, hl, hlook, hin, _⟩ := (h.2.2.2 attrs hattrs).1
        ⟨_, List.mem_cons_of_mem _ (List.mem_cons_self _ _), rfl, heast⟩
      refine ⟨attrs, poly, rfl, hlook, ?_⟩
      have hmem : poly ∈ List.filter (fun p => p.aspect == "crime_rate")
          [(⟨"crime_rate", "west", [(-77, 40), (-77, 41), (-76, 41), (-76, 40)],
              fun _ => some 3⟩ : Polygon ℝ),
           ⟨"crime_rate", "east", [(-75, 40), (-75, 41), (-73, 41), (-73, 40)],
              fun _ => some 5⟩] := by
        rw [hl]; simp
      simp [List.filter] at hmem
      rcases hmem with rfl | rfl
      · simp [containsQuery, hwest] at hin
      · rfl
  · have h := polygonAttributes_choice (fun a b c d => some (haversineKm a b c d))
      [⟨"crime_rate", "empty", [], fun _ => some 3⟩,
       ⟨"crime_rate", "far", [(-77, 40), (-77, 41), (-76, 41), (-76, 40)], fun _ => some 5⟩]
      (407 / 10) (-74) "crime_rate"
    cases hattrs : polygonAttributes (fun a b c d => some (haversineKm a b c d))
      [⟨"crime_rate", "empty", [], fun _ => some 3⟩,
       ⟨"crime_rate", "far", [(-77, 40), (-77, 41), (-76, 41), (-76, 40)], fun _ => some 5⟩]
      (407 / 10) (-74) with
    | none =>
      obtain ⟨p, hp, hproto⟩ := h.2.2.1.mp hattrs
      simp at hp
      rcases hp with rfl | rfl <;> simp [objectPrototypeNames] at hproto
    | some attrs =>
      obtain ⟨l1, poly, l2, d, hl, hlook, hd, _⟩ := (h.2.2.2 attrs hattrs).2.1
        (by
          intro p hp _
          simp at hp
          rcases hp with rfl | rfl
          · simp [containsQuery, pointInPolygon]
          · simpa [containsQuery] using hwest)
        ⟨_, List.mem_cons_of_mem _ (List.mem_cons_self _ _), rfl, by simp [centroidDistance]⟩
      refine ⟨attrs, poly, rfl, hlook, ?_⟩
      have hmem : poly ∈ List.filter (fun p => p.aspect == "crime_rate")
          [(⟨"crime_rate", "empty", [], fun _ => some 3⟩ : Polygon ℝ),
           ⟨"crime_rate", "far", [(-77, 40), (-77, 41), (-76, 41), (-76, 40)],
              fun _ => some 5⟩] := by
        rw [hl]; simp
      simp [List.filter] at hmem
      rcases hmem with rfl | rfl
      · simp [centroidDistance] at hd
      · rfl

/-- C6: on the ring `[(x0,y0),(x0,y1),(x1,y1),(x1,y0)]` of an axis-aligned rectangle with
`x0 < x1` and `y0 < y1`, `pointInPolygon` is true for every point strictly inside and
false for every point strictly outside the closed rectangle, and no divisor that it
evaluates is zero (the division is not evaluated on the horizontal edges). -/
theorem pointInPolygon_on_rectangle (x0 y0 x1 y1 : α) (hx : x0 < x1) (hy : y0 < y1)
    (x y : α) :
    (x0 < x ∧ x < x1 ∧ y0 < y ∧ y < y1 →
      pointInPolygon (x, y) [(x0, y0), (x0, y1), (x1, y1), (x1, y0)] = true) ∧
    (x < x0 ∨ x1 < x ∨ y < y0 ∨ y1 < y →
      pointInPolygon (x, y) [(x0, y0), (x0, y1), (x1, y1), (x1, y0)] = false) ∧
    (∀ d ∈ evaluatedDivisors (x, y) [(x0, y0), (x0, y1), (x1, y1), (x1, y0)], d ≠ 0) :=
  ⟨fun h => pointInPolygon_rectangle_inside x0 y0 x1 y1 x y h.1 h.2.1 h.2.2.1 h.2.2.2,
   fun h => pointInPolygon_rectangle_outside x0 y0 x1 y1 x y hx hy h,
   evaluatedDivisors_ne_zero _ _⟩

/-- Witness for C6: on the unit square, `(0.5, 0.5)` is inside and `(2, 2)` is outside. -/
theorem pointInPolygon_on_rectangle_witness :
    pointInPolygon ((1 / 2 : ℚ), (1 / 2 : ℚ)) [(0, 0), (0, 1), (1, 1), (1, 0)] = true ∧
    pointInPolygon ((2 : ℚ), (2 : ℚ)) [(0, 0), (0, 1), (1, 1), (1, 0)] = false :=
  ⟨(pointInPolygon_on_rectangle (0 : ℚ) 0 1 1 (by norm_num) (by norm_num) (1 / 2) (1 / 2)).1
      ⟨by norm_num, by norm_num, by norm_num, by norm_num⟩,
   (pointInPolygon_on_rectangle (0 : ℚ) 0 1 1 (by norm_num) (by norm_num) 2 2).2.1
      (Or.inr (Or.inl (by norm_num)))⟩

/-- C7: for every cutoff `maxD > 0` (`decay` is called with the cutoffs 2.0 and 1.5
only), `decay(0, maxD) = 1`; and for every `maxD`, `decay(maxD, maxD) = 0`,
`decay(d, maxD) = 0` for every `d > maxD`, `decay` is non-increasing in `d` on
`[0, maxD]`, and every value is in `[0,1]` for `d ≥ 0`; at the two cutoffs of the scorer,
`decay(0, 2.0) = 1` and `decay(0, 1.5) = 1`. -/
theorem decay_properties (maxD : α) :
    (0 < maxD → decay 0 maxD = 1) ∧
    decay maxD maxD = 0 ∧
    (∀ d, maxD < d → decay d maxD = 0) ∧
    (∀ d1 d2, 0 ≤ d1 → d1 ≤ d2 → d2 ≤ maxD → decay d2 maxD ≤ decay d1 maxD) ∧
    (∀ d, 0 ≤ d → 0 ≤ decay d maxD ∧ decay d maxD ≤ 1) ∧
    decay 0 (POSITIVE_MAX_DIST_KM : α) = 1 ∧
    decay 0 (NEGATIVE_RADIUS_KM : α) = 1 := by
  have h0 : ∀ m : α, 0 < m → decay 0 m = 1 := by
    intro m h
    rw [decay_of_lt h]
    simp
  exact ⟨h0 maxD, decay_of_le le_rfl, fun d h => decay_of_le h.le,
    fun d1 d2 h0 h12 _ => decay_antitone h0 h12,
    fun d hd => ⟨decay_nonneg _ _, decay_le_one hd⟩,
    h0 _ (by norm_num [POSITIVE_MAX_DIST_KM]), h0 _ (by norm_num [NEGATIVE_RADIUS_KM])⟩

/-- Witness for C7 at `maxD = 2` over the rationals. -/
theorem decay_properties_witness :
    decay (0 : ℚ) 2 = 1 ∧ decay (2 : ℚ) 2 = 0 ∧ decay (3 : ℚ) 2 = 0 ∧
    decay (1 : ℚ) 2 ≤ decay (1 / 2 : ℚ) 2 ∧ (0 ≤ decay (1 : ℚ) 2 ∧ decay (1 : ℚ) 2 ≤ 1) :=
  have h := decay_properties (2 : ℚ)
  ⟨h.1 (by norm_num), h.2.1, h.2.2.1 3 (by norm_num),
   h.2.2.2.1 (1 / 2) 1 (by norm_num) (by norm_num) (by norm_num),
   h.2.2.2.2.1 1 (by norm_num)⟩

/-- C8: on a range with `min < max`, `normalize(v, range)` lies in `[0,1]`; `min` gives
`0` and `max` gives `1` when `invert` is false, `min` gives `1` and `max` gives `0` when
it is true; a value below `min` or above `max` gives the result of `min` or `max`; every
range of `POLY_NORMAL_RANGES` has `min < max`, and its aspects are pairwise distinct.
On every classification `attrs` that `polygonAttributes` returns, `polygonScore` returns a
number exactly when the polygon of every present aspect of the table has a value to read
(the score is `NaN` exactly when one has none); its details are then those of the present
aspects of the table, in table order, each with the value read from the polygon chosen
for the aspect and that value normalized over the range of the aspect, a number in
`[0,1]`; and its score is the mean of these normalized values times 100, and `0` when no
aspect is present, a number in `[0,100]`.  A number is returned whenever no aspect is
named like a member of `Object.prototype` and every polygon carries a value for its
aspect. -/
theorem normalize_and_polygonScore_bounds (range : Range α) (h : range.min < range.max)
    (v : α) :
    (0 ≤ normalize v range ∧ normalize v range ≤ 1) ∧
    (range.invert = false → normalize range.min range = 0 ∧ normalize range.max range = 1) ∧
    (range.invert = true → normalize range.min range = 1 ∧ normalize range.max range = 0) ∧
    (v ≤ range.min → normalize v range = normalize range.min range) ∧
    (range.max ≤ v → normalize v range = normalize range.max range) ∧
    (∀ e ∈ (POLY_NORMAL_RANGES : List (String × Range α)), e.2.min < e.2.max) ∧
    ((POLY_NORMAL_RANGES : List (String × Range α)).map Prod.fst).Nodup ∧
    (∀ (dist : α → α → α → α → Option α) (polygons : List (Polygon α)) (lat lng : α)
      (attrs : List (String × Option (Polygon α))),
      polygonAttributes dist polygons lat lng = some attrs →
        ((∃ ps, polygonScore dist polygons lat lng = Outcome.value ps) ↔
          ∀ e ∈ (POLY_NORMAL_RANGES : List (String × Range α)), ∀ poly,
            attrs.lookup e.1 = some (some poly) → (rawValue poly e.1).isSome = true) ∧
        (polygonScore dist polygons lat lng = Outcome.notANumber ↔
          ∃ e ∈ (POLY_NORMAL_RANGES : List (String × Range α)), ∃ poly,
            attrs.lookup e.1 = some (some poly) ∧ rawValue poly e.1 = none) ∧
        ∀ ps, polygonScore dist polygons lat lng = Outcome.value ps →
          ps.details = aspectDetails attrs POLY_NORMAL_RANGES ∧
          ps.details.map Prod.fst =
            ((POLY_NORMAL_RANGES : List (String × Range α)).map Prod.fst).filter
              (aspectPresent attrs) ∧
          (∀ d ∈ ps.details, ∃ r poly,
            (d.1, r) ∈ (POLY_NORMAL_RANGES : List (String × Range α)) ∧
            attrs.lookup d.1 = some (some poly) ∧ rawValue poly d.1 = some d.2.raw ∧
            d.2.norm = normalize d.2.raw r ∧ 0 ≤ d.2.norm ∧ d.2.norm ≤ 1) ∧
          ps.score = (if ps.details.length = 0 then 0
            else (ps.details.map fun d => d.2.norm).sum / (ps.details.length : α) * 100) ∧
          0 ≤ ps.score ∧ ps.score ≤ 100) ∧
    (∀ (dist : α → α → α → α → Option α) (polygons : List (Polygon α)) (lat lng : α),
      (∀ p ∈ polygons, p.aspect ∉ objectPrototypeNames ∧
        (rawValue p p.aspect).isSome = true) →
        ∃ ps, polygonScore dist polygons lat lng = Outcome.value ps) := by
  obtain ⟨h1, h2, h3, h4, h5⟩ := normalize_props range h v
  refine ⟨h1, fun hi => ?_, fun hi => ?_, h4, h5, poly_ranges_lt, ?_, ?_, ?_⟩
  · rw [h2, h3, hi]; simp
  · rw [h2, h3, hi]; simp
  · simp [POLY_NORMAL_RANGES]
  · intro dist polygons lat lng attrs hattrs
    have hout := polygonScore_outcome dist polygons lat lng
    refine ⟨?_, ?_, ?_⟩
    · rw [hout.2.2]
      constructor
      · rintro ⟨a, ha, hall⟩
        rw [hattrs] at ha
        simp only [Option.some.injEq] at ha
        subst ha
        exact hall
      · exact fun hall => ⟨attrs, hattrs, hall⟩
    · rw [hout.2.1]
      constructor
      · rintro ⟨a, ha, hex⟩
        rw [hattrs] at ha
        simp only [Option.some.injEq] at ha
        subst ha
        exact hex
      · exact fun hex => ⟨attrs, hattrs, hex⟩
    · intro ps hps
      obtain ⟨hd, hk, hs, hb⟩ := polygonScore_spec dist polygons lat lng attrs hattrs ps hps
      refine ⟨hd, hk, fun d hdm => ?_, hs, hb⟩
      rw [hd] at hdm
      obtain ⟨r, poly, hm, hl, hr, hn⟩ := mem_aspectDetails attrs _ d hdm
      exact ⟨r, poly, hm, hl, hr, hn, aspectDetails_norm_mem_unit attrs _ d hdm⟩
  · intro dist polygons lat lng hval
    rw [(polygonScore_outcome dist polygons lat lng).2.2]
    cases hattrs : polygonAttributes dist polygons lat lng with
    | none =>
      obtain ⟨p, hp, hproto⟩ := (polygonAttributes_eq_none_iff dist polygons lat lng).mp hattrs
      exact absurd hproto (hval p hp).1
    | some attrs =>
      refine ⟨attrs, rfl, fun e _ poly hl => ?_⟩
      obtain ⟨hm, ha⟩ := polygonAttributes_chosen dist polygons lat lng attrs hattrs e.1 poly hl
      rw [← ha]
      exact (hval poly hm).2

/-- Witness for C8: the crime-rate range `{min: 2.8, max: 6.7, invert: true}` at the
value 3, and the polygon score of a point inside a crime-rate zone of value 3, the only
polygon: the details hold the aspect `crime_rate` alone, and the score is
`100 × (1 − 0.2 / 3.9)`. -/
theorem normalize_and_polygonScore_bounds_witness :
    ((0 ≤ normalize (3 : ℚ) { min := 28 / 10, max := 67 / 10, invert := true } ∧
      normalize (3 : ℚ) { min := 28 / 10, max := 67 / 10, invert := true } ≤ 1) ∧
    normalize (28 / 10 : ℚ) { min := 28 / 10, max := 67 / 10, invert := true } = 1 ∧
    normalize (67 / 10 : ℚ) { min := 28 / 10, max := 67 / 10, invert := true } = 0) ∧
    ∃ ps, polygonScore (fun _ _ _ _ => (none : Option ℚ))
        [⟨"crime_rate", "zone", [(-75, 40), (-75, 41), (-73, 41), (-73, 40)],
          fun f => if f = "crime_rate" then some 3 else none⟩] (407 / 10) (-74) =
        Outcome.value ps ∧
      ps.details.map Prod.fst = ["crime_rate"] ∧ ps.score = 3700 / 39 := by
  have h := normalize_and_polygonScore_bounds
    ({ min := 28 / 10, max := 67 / 10, invert := true } : Range ℚ) (by norm_num) 3
  refine ⟨⟨h.1, h.2.2.1 rfl⟩, ?_⟩
  have hin : pointInPolygon ((-74 : ℚ), (407 / 10 : ℚ))
      [(-75, 40), (-75, 41), (-73, 41), (-73, 40)] = true :=
    pointInPolygon_rectangle_inside (-75) 40 (-73) 41 (-74) (407 / 10)
      (by norm_num) (by norm_num) (by norm_num) (by norm_num)
  have hattrs : polygonAttributes (fun _ _ _ _ => (none : Option ℚ))
      [⟨"crime_rate", "zone", [(-75, 40), (-75, 41), (-73, 41), (-73, 40)],
        fun f => if f = "crime_rate" then some 3 else none⟩] (407 / 10) (-74) =
      some [("crime_rate", some ⟨"crime_rate", "zone",
        [(-75, 40), (-75, 41), (-73, 41), (-73, 40)],
        fun f => if f = "crime_rate" then some 3 else none⟩)] := by
    simp [polygonAttributes, groupByAspect, objectPrototypeNames, Buckets.get, Buckets.set,
      Buckets.push, choosePolygon, hin]
  obtain ⟨hv, _, hspec⟩ := h.2.2.2.2.2.2.2.1 _ _ _ _ _ hattrs
  obtain ⟨ps, hps⟩ := hv.mpr (by
    intro e he poly hl
    simp [POLY_NORMAL_RANGES] at he
    rcases he with rfl | rfl | rfl | rfl | rfl <;> simp [List.lookup] at hl
    subst hl
    simp [rawValue])
  obtain ⟨hd, hk, _, hs, _⟩ := hspec ps hps
  refine ⟨ps, hps, ?_, ?_⟩
  · rw [hk]
    simp [POLY_NORMAL_RANGES, aspectPresent, List.lookup, List.filter]
  · rw [hs, hd]
    simp [aspectDetails, POLY_NORMAL_RANGES, List.lookup, rawValue, normalize]
    norm_num

/-- C9: after `setWeights(p)`, `getWeights()` returns the value of `p` for each field
that `p` supplies and the value of the current configuration `w` for each field that it
does not; `getWeights()` leaves the configuration unchanged, so two successive calls
return equal values; the initial configuration is `{amenity: 0.4, polygons: 0.4,
penalty: 0.2}`. -/
theorem setWeights_getWeights (w : Weights α) (p : PartialWeights α) :
    (∀ v, p.amenity = some v → (getWeights (setWeights w p)).1.amenity = v) ∧
    (∀ v, p.polygons = some v → (getWeights (setWeights w p)).1.polygons = v) ∧
    (∀ v, p.penalty = some v → (getWeights (setWeights w p)).1.penalty = v) ∧
    (p.amenity = none → (getWeights (setWeights w p)).1.amenity = w.amenity) ∧
    (p.polygons = none → (getWeights (setWeights w p)).1.polygons = w.polygons) ∧
    (p.penalty = none → (getWeights (setWeights w p)).1.penalty = w.penalty) ∧
    (getWeights w).2 = w ∧
    (getWeights (getWeights w).2).1 = (getWeights w).1 ∧
    (getWeights w).1 = w ∧
    (getWeights (initialWeights : Weights α)).1 =
      { amenity := 4 / 10, polygons := 4 / 10, penalty := 2 / 10 } := by
  refine ⟨?_, ?_, ?_, ?_, ?_, ?_, rfl, rfl, rfl, rfl⟩ <;> intros <;>
    simp_all [getWeights, setWeights]

/-- Witness for C9: a partial update of `amenity` alone on the initial configuration. -/
theorem setWeights_getWeights_witness :
    (getWeights (setWeights (initialWeights : Weights ℚ)
        { amenity := some 1, polygons := none, penalty := none })).1 =
      { amenity := 1, polygons := 4 / 10, penalty := 2 / 10 } := by
  have h := setWeights_getWeights (initialWeights : Weights ℚ)
    { amenity := some 1, polygons := none, penalty := none }
  have h1 := h.1 1 rfl
  have h2 := h.2.2.2.2.1 rfl
  have h3 := h.2.2.2.2.2.1 rfl
  cases hg : (getWeights (setWeights (initialWeights : Weights ℚ)
        { amenity := some 1, polygons := none, penalty := none })).1 with
  | mk a b c =>
    rw [hg] at h1 h2 h3
    simp only at h1 h2 h3
    rw [h1, h2, h3]
    rfl

/-- C10: for every list of points and every cell size `> 0`, the index of `buildGridIndex`
has pairwise distinct keys, the bucket under a key holds exactly the input points whose
key `floor(longitude/cellSize) + ':' + floor(latitude/cellSize)` it is, every input point
is in the bucket of its key (and so in no other), the buckets together are a permutation
of the input list, two cells share a key only when their coordinates are equal, and the
returned `cellSizeDeg` is the one given. -/
theorem buildGridIndex_partition [FloorRing α] (points : List (Point α)) (cellSizeDeg : α)
    (hcell : 0 < cellSizeDeg) :
    (buildGridIndex points cellSizeDeg).cellSizeDeg = cellSizeDeg ∧
    ((buildGridIndex points cellSizeDeg).index.map Prod.fst).Nodup ∧
    (∀ e ∈ (buildGridIndex points cellSizeDeg).index,
      e.2 = points.filter (fun p => pointKey cellSizeDeg p == e.1)) ∧
    (∀ e ∈ (buildGridIndex points cellSizeDeg).index, ∀ p ∈ e.2,
      p ∈ points ∧ e.1 = cellKey ⌊p.longitude / cellSizeDeg⌋ ⌊p.latitude / cellSizeDeg⌋) ∧
    (∀ p ∈ points, ∃ e ∈ (buildGridIndex points cellSizeDeg).index,
      e.1 = cellKey ⌊p.longitude / cellSizeDeg⌋ ⌊p.latitude / cellSizeDeg⌋ ∧ p ∈ e.2) ∧
    ((buildGridIndex points cellSizeDeg).index.flatMap Prod.snd).Perm points ∧
    (∀ a b c d : ℤ, cellKey a b = cellKey c d → a = c ∧ b = d) := by
  have _ := hcell
  refine ⟨rfl, buildGridIndex_nodup points cellSizeDeg,
    buildGridIndex_bucket points cellSizeDeg, ?_, ?_, buildGridIndex_perm points cellSizeDeg,
    cellKey_injective⟩
  · intro e he p hp
    rw [buildGridIndex_bucket points cellSizeDeg e he, List.mem_filter] at hp
    exact ⟨hp.1, (beq_iff_eq.mp hp.2).symm⟩
  · intro p hp
    have hg := buildGridIndex_get points cellSizeDeg (pointKey cellSizeDeg p)
    have hany : points.any (fun q => pointKey cellSizeDeg q == pointKey cellSizeDeg p) = true :=
      List.any_eq_true.mpr ⟨p, hp, by simp⟩
    rw [if_pos hany] at hg
    refine ⟨_, Buckets.mem_of_get _ _ _ hg, rfl, ?_⟩
    exact List.mem_filter.mpr ⟨hp, by simp⟩

/-- Witness for C10: the two points of the grid scenario, with the cell size 0.01. -/
theorem buildGridIndex_partition_witness :
    ((buildGridIndex
        [(⟨"P1", "park", 4070 / 100, -7399 / 100⟩ : Point ℚ),
         ⟨"P2", "park", 4071 / 100, -7398 / 100⟩] (1 / 100)).index.flatMap Prod.snd).Perm
      [(⟨"P1", "park", 4070 / 100, -7399 / 100⟩ : Point ℚ),
       ⟨"P2", "park", 4071 / 100, -7398 / 100⟩] :=
  (buildGridIndex_partition
    [(⟨"P1", "park", 4070 / 100, -7399 / 100⟩ : Point ℚ),
     ⟨"P2", "park", 4071 / 100, -7398 / 100⟩] (1 / 100) (by norm_num)).2.2.2.2.2.1

/-- C11: over real arithmetic, for all latitudes and longitudes in degrees,
`haversineKm(a,b,a,b) = 0`, `haversineKm(a,b,c,d) = haversineKm(c,d,a,b)` and
`haversineKm` is never negative; the term `a` under the square roots lies in `[0,1]`, so
both square roots are defined. -/
theorem haversineKm_zero_symm_nonneg (a b c d : ℝ) :
    haversineKm a b a b = 0 ∧
    haversineKm a b c d = haversineKm c d a b ∧
    0 ≤ haversineKm a b c d ∧
    (0 ≤ haversineTerm a b c d ∧ haversineTerm a b c d ≤ 1) := by
  refine ⟨haversineKm_self a b, ?_, ?_, haversineTerm_mem_unit a b c d⟩
  · rw [haversineKm_eq_term, haversineKm_eq_term, haversineTerm_symm]
  · rw [haversineKm_eq_term]
    have := atan2_nonneg _ _ (Real.sqrt_nonneg (haversineTerm a b c d))
      (Real.sqrt_nonneg (1 - haversineTerm a b c d))
    positivity

end Claims

end Habitability
